import Mathlib

/-!
# mbOS message queue (`Kernel/Source/msgqueue.c`)

A shallow embedding of the message-queue object of the mbOS real-time kernel.

* Addresses are natural numbers, `NULL` is `0`.
* The intrusive circular lists `queue_t` are represented by the list of the
  linked entries, head first: the sentinel node is the list itself,
  `que->next` of the sentinel is the head of the list, `QueueAppend (que, e)`
  links `e` immediately before the node `que`.
* A message slot is a record carrying its address, its header fields and the
  `msg_size` payload bytes stored behind the header (`&msg[1]`).  Slot memory
  is kept apart from the user memory `Kernel.mem`.
* Control blocks live in `Kernel.objs`, thread control blocks in
  `Kernel.threads`, both indexed by their address.
-/

namespace MbOS

/-! ## Object identifiers and status codes -/

def NULL : Nat := 0

def ID_INVALID : Nat := 0x00
def ID_MESSAGE_QUEUE : Nat := 0x1C
def ID_MESSAGE : Nat := 0x1D

/-- The object flag `#define FLAGS_POST_PROC (uint8_t)(1U << 0U)` of
`kernel_lib.h`. -/
def FLAGS_POST_PROC : Nat := 1

abbrev osStatus_t := Int

/-- Modelled from the spec: the status code `OK (0)` of the error taxonomy. The
header declaring `osStatus_t` is not part of the sources; the numbering of the
error codes below is the one of CMSIS-RTOS2. -/
def osOK : osStatus_t := 0

/-- Modelled from the spec: the status code `ErrorTimeout`. -/
def osErrorTimeout : osStatus_t := -2

/-- Modelled from the spec: the status code `ErrorResource`. -/
def osErrorResource : osStatus_t := -3

/-- Modelled from the spec: the status code `ErrorParameter`. -/
def osErrorParameter : osStatus_t := -4

/-- Modelled from the spec: the status code `ErrorISR`. -/
def osErrorISR : osStatus_t := -6

/-- The sentinel `#define osThreadWait (-16)` of `kernel_lib.h`. -/
def osThreadWait : osStatus_t := -16

/-- The cast `(uint32_t)status`. -/
def toU32 (s : osStatus_t) : Nat := (s % 4294967296).toNat

/-- The cast `(osStatus_t)word` of a 32-bit word. -/
def ofU32 (w : Nat) : osStatus_t :=
  if w % 4294967296 < 2147483648 then (w % 4294967296 : Nat) else (w % 4294967296 : Nat) - 4294967296

inductive dispatch_t where
  | DISPATCH_NO
  | DISPATCH_YES
  deriving DecidableEq, Repr

/-! ## Data model -/

/-- Thread states (the low nibble of the state byte). -/
inductive ThreadState where
  | ThreadInactive
  | ThreadReady
  | ThreadRunning
  | ThreadBlocked
  | ThreadTerminated
  deriving DecidableEq, Repr

/-- The message-queue member of the wait-info union: two 32-bit words. -/
structure winfo_msgque_t where
  msg : Nat
  msg_prio : Nat
  deriving DecidableEq, Repr

structure winfo_t where
  msgque : winfo_msgque_t
  ret_val : Nat
  deriving DecidableEq, Repr

structure osThread_t where
  state : ThreadState
  winfo : winfo_t
  deriving DecidableEq, Repr

/-- Memory pool info: the free list `block_free` is the chain of the free
blocks, head first. -/
structure osMemoryPoolInfo_t where
  max_blocks : Nat
  block_size : Nat
  block_base : Nat
  block_free : List Nat
  deriving DecidableEq, Repr

/-- A message slot: `addr` is the address of the slot, `data` the payload bytes
stored at `&msg[1]`. -/
structure osMessage_t where
  addr : Nat
  id : Nat
  flags : Nat
  priority : Nat
  data : List Nat
  deriving DecidableEq, Repr

structure osMessageQueue_t where
  id : Nat
  flags : Nat
  name : Nat
  msg_size : Nat
  msg_count : Nat
  wait_put_queue : List Nat
  wait_get_queue : List Nat
  msg_queue : List osMessage_t
  mp_info : osMemoryPoolInfo_t
  deriving DecidableEq, Repr

structure osMessageQueueAttr_t where
  name : Nat
  attr_bits : Nat
  cb_mem : Nat
  cb_size : Nat
  mq_mem : Nat
  mq_size : Nat
  deriving DecidableEq, Repr

/-- The kernel state seen by the message-queue code. -/
structure Kernel where
  /-- message-queue control blocks, by address -/
  objs : Nat → osMessageQueue_t
  /-- thread control blocks, by address -/
  threads : Nat → osThread_t
  /-- Value of `osInfo.thread.run.curr` -/
  curr : Nat
  /-- threads made ready, in the order they were added -/
  ready_list : List Nat
  /-- threads waiting with a finite timeout, with their wake-up tick -/
  delay_queue : List (Nat × Nat)
  /-- Value of `osInfo.kernel.tick` -/
  tick : Nat
  /-- number of dispatch requests issued so far -/
  dispatch_req : Nat
  /-- objects linked in `osInfo.post_queue`, the ISR post-processing queue -/
  post_queue : List Nat
  /-- user memory, byte by byte -/
  mem : Nat → Nat
  /-- Value of `IsIrqMode()` -/
  irq_mode : Bool
  /-- Value of `IsIrqMasked()` -/
  irq_masked : Bool
  /-- whether the port lets the running thread enter a wait state -/
  wait_allowed : Bool

/-! ## User memory -/

/-- The `n` bytes at `ptr`. -/
def readBytes (mem : Nat → Nat) (ptr n : Nat) : List Nat :=
  (List.range n).map (fun i => mem (ptr + i))

/-- Memory after storing the bytes `bs` at `ptr`. -/
def writeBytes (mem : Nat → Nat) (ptr : Nat) (bs : List Nat) : Nat → Nat :=
  fun a => if ptr ≤ a ∧ a < ptr + bs.length then bs.getD (a - ptr) 0 else mem a

/-- The call `memcpy (dst, src, n)` inside user memory. -/
def memcpy (mem : Nat → Nat) (dst src n : Nat) : Nat → Nat :=
  writeBytes mem dst (readBytes mem src n)

/-! ## Queue primitive (`kernel_lib.h`), on the list of linked entries

A position in a circular list is the index of a node, the sentinel having the
index `length`. -/

/-- Embeds `QueueReset (que)`: the list becomes empty. -/
def QueueReset {α : Type} (_que : List α) : List α := []

/-- Embeds `isQueueEmpty (que)`: `que->next == que`. -/
def isQueueEmpty {α : Type} (que : List α) : Bool := que.isEmpty

/-- Embeds `QueueAppend (que, entry)` where `que` is the node at position `pos`: the
entry is linked between `que->prev` and `que`; for the sentinel this is the
tail of the list. -/
def QueueAppend {α : Type} (l : List α) (pos : Nat) (entry : α) : List α :=
  l.take pos ++ entry :: l.drop pos

/-- Embeds `QueueExtract (que)` on a non-empty list: unlinks and returns the head. -/
def QueueExtract {α : Type} : List α → Option α × List α
  | [] => (none, [])
  | entry :: rest => (some entry, rest)

/-- Embeds `QueueRemoveEntry (entry)`: unlinks the entry from the list it is in. -/
def QueueRemoveEntry {α : Type} [DecidableEq α] (l : List α) (entry : α) : List α :=
  l.erase entry

/-! ## Memory pool -/

/-- The chain of all blocks of the region, in address order. -/
def poolChain (block_count block_size block_mem : Nat) : List Nat :=
  (List.range block_count).map (fun i => block_mem + i * block_size)

/-- Modelled from the spec: `libMemoryPoolInit`, whose body is not part of the
sources. A pool holds `max_blocks` fixed-size slots in a caller-supplied
contiguous region; the free list threads the free blocks. -/
def libMemoryPoolInit (block_count block_size block_mem : Nat) : osMemoryPoolInfo_t :=
  { max_blocks := block_count, block_size := block_size, block_base := block_mem,
    block_free := poolChain block_count block_size block_mem }

/-- Modelled from the spec: `libMemoryPoolReset`, whose body is not part of the
sources. `Reset` rebuilds the chain over the full region. -/
def libMemoryPoolReset (mp : osMemoryPoolInfo_t) : osMemoryPoolInfo_t :=
  { mp with block_free := poolChain mp.max_blocks mp.block_size mp.block_base }

/-- Modelled from the spec: `libMemoryPoolAlloc`, whose body is not part of the
sources. `Alloc` returns the head of the free list or nullish (`none`). -/
def libMemoryPoolAlloc (mp : osMemoryPoolInfo_t) : Option (Nat × osMemoryPoolInfo_t) :=
  match mp.block_free with
  | [] => none
  | block :: rest => some (block, { mp with block_free := rest })

/-- Modelled from the spec: `libMemoryPoolFree`, whose body is not part of the
sources. `Free` pushes the block at the head of the free list. -/
def libMemoryPoolFree (mp : osMemoryPoolInfo_t) (block : Nat) : osMemoryPoolInfo_t :=
  { mp with block_free := block :: mp.block_free }

/-! ## Thread wait state -/

/-- Modelled from the spec: the reserved infinite timeout. -/
def osWaitForever : Nat := 0xFFFFFFFF

/-- The two wait queues of a message queue. -/
inductive WaitQueue where
  | wait_put_queue
  | wait_get_queue
  deriving DecidableEq, Repr

/-- Embeds `ThreadGetRunning ()` of `kernel_lib.h`. -/
def ThreadGetRunning (k : Kernel) : Nat := k.curr

/-- Sorted insertion into the delay list; ties keep FIFO order. -/
def delayInsert (thread wakeup : Nat) : List (Nat × Nat) → List (Nat × Nat)
  | [] => [(thread, wakeup)]
  | e :: rest =>
    if wakeup < e.2 then (thread, wakeup) :: e :: rest else e :: delayInsert thread wakeup rest

/-- Modelled from the spec: `libThreadDispatch`, whose body is not part of the
sources; only the request is recorded. -/
def libThreadDispatch (k : Kernel) : Kernel :=
  { k with dispatch_req := k.dispatch_req + 1 }

/-- Modelled from the spec: `libThreadWaitExit`, whose body is not part of the
sources. Wait-exit: unlink from both queues (the wait queue the thread is
linked in and the delay list), stash the return value in `winfo.ret_val`, mark
Ready, add to the ready list tail, and per the `dispatch` parameter either
re-dispatch or leave that to the caller. -/
def libThreadWaitExit (k : Kernel) (thread ret_val : Nat) (dispatch : dispatch_t) : Kernel :=
  let k1 : Kernel :=
    { k with
      objs := fun a =>
        { k.objs a with
          wait_put_queue := QueueRemoveEntry (k.objs a).wait_put_queue thread
          wait_get_queue := QueueRemoveEntry (k.objs a).wait_get_queue thread }
      delay_queue := k.delay_queue.filter (fun e => e.1 != thread)
      threads := Function.update k.threads thread
        { state := ThreadState.ThreadReady
          winfo := { (k.threads thread).winfo with ret_val := ret_val } }
      ready_list := k.ready_list ++ [thread] }
  match dispatch with
  | dispatch_t.DISPATCH_YES => libThreadDispatch k1
  | dispatch_t.DISPATCH_NO => k1

/-- Modelled from the spec: `libThreadWaitEnter`, whose body is not part of the
sources. Wait-enter: remove from ready, set the state to Blocked, link
`thread_que` at the tail of the wait queue of the object, if the timeout is
finite add to the delay list sorted by absolute wake-up tick, request dispatch.
The result tells whether the wait state was entered. -/
def libThreadWaitEnter (k : Kernel) (thread mq : Nat) (wq : WaitQueue) (timeout : Nat) :
    Bool × Kernel :=
  if k.wait_allowed then
    let q := k.objs mq
    let q1 : osMessageQueue_t :=
      match wq with
      | WaitQueue.wait_put_queue =>
        { q with wait_put_queue := QueueAppend q.wait_put_queue q.wait_put_queue.length thread }
      | WaitQueue.wait_get_queue =>
        { q with wait_get_queue := QueueAppend q.wait_get_queue q.wait_get_queue.length thread }
    (true,
      libThreadDispatch
        { k with
          ready_list := k.ready_list.erase thread
          threads := Function.update k.threads thread
            { k.threads thread with state := ThreadState.ThreadBlocked }
          objs := Function.update k.objs mq q1
          delay_queue :=
            if timeout < osWaitForever then
              delayInsert thread (min (k.tick + timeout) osWaitForever) k.delay_queue
            else k.delay_queue })
  else (false, k)

/-- Modelled from the spec: `libThreadWaitDelete`, whose body is not part of
the sources. Wait-delete: drain each waiter, complete with `ErrorResource`,
then single dispatch. -/
def libThreadWaitDelete (k : Kernel) (mq : Nat) (wq : WaitQueue) : Kernel :=
  let waiters :=
    match wq with
    | WaitQueue.wait_put_queue => (k.objs mq).wait_put_queue
    | WaitQueue.wait_get_queue => (k.objs mq).wait_get_queue
  libThreadDispatch
    (waiters.foldl
      (fun s t => libThreadWaitExit s t (toU32 osErrorResource) dispatch_t.DISPATCH_NO) k)

/-! ## Message queue (`msgqueue.c`) -/

/-- The search loop of `MessagePut`: starting at `que->next` of the sentinel,
the position of the first message whose priority is below `msg_prio`; the
position of the sentinel when the walk comes back to it. -/
def MessagePut.find (msg_prio : Nat) : List osMessage_t → Nat
  | [] => 0
  | m :: rest => if m.priority < msg_prio then 0 else MessagePut.find msg_prio rest + 1

/-- The node `que` handed to `QueueAppend` by `MessagePut`: the sentinel
`&mq->msg_queue` for priority 0, else the node the search loop stops at. -/
def MessagePut.que (msg_prio : Nat) (l : List osMessage_t) : Nat :=
  if msg_prio ≠ 0 then MessagePut.find msg_prio l else l.length

/-- The slot `MessagePut` fills in: the payload is copied from user memory,
then the header is written. -/
def MessagePut.msg (k : Kernel) (mq msg_ptr msg_prio addr : Nat) : osMessage_t :=
  { addr := addr
    data := readBytes k.mem msg_ptr (k.objs mq).msg_size
    id := ID_MESSAGE
    flags := 0
    priority := msg_prio }

/-- Embeds `MessagePut (mq, msg_ptr, msg_prio)`. -/
def MessagePut (k : Kernel) (mq msg_ptr msg_prio : Nat) : Option osMessage_t × Kernel :=
  let q := k.objs mq
  match libMemoryPoolAlloc q.mp_info with
  | some (addr, mp) =>
    let msg := MessagePut.msg k mq msg_ptr msg_prio addr
    let que := MessagePut.que msg_prio q.msg_queue
    (some msg,
      { k with
        objs := Function.update k.objs mq
          { q with
            mp_info := mp
            msg_queue := QueueAppend q.msg_queue que msg
            msg_count := (q.msg_count + 1) % 4294967296 } })
  | none => (none, k)

/-- Embeds `MessageGet (mq, msg_ptr, msg_prio)`; `msg_prio` is the address the
priority is stored to, or `NULL`. -/
def MessageGet (k : Kernel) (mq msg_ptr msg_prio : Nat) : Option osMessage_t × Kernel :=
  let q := k.objs mq
  if !isQueueEmpty q.msg_queue then
    match QueueExtract q.msg_queue with
    | (some msg, rest) =>
      let mem1 := writeBytes k.mem msg_ptr msg.data
      let mem2 := if msg_prio ≠ NULL then Function.update mem1 msg_prio msg.priority else mem1
      (some { msg with id := ID_INVALID },
        { k with
          mem := mem2
          objs := Function.update k.objs mq
            { q with
              msg_queue := rest
              mp_info := libMemoryPoolFree q.mp_info msg.addr
              msg_count := (q.msg_count + 4294967295) % 4294967296 } })
    | (none, _) => (none, k)
  else (none, k)

/-- Modelled from the spec: `__CLZ`, the count of leading zero bits of a 32-bit
word (a compiler intrinsic). -/
def __CLZ (x : Nat) : Nat :=
  32 - ((List.range 32).filter (fun i => 2 ^ i ≤ x % 4294967296)).length

/-- The slot size computed by `MessageQueueNew`:
`((msg_size + 3U) & ~3UL) + sizeof(osMessage_t)` in 32-bit arithmetic. -/
def MessageQueueNew.block_size (sizeof_osMessage_t msg_size : Nat) : Nat :=
  ((((msg_size + 3) % 4294967296) &&& 0xFFFFFFFC) + sizeof_osMessage_t) % 4294967296

/-- Embeds `MessageQueueNew (msg_count, msg_size, attr)`. The sizes of the message
header and of the control block, whose declarations are not part of the
sources, are parameters. The result is the handle (`NULL` on failure). -/
def MessageQueueNew (sizeof_osMessage_t sizeof_osMessageQueue_t : Nat) (k : Kernel)
    (msg_count msg_size : Nat) (attr : Option osMessageQueueAttr_t) : Nat × Kernel :=
  match attr with
  | none => (NULL, k)
  | some attr =>
    if msg_count = 0 ∨ msg_size = 0 then (NULL, k)
    else
      let mq := attr.cb_mem
      let mq_mem := attr.mq_mem
      let mq_size := attr.mq_size
      let block_size := MessageQueueNew.block_size sizeof_osMessage_t msg_size
      if __CLZ msg_count + __CLZ block_size < 32 ∨
          mq = NULL ∨ mq &&& 3 ≠ 0 ∨ attr.cb_size < sizeof_osMessageQueue_t ∨
          mq_mem = NULL ∨ mq_mem &&& 3 ≠ 0 ∨
          mq_size < (msg_count * block_size) % 4294967296 then (NULL, k)
      else
        (mq,
          { k with
            objs := Function.update k.objs mq
              { id := ID_MESSAGE_QUEUE
                flags := 0
                name := attr.name
                msg_size := msg_size
                msg_count := 0
                wait_put_queue := QueueReset (k.objs mq).wait_put_queue
                wait_get_queue := QueueReset (k.objs mq).wait_get_queue
                msg_queue := QueueReset (k.objs mq).msg_queue
                mp_info := libMemoryPoolInit msg_count block_size mq_mem } })

/-- Embeds `MessageQueueGetName (mq_id)`. -/
def MessageQueueGetName (k : Kernel) (mq_id : Nat) : Nat :=
  if mq_id = NULL ∨ (k.objs mq_id).id ≠ ID_MESSAGE_QUEUE then NULL else (k.objs mq_id).name

/-- Embeds `MessageQueuePut (mq_id, msg_ptr, msg_prio, timeout)`. -/
def MessageQueuePut (k : Kernel) (mq_id msg_ptr msg_prio timeout : Nat) : osStatus_t × Kernel :=
  if mq_id = NULL ∨ (k.objs mq_id).id ≠ ID_MESSAGE_QUEUE ∨ msg_ptr = NULL then
    (osErrorParameter, k)
  else
    match (k.objs mq_id).wait_get_queue with
    | thread :: _ =>
      let k1 := libThreadWaitExit k thread (toU32 osOK) dispatch_t.DISPATCH_YES
      let winfo := (k1.threads thread).winfo.msgque
      let k2 := { k1 with mem := memcpy k1.mem winfo.msg msg_ptr (k1.objs mq_id).msg_size }
      let k3 :=
        if winfo.msg_prio ≠ NULL then
          { k2 with mem := Function.update k2.mem winfo.msg_prio msg_prio }
        else k2
      (osOK, k3)
    | [] =>
      match MessagePut k mq_id msg_ptr msg_prio with
      | (some _, k1) => (osOK, k1)
      | (none, k1) =>
        if timeout ≠ 0 then
          let thread := ThreadGetRunning k1
          match libThreadWaitEnter k1 thread mq_id WaitQueue.wait_put_queue timeout with
          | (true, k2) =>
            (osThreadWait,
              { k2 with
                threads := Function.update k2.threads thread
                  { k2.threads thread with
                    winfo :=
                      { (k2.threads thread).winfo with
                        msgque := { msg := msg_ptr, msg_prio := msg_prio } } } })
          | (false, k2) => (osErrorTimeout, k2)
        else (osErrorResource, k1)

/-- Embeds `MessageQueueGet (mq_id, msg_ptr, msg_prio, timeout)`. -/
def MessageQueueGet (k : Kernel) (mq_id msg_ptr msg_prio timeout : Nat) : osStatus_t × Kernel :=
  if mq_id = NULL ∨ (k.objs mq_id).id ≠ ID_MESSAGE_QUEUE ∨ msg_ptr = NULL then
    (osErrorParameter, k)
  else
    match MessageGet k mq_id msg_ptr msg_prio with
    | (some _, k1) =>
      match (k1.objs mq_id).wait_put_queue with
      | thread :: _ =>
        let winfo := (k1.threads thread).winfo.msgque
        match MessagePut k1 mq_id winfo.msg (winfo.msg_prio % 256) with
        | (some _, k2) => (osOK, libThreadWaitExit k2 thread (toU32 osOK) dispatch_t.DISPATCH_YES)
        | (none, k2) => (osOK, k2)
      | [] => (osOK, k1)
    | (none, k1) =>
      if timeout ≠ 0 then
        let thread := ThreadGetRunning k1
        match libThreadWaitEnter k1 thread mq_id WaitQueue.wait_get_queue timeout with
        | (true, k2) =>
          (osThreadWait,
            { k2 with
              threads := Function.update k2.threads thread
                { k2.threads thread with
                  winfo :=
                    { (k2.threads thread).winfo with
                      msgque := { msg := msg_ptr, msg_prio := msg_prio } } } })
        | (false, k2) => (osErrorTimeout, k2)
      else (osErrorResource, k1)

/-- Embeds `MessageQueueGetCapacity (mq_id)`. -/
def MessageQueueGetCapacity (k : Kernel) (mq_id : Nat) : Nat :=
  if mq_id = NULL ∨ (k.objs mq_id).id ≠ ID_MESSAGE_QUEUE then 0
  else (k.objs mq_id).mp_info.max_blocks

/-- Embeds `MessageQueueGetMsgSize (mq_id)`. -/
def MessageQueueGetMsgSize (k : Kernel) (mq_id : Nat) : Nat :=
  if mq_id = NULL ∨ (k.objs mq_id).id ≠ ID_MESSAGE_QUEUE then 0
  else (k.objs mq_id).msg_size

/-- Embeds `MessageQueueGetCount (mq_id)`. -/
def MessageQueueGetCount (k : Kernel) (mq_id : Nat) : Nat :=
  if mq_id = NULL ∨ (k.objs mq_id).id ≠ ID_MESSAGE_QUEUE then 0
  else (k.objs mq_id).msg_count

/-- Embeds `MessageQueueGetSpace (mq_id)`: the difference is taken on 32-bit words. -/
def MessageQueueGetSpace (k : Kernel) (mq_id : Nat) : Nat :=
  if mq_id = NULL ∨ (k.objs mq_id).id ≠ ID_MESSAGE_QUEUE then 0
  else ((k.objs mq_id).mp_info.max_blocks + 4294967296 - (k.objs mq_id).msg_count % 4294967296)
    % 4294967296

/-- The `do ... while` loop of `MessageQueueReset`, entered with a non-empty
`wait_put_queue`; `fuel` bounds the number of passes. -/
def MessageQueueReset.loop (mq : Nat) : Nat → Kernel → Kernel
  | 0, k => k
  | fuel + 1, k =>
    match (k.objs mq).wait_put_queue with
    | [] => k
    | thread :: _ =>
      let winfo := (k.threads thread).winfo.msgque
      match MessagePut k mq winfo.msg (winfo.msg_prio % 256) with
      | (none, k1) => k1
      | (some _, k1) =>
        let k2 := libThreadWaitExit k1 thread (toU32 osOK) dispatch_t.DISPATCH_NO
        if !isQueueEmpty (k2.objs mq).wait_put_queue then MessageQueueReset.loop mq fuel k2
        else k2

/-- Embeds `MessageQueueReset (mq_id)`. Every pass of the loop that goes on unlinks
the head of `wait_put_queue`, so its length bounds the number of passes. -/
def MessageQueueReset (k : Kernel) (mq_id : Nat) : osStatus_t × Kernel :=
  if mq_id = NULL ∨ (k.objs mq_id).id ≠ ID_MESSAGE_QUEUE then (osErrorParameter, k)
  else
    let q := k.objs mq_id
    let k1 : Kernel :=
      { k with
        objs := Function.update k.objs mq_id
          { q with
            msg_count := 0
            msg_queue := QueueReset q.msg_queue
            mp_info := libMemoryPoolReset q.mp_info } }
    if !isQueueEmpty (k1.objs mq_id).wait_put_queue then
      (osOK,
        libThreadDispatch
          (MessageQueueReset.loop mq_id (k1.objs mq_id).wait_put_queue.length k1))
    else (osOK, k1)

/-- Embeds `MessageQueueDelete (mq_id)`. -/
def MessageQueueDelete (k : Kernel) (mq_id : Nat) : osStatus_t × Kernel :=
  if mq_id = NULL ∨ (k.objs mq_id).id ≠ ID_MESSAGE_QUEUE then (osErrorParameter, k)
  else
    let k1 := libThreadWaitDelete k mq_id WaitQueue.wait_put_queue
    let k2 := libThreadWaitDelete k1 mq_id WaitQueue.wait_get_queue
    (osOK,
      { k2 with objs := Function.update k2.objs mq_id { k2.objs mq_id with id := ID_INVALID } })

/-! ## Public API -/

/-- Embeds `IsIrqMode ()` of the port layer. -/
def IsIrqMode (k : Kernel) : Bool := k.irq_mode

/-- Embeds `IsIrqMasked ()` of the port layer. -/
def IsIrqMasked (k : Kernel) : Bool := k.irq_masked

/-- Embeds `osMessageQueuePut`. The supervisor call runs the handler on the arguments
and returns its result. When the handler answers `osThreadWait` the caller is
blocked; `resume` is what the rest of the system does to the kernel state until
the caller runs again and reads `winfo.ret_val`. -/
def osMessageQueuePut (resume : Kernel → Kernel) (k : Kernel)
    (mq_id msg_ptr msg_prio timeout : Nat) : osStatus_t × Kernel :=
  if IsIrqMode k || IsIrqMasked k then
    if timeout ≠ 0 then (osErrorParameter, k)
    else MessageQueuePut k mq_id msg_ptr msg_prio timeout
  else
    match MessageQueuePut k mq_id msg_ptr msg_prio timeout with
    | (status, k1) =>
      if status = osThreadWait then
        let k2 := resume k1
        (ofU32 (k2.threads (ThreadGetRunning k2)).winfo.ret_val, k2)
      else (status, k1)

/-- Embeds `osMessageQueueGet`; see `osMessageQueuePut` for `resume`. -/
def osMessageQueueGet (resume : Kernel → Kernel) (k : Kernel)
    (mq_id msg_ptr msg_prio timeout : Nat) : osStatus_t × Kernel :=
  if IsIrqMode k || IsIrqMasked k then
    if timeout ≠ 0 then (osErrorParameter, k)
    else MessageQueueGet k mq_id msg_ptr msg_prio timeout
  else
    match MessageQueueGet k mq_id msg_ptr msg_prio timeout with
    | (status, k1) =>
      if status = osThreadWait then
        let k2 := resume k1
        (ofU32 (k2.threads (ThreadGetRunning k2)).winfo.ret_val, k2)
      else (status, k1)

/-- Embeds `osMessageQueueNew`. -/
def osMessageQueueNew (sizeof_osMessage_t sizeof_osMessageQueue_t : Nat) (k : Kernel)
    (msg_count msg_size : Nat) (attr : Option osMessageQueueAttr_t) : Nat × Kernel :=
  if IsIrqMode k || IsIrqMasked k then (NULL, k)
  else MessageQueueNew sizeof_osMessage_t sizeof_osMessageQueue_t k msg_count msg_size attr

/-- Embeds `osMessageQueueGetName`. -/
def osMessageQueueGetName (k : Kernel) (mq_id : Nat) : Nat :=
  if IsIrqMode k || IsIrqMasked k then NULL else MessageQueueGetName k mq_id

/-- Embeds `osMessageQueueGetCapacity`. -/
def osMessageQueueGetCapacity (k : Kernel) (mq_id : Nat) : Nat :=
  if IsIrqMode k || IsIrqMasked k then MessageQueueGetCapacity k mq_id
  else MessageQueueGetCapacity k mq_id

/-- Embeds `osMessageQueueGetMsgSize`. -/
def osMessageQueueGetMsgSize (k : Kernel) (mq_id : Nat) : Nat :=
  if IsIrqMode k || IsIrqMasked k then MessageQueueGetMsgSize k mq_id
  else MessageQueueGetMsgSize k mq_id

/-- Embeds `osMessageQueueGetCount`. -/
def osMessageQueueGetCount (k : Kernel) (mq_id : Nat) : Nat :=
  if IsIrqMode k || IsIrqMasked k then MessageQueueGetCount k mq_id
  else MessageQueueGetCount k mq_id

/-- Embeds `osMessageQueueGetSpace`. -/
def osMessageQueueGetSpace (k : Kernel) (mq_id : Nat) : Nat :=
  if IsIrqMode k || IsIrqMasked k then MessageQueueGetSpace k mq_id
  else MessageQueueGetSpace k mq_id

/-- Embeds `osMessageQueueReset`. -/
def osMessageQueueReset (k : Kernel) (mq_id : Nat) : osStatus_t × Kernel :=
  if IsIrqMode k || IsIrqMasked k then (osErrorISR, k) else MessageQueueReset k mq_id

/-- Embeds `osMessageQueueDelete`. -/
def osMessageQueueDelete (k : Kernel) (mq_id : Nat) : osStatus_t × Kernel :=
  if IsIrqMode k || IsIrqMasked k then (osErrorISR, k) else MessageQueueDelete k mq_id

/-! ## Well-formed queues and call sequences -/

/-- A valid message queue: a non-null handle to a control block stamped
`ID_MESSAGE_QUEUE`, whose count is the number of linked messages and whose
pool holds exactly the slots that are not linked. -/
def Valid (k : Kernel) (mq_id : Nat) : Prop :=
  mq_id ≠ NULL ∧ (k.objs mq_id).id = ID_MESSAGE_QUEUE ∧
  (k.objs mq_id).msg_count = (k.objs mq_id).msg_queue.length ∧
  (k.objs mq_id).msg_queue.length + (k.objs mq_id).mp_info.block_free.length
    = (k.objs mq_id).mp_info.max_blocks ∧
  (k.objs mq_id).mp_info.max_blocks < 4294967296

/-- What a consumer sees of a message: its payload and its priority. -/
def osMessage_t.view (m : osMessage_t) : List Nat × Nat := (m.data, m.priority)

/-- The linked messages are in non-increasing priority order. -/
def Descending (l : List osMessage_t) : Prop :=
  l.Pairwise (fun a b => b.priority ≤ a.priority)

/-- The state of a queue of capacity `cap` and message size `size` without
waiting threads, filled by putting `inputs` (payload and priority) in that
order: the linked messages are in non-increasing priority order and, for every
priority, the messages of that priority are the inputs of that priority, in the
order of the inputs. -/
def Filled (k : Kernel) (mq_id cap size : Nat) (inputs : List (List Nat × Nat)) : Prop :=
  Valid k mq_id ∧
  (k.objs mq_id).wait_get_queue = [] ∧ (k.objs mq_id).wait_put_queue = [] ∧
  (k.objs mq_id).msg_size = size ∧ (k.objs mq_id).mp_info.max_blocks = cap ∧
  Descending (k.objs mq_id).msg_queue ∧
  (∀ m ∈ (k.objs mq_id).msg_queue, m.data.length = size) ∧
  (k.objs mq_id).msg_queue.length = inputs.length ∧
  ∀ p, ((k.objs mq_id).msg_queue.filter (fun m => m.priority = p)).map osMessage_t.view
    = inputs.filter (fun x => x.2 = p)

/-- A kernel state without objects, in thread context. -/
def Kernel.blank : Kernel :=
  { objs := fun _ =>
      { id := ID_INVALID, flags := 0, name := 0, msg_size := 0, msg_count := 0
        wait_put_queue := [], wait_get_queue := [], msg_queue := []
        mp_info := { max_blocks := 0, block_size := 0, block_base := 0, block_free := [] } }
    threads := fun _ =>
      { state := ThreadState.ThreadInactive
        winfo := { msgque := { msg := 0, msg_prio := 0 }, ret_val := 0 } }
    curr := 0x20001000
    ready_list := []
    delay_queue := []
    tick := 0
    dispatch_req := 0
    post_queue := []
    mem := fun _ => 0
    irq_mode := false
    irq_masked := false
    wait_allowed := true }

/-- Attributes for a queue of four 4-byte messages with a 12-byte message
header: control block at `0x20000000`, slot memory of 64 bytes at
`0x20000100`. -/
def Scenario.attr : osMessageQueueAttr_t :=
  { name := 0, attr_bits := 0, cb_mem := 0x20000000, cb_size := 64
    mq_mem := 0x20000100, mq_size := 64 }

/-- The handle and the kernel state after
`MessageQueueNew (4, 4, &attr)`. -/
def Scenario.created : Nat × Kernel :=
  MessageQueueNew 12 64 Kernel.blank 4 4 (some Scenario.attr)

/-- The four puts of the priority-ordering scenario: payloads `0xAA`, `0xBB`,
`0xCC`, `0xDD` as little-endian 32-bit words, priorities 2, 5, 0, 5. -/
def Scenario.puts : List (List Nat × Nat) :=
  [([0xAA, 0, 0, 0], 2), ([0xBB, 0, 0, 0], 5), ([0xCC, 0, 0, 0], 0), ([0xDD, 0, 0, 0], 5)]

/-- The pending message of a producer blocked in `wait_put_queue`: the
payload at the pointer recorded in its wait-info and the recorded priority, cast
to `uint8_t`. -/
def pending (k : Kernel) (mq thread : Nat) : List Nat × Nat :=
  (readBytes k.mem (k.threads thread).winfo.msgque.msg (k.objs mq).msg_size,
    (k.threads thread).winfo.msgque.msg_prio % 256)

/-- The linked messages of the queue are `inputs` deposited in that order: they
are in non-increasing priority order and, for every priority, the messages of
that priority are the inputs of that priority, in the order of the inputs; the
count and the pool agree with the list. -/
def Deposited (k : Kernel) (mq_id : Nat) (inputs : List (List Nat × Nat)) : Prop :=
  Descending (k.objs mq_id).msg_queue ∧
  (k.objs mq_id).msg_queue.length = inputs.length ∧
  (∀ p, ((k.objs mq_id).msg_queue.filter (fun m => m.priority = p)).map osMessage_t.view
    = inputs.filter (fun x => x.2 = p)) ∧
  (k.objs mq_id).msg_count = (k.objs mq_id).msg_queue.length ∧
  (k.objs mq_id).msg_queue.length + (k.objs mq_id).mp_info.block_free.length
    = (k.objs mq_id).mp_info.max_blocks ∧
  (k.objs mq_id).mp_info.max_blocks < 4294967296

/-- A caller that stores each payload in its buffer `src` and puts it with the
given priority and timeout 0; the statuses are collected. -/
def putAll (mq_id src : Nat) : List (List Nat × Nat) → Kernel → List osStatus_t × Kernel
  | [], k => ([], k)
  | (payload, prio) :: rest, k =>
    let r := MessageQueuePut { k with mem := writeBytes k.mem src payload } mq_id src prio 0
    let rs := putAll mq_id src rest r.2
    (r.1 :: rs.1, rs.2)

/-- A caller that gets `n` times with timeout 0 into its buffer `dst` and its
priority byte `pprio`; after each call the status, the buffer and the priority
byte are collected. -/
def getAll (mq_id dst pprio : Nat) : Nat → Kernel → List (osStatus_t × List Nat × Nat) × Kernel
  | 0, k => ([], k)
  | n + 1, k =>
    let r := MessageQueueGet k mq_id dst pprio 0
    let rs := getAll mq_id dst pprio n r.2
    ((r.1, readBytes r.2.mem dst (r.2.objs mq_id).msg_size, r.2.mem pprio) :: rs.1, rs.2)

/-- The scenario queue after its first two puts. -/
def Scenario.half : Kernel :=
  (putAll Scenario.created.1 0x20003000 (Scenario.puts.take 2) Scenario.created.2).2

/-- The scenario queue after its four puts: full. -/
def Scenario.full : Kernel :=
  (putAll Scenario.created.1 0x20003000 Scenario.puts Scenario.created.2).2

/-- The freshly created scenario queue after the running thread called
`Get` with an infinite timeout: the thread is blocked in `wait_get_queue`,
its buffer is at `0x20002000`, its priority byte at `0x20002010`. -/
def Scenario.consumer : Kernel :=
  (MessageQueueGet Scenario.created.2 0x20000000 0x20002000 0x20002010 osWaitForever).2

/-- The full scenario queue after the running thread stored `0xEE` in its
buffer and called `Put` with priority 7 and an infinite timeout: the thread is
blocked in `wait_put_queue`. -/
def Scenario.producer : Kernel :=
  (MessageQueuePut { Scenario.full with mem := writeBytes Scenario.full.mem 0x20003000 [0xEE, 0, 0, 0] }
    0x20000000 0x20003000 7 osWaitForever).2

/-- The head message of the full scenario queue: `0xBB` with priority 5, in
the second slot. -/
def Scenario.head : osMessage_t :=
  { addr := 0x20000110, id := ID_MESSAGE, flags := 0, priority := 5, data := [0xBB, 0, 0, 0] }

/-- The messages behind the head in the full scenario queue. -/
def Scenario.tail : List osMessage_t :=
  [{ addr := 0x20000130, id := ID_MESSAGE, flags := 0, priority := 5, data := [0xDD, 0, 0, 0] },
   { addr := 0x20000100, id := ID_MESSAGE, flags := 0, priority := 2, data := [0xAA, 0, 0, 0] },
   { addr := 0x20000120, id := ID_MESSAGE, flags := 0, priority := 0, data := [0xCC, 0, 0, 0] }]

/-- A queue of capacity 2 (message size 4), created like the scenario queue
and filled with two messages of priority 0. -/
def Scenario.pairFull : Kernel :=
  (putAll 0x20000000 0x20003000 [([1, 0, 0, 0], 0), ([2, 0, 0, 0], 0)]
    (MessageQueueNew 12 64 Kernel.blank 2 4 (some { Scenario.attr with mq_size := 32 })).2).2

/-- The full queue of capacity 2 after the producer P1 (thread `0x20001000`)
stored `0x11` at `0x20003000` and blocked on `Put` with priority 1 and an
infinite timeout. -/
def Scenario.pairBlockedOne : Kernel :=
  (MessageQueuePut
    { Scenario.pairFull with mem := writeBytes Scenario.pairFull.mem 0x20003000 [0x11, 0, 0, 0] }
    0x20000000 0x20003000 1 osWaitForever).2

/-- The same queue after the producer P2 (thread `0x20001100`) then stored
`0x22` at `0x20003100` and blocked on `Put` with priority 2 and an infinite
timeout. -/
def Scenario.pairBlocked : Kernel :=
  (MessageQueuePut
    { Scenario.pairBlockedOne with
      curr := 0x20001100
      mem := writeBytes Scenario.pairBlockedOne.mem 0x20003100 [0x22, 0, 0, 0] }
    0x20000000 0x20003100 2 osWaitForever).2


/-- What may happen to the queue between two calls: the control block is left
alone, except that waiters may leave its wait queues (a timeout, a wake-up by
another object); everything else in the kernel state (user memory, running
thread, thread control blocks, interrupt context) may change. -/
def Between (mq_id : Nat) (k k1 : Kernel) : Prop :=
  k1.objs mq_id =
    { k.objs mq_id with
      wait_put_queue := (k1.objs mq_id).wait_put_queue
      wait_get_queue := (k1.objs mq_id).wait_get_queue } ∧
  (k1.objs mq_id).wait_put_queue.Sublist (k.objs mq_id).wait_put_queue ∧
  (k1.objs mq_id).wait_get_queue.Sublist (k.objs mq_id).wait_get_queue

/-- The states reachable from a successful `MessageQueueNew` of the queue
`mq_id` by `MessageQueuePut`, `MessageQueueGet` and `MessageQueueReset` calls
on it with any arguments, observed between the calls. -/
inductive Reachable (mq_id : Nat) : Kernel → Prop where
  | new (sizeof_osMessage_t sizeof_osMessageQueue_t : Nat) (k : Kernel)
      (msg_count msg_size : Nat) (attr : Option osMessageQueueAttr_t) (k0 : Kernel) :
      MessageQueueNew sizeof_osMessage_t sizeof_osMessageQueue_t k msg_count msg_size attr
        = (mq_id, k0) →
      mq_id ≠ NULL → msg_count < 4294967296 → Reachable mq_id k0
  | put (k : Kernel) (msg_ptr msg_prio timeout : Nat) :
      Reachable mq_id k → Reachable mq_id (MessageQueuePut k mq_id msg_ptr msg_prio timeout).2
  | get (k : Kernel) (msg_ptr msg_prio timeout : Nat) :
      Reachable mq_id k → Reachable mq_id (MessageQueueGet k mq_id msg_ptr msg_prio timeout).2
  | reset (k : Kernel) :
      Reachable mq_id k → Reachable mq_id (MessageQueueReset k mq_id).2
  | between (k k1 : Kernel) :
      Reachable mq_id k → Between mq_id k k1 → Reachable mq_id k1

/-- The scenario queue with the running thread blocked in `Get`, seen from an
interrupt handler. -/
def Scenario.consumerIsr : Kernel :=
  { Scenario.consumer with irq_mode := true }

/-- The scenario queue after `MessageQueueDelete`. -/
def Scenario.deleted : Kernel :=
  (MessageQueueDelete Scenario.producer 0x20000000).2

/-- Attributes like those of the scenario queue, with slot memory for one
slot of 12 bytes only. -/
def Scenario.attrSmall : osMessageQueueAttr_t :=
  { Scenario.attr with mq_size := 12 }

/-- The part of the kernel state the ISR post-processing would use: the post
queue, the flags byte of the control block, and the interrupt context. -/
def postState (k : Kernel) (mq_id : Nat) : List Nat × Nat × Bool × Bool :=
  (k.post_queue, (k.objs mq_id).flags, k.irq_mode, k.irq_masked)

/-- While the producer `0x20001000` is blocked, the thread `0x20001100` runs
and gets one message without waiting; then the producer runs again. -/
def Scenario.resume (k : Kernel) : Kernel :=
  { (MessageQueueGet { k with curr := 0x20001100 } 0x20000000 0x20002000 0x20002010 0).2 with
    curr := 0x20001000 }

/-- The full scenario queue seen from an interrupt handler. -/
def Scenario.fullIsr : Kernel :=
  { Scenario.full with irq_mode := true }

/-- The waiters agree with the fill level of a valid queue of capacity at
least 1: producers wait only on a full queue, consumers only on a queue without
message. -/
def Balanced (k : Kernel) (mq_id : Nat) : Prop :=
  Valid k mq_id ∧ 1 ≤ (k.objs mq_id).mp_info.max_blocks ∧
  ((k.objs mq_id).wait_put_queue ≠ [] →
    (k.objs mq_id).msg_count = (k.objs mq_id).mp_info.max_blocks) ∧
  ((k.objs mq_id).wait_get_queue ≠ [] → (k.objs mq_id).msg_queue = [])

/-! ## Queue primitive (`kernel_lib.h`), on linked nodes

The same five operations on the nodes themselves: a node is a pair of
addresses, the nodes live in a memory indexed by address. -/

/-- A queue node `queue_t`: the links `prev` and `next`. -/
structure queue_t where
  prev : Nat
  next : Nat
  deriving DecidableEq, Repr

/-- The queue nodes in memory, by address. -/
abbrev Nodes := Nat → queue_t

/-- Embeds `QueueReset (que)`: `que->prev = que->next = que`. -/
def Link.QueueReset (h : Nodes) (que : Nat) : Nodes :=
  Function.update h que { prev := que, next := que }

/-- Embeds `isQueueEmpty (que)`: `que->next == que`. -/
def Link.isQueueEmpty (h : Nodes) (que : Nat) : Bool :=
  decide ((h que).next = que)

/-- Embeds `QueueAppend (que, entry)`, one store after the other:
`entry->next = que; entry->prev = que->prev; entry->prev->next = entry;
que->prev = entry`. -/
def Link.QueueAppend (h : Nodes) (que entry : Nat) : Nodes :=
  let h1 := Function.update h entry { h entry with next := que }
  let h2 := Function.update h1 entry { h1 entry with prev := (h1 que).prev }
  let h3 := Function.update h2 (h2 entry).prev { h2 (h2 entry).prev with next := entry }
  Function.update h3 que { h3 que with prev := entry }

/-- Embeds `QueueExtract (que)`: `entry = que->next; entry->next->prev = que;
que->next = entry->next; QueueReset (entry); return entry`. -/
def Link.QueueExtract (h : Nodes) (que : Nat) : Nat × Nodes :=
  let entry := (h que).next
  let h1 := Function.update h (h entry).next { h (h entry).next with prev := que }
  let h2 := Function.update h1 que { h1 que with next := (h1 entry).next }
  (entry, Link.QueueReset h2 entry)

/-- Embeds `QueueRemoveEntry (entry)`: when the entry is not empty,
`entry->prev->next = entry->next; entry->next->prev = entry->prev;
QueueReset (entry)`. -/
def Link.QueueRemoveEntry (h : Nodes) (entry : Nat) : Nodes :=
  if !Link.isQueueEmpty h entry then
    let h1 := Function.update h (h entry).prev { h (h entry).prev with next := (h entry).next }
    let h2 := Function.update h1 (h1 entry).next
      { h1 (h1 entry).next with prev := (h1 entry).prev }
    Link.QueueReset h2 entry
  else h

/-- The nodes `l` are linked from `p` to `q`: following `next` from `p` visits
`l` and arrives at `q`, following `prev` from `q` goes the same way back. -/
def Link.Path (h : Nodes) : Nat → List Nat → Nat → Prop
  | p, [], q => (h p).next = q ∧ (h q).prev = p
  | p, x :: xs, q => (h p).next = x ∧ (h x).prev = p ∧ Link.Path h x xs q

/-- A well-formed queue: the circular list of sentinel `que` links the nodes
`l`, head first; the nodes are distinct and differ from the sentinel. -/
def Link.IsQueue (h : Nodes) (que : Nat) (l : List Nat) : Prop :=
  Link.Path h que l que ∧ (que :: l).Nodup

/-- A caller that appends the entries one after the other to the queue `que`
and tests `isQueueEmpty` after each append. -/
def Link.appendAll (que : Nat) : List Nat → Nodes → List Bool × Nodes
  | [], h => ([], h)
  | e :: es, h =>
    let h1 := Link.QueueAppend h que e
    let r := Link.appendAll que es h1
    (Link.isQueueEmpty h1 que :: r.1, r.2)

/-- A caller that extracts `n` times from the queue `que`; for each call it
records `isQueueEmpty` before the call, the returned entry, and `isQueueEmpty`
after the call. -/
def Link.extractAll (que : Nat) : Nat → Nodes → List (Bool × Nat × Bool) × Nodes
  | 0, h => ([], h)
  | n + 1, h =>
    let r := Link.QueueExtract h que
    let rs := Link.extractAll que n r.2
    ((Link.isQueueEmpty h que, r.1, Link.isQueueEmpty r.2 que) :: rs.1, rs.2)

/-- What extracting all the entries `l` of a queue is to record: before each
call the queue is not empty, the call returns the head, and afterwards the queue
is empty exactly when no entry is left. -/
def Link.extractTrace : List Nat → List (Bool × Nat × Bool)
  | [] => []
  | x :: xs => (false, x, xs.isEmpty) :: Link.extractTrace xs

/-- A memory in which every node is empty: `prev == next == self`. -/
def Link.blank : Nodes := fun a => { prev := a, next := a }

/-- The queue `0x100` holding the nodes `0x200`, `0x300`, `0x400`, built by
three appends. -/
def Link.three : Nodes :=
  (Link.appendAll 0x100 [0x200, 0x300, 0x400] Link.blank).2

/-! ## Memory lemmas -/

theorem readBytes_length (mem : Nat → Nat) (p n : Nat) : (readBytes mem p n).length = n := by
  simp [readBytes]

theorem readBytes_writeBytes (mem : Nat → Nat) (p : Nat) (bs : List Nat) :
    readBytes (writeBytes mem p bs) p bs.length = bs := by
  apply List.ext_getElem
  · simp [readBytes]
  · intro i h1 h2
    simp [readBytes, writeBytes, h2]

theorem readBytes_update (mem : Nat → Nat) (p n a v : Nat) (h : a < p ∨ p + n ≤ a) :
    readBytes (Function.update mem a v) p n = readBytes mem p n := by
  unfold readBytes
  apply List.map_congr_left
  intro i hi
  have hi' : i < n := List.mem_range.mp hi
  have : p + i ≠ a := by omega
  simp [Function.update, this]

/-! ## The search loop of `MessagePut` -/

theorem MessagePut.find_le (P : Nat) (l : List osMessage_t) : MessagePut.find P l ≤ l.length := by
  induction l with
  | nil => simp [MessagePut.find]
  | cons m rest ih =>
    simp only [MessagePut.find]
    split
    · simp
    · simpa using ih

theorem MessagePut.find_take (P : Nat) (l : List osMessage_t) :
    ∀ m ∈ l.take (MessagePut.find P l), P ≤ m.priority := by
  induction l with
  | nil => simp [MessagePut.find]
  | cons x rest ih =>
    simp only [MessagePut.find]
    split
    · simp
    · intro m hm
      simp only [List.take_succ_cons, List.mem_cons] at hm
      rcases hm with rfl | hm
      · omega
      · exact ih m hm

theorem MessagePut.find_drop (P : Nat) (l : List osMessage_t) :
    ∀ m, (l.drop (MessagePut.find P l)).head? = some m → m.priority < P := by
  induction l with
  | nil => simp [MessagePut.find]
  | cons x rest ih =>
    simp only [MessagePut.find]
    split
    · intro m hm
      simp at hm
      subst hm
      assumption
    · intro m hm
      simp only [List.drop_succ_cons] at hm
      exact ih m hm


theorem MessagePut.que_le (P : Nat) (l : List osMessage_t) : MessagePut.que P l ≤ l.length := by
  unfold MessagePut.que
  split
  · exact MessagePut.find_le P l
  · exact le_refl _

theorem MessagePut.que_take (P : Nat) (l : List osMessage_t) :
    ∀ m ∈ l.take (MessagePut.que P l), P ≤ m.priority := by
  unfold MessagePut.que
  split
  · exact MessagePut.find_take P l
  · intro m _
    omega

theorem MessagePut.que_drop (P : Nat) (l : List osMessage_t) :
    ∀ m, (l.drop (MessagePut.que P l)).head? = some m → m.priority < P := by
  unfold MessagePut.que
  split
  · exact MessagePut.find_drop P l
  · simp

theorem MessagePut.que_zero (l : List osMessage_t) : MessagePut.que 0 l = l.length := by
  simp [MessagePut.que]

/-- The result of `MessagePut` when the pool has a free block. -/
theorem MessagePut_alloc (k : Kernel) (mq msg_ptr P b : Nat) (rest : List Nat)
    (h : (k.objs mq).mp_info.block_free = b :: rest) :
    MessagePut k mq msg_ptr P =
      (some (MessagePut.msg k mq msg_ptr P b),
        { k with
          objs := Function.update k.objs mq
            { k.objs mq with
              mp_info := { (k.objs mq).mp_info with block_free := rest }
              msg_queue := QueueAppend (k.objs mq).msg_queue
                (MessagePut.que P (k.objs mq).msg_queue) (MessagePut.msg k mq msg_ptr P b)
              msg_count := ((k.objs mq).msg_count + 1) % 4294967296 } }) := by
  simp [MessagePut, libMemoryPoolAlloc, h]

/-- The result of `MessagePut` when the pool is exhausted. -/
theorem MessagePut_full (k : Kernel) (mq msg_ptr P : Nat)
    (h : (k.objs mq).mp_info.block_free = []) :
    MessagePut k mq msg_ptr P = (none, k) := by
  simp [MessagePut, libMemoryPoolAlloc, h]

/-- C2: in a valid queue with a free slot, `MessagePut` splits the linked
messages into `pre ++ post` and links the new message between them, where every
message of `pre` has priority at least `P`, the head of `post` (if any) has
priority below `P`, and `post` is empty when `P = 0`; the count grows by one. -/
theorem MessagePut_links_by_priority (k : Kernel) (mq msg_ptr P : Nat)
    (hv : Valid k mq) (hfree : (k.objs mq).mp_info.block_free ≠ []) :
    ∃ msg k1 pre post,
      MessagePut k mq msg_ptr P = (some msg, k1) ∧
      msg.priority = P ∧ msg.data = readBytes k.mem msg_ptr (k.objs mq).msg_size ∧
      (k.objs mq).msg_queue = pre ++ post ∧
      (k1.objs mq).msg_queue = pre ++ msg :: post ∧
      (∀ m ∈ pre, P ≤ m.priority) ∧
      (∀ m, post.head? = some m → m.priority < P) ∧
      (P = 0 → post = []) ∧
      (k1.objs mq).msg_count = (k.objs mq).msg_count + 1 := by
  obtain ⟨_, _, hcnt, hpool, hmax⟩ := hv
  obtain ⟨b, rest, hb⟩ := List.exists_cons_of_ne_nil hfree
  refine ⟨_, _, (k.objs mq).msg_queue.take (MessagePut.que P (k.objs mq).msg_queue),
    (k.objs mq).msg_queue.drop (MessagePut.que P (k.objs mq).msg_queue),
    MessagePut_alloc k mq msg_ptr P b rest hb, rfl, rfl, ?_, ?_, ?_, ?_, ?_, ?_⟩
  · exact (List.take_append_drop _ _).symm
  · simp [QueueAppend]
  · exact MessagePut.que_take P _
  · exact MessagePut.que_drop P _
  · intro h0
    subst h0
    simp [MessagePut.que_zero]
  · simp only [Function.update_same]
    rw [hb] at hpool
    simp only [List.length_cons] at hpool
    rw [Nat.mod_eq_of_lt]
    omega


/-! ## Single calls -/

/-- The result of `MessageGet` on a non-empty message list. -/
theorem MessageGet_cons (k : Kernel) (mq dst pprio : Nat) (m : osMessage_t)
    (rest : List osMessage_t) (h : (k.objs mq).msg_queue = m :: rest) :
    MessageGet k mq dst pprio =
      (some { m with id := ID_INVALID },
        { k with
          mem := if pprio ≠ NULL then Function.update (writeBytes k.mem dst m.data) pprio m.priority
            else writeBytes k.mem dst m.data
          objs := Function.update k.objs mq
            { k.objs mq with
              msg_queue := rest
              mp_info := libMemoryPoolFree (k.objs mq).mp_info m.addr
              msg_count := ((k.objs mq).msg_count + 4294967295) % 4294967296 } }) := by
  simp [MessageGet, isQueueEmpty, QueueExtract, h]

/-- The result of `MessageGet` on an empty message list. -/
theorem MessageGet_nil (k : Kernel) (mq dst pprio : Nat) (h : (k.objs mq).msg_queue = []) :
    MessageGet k mq dst pprio = (none, k) := by
  simp [MessageGet, isQueueEmpty, h]

/-- Result of `MessageQueueGet` on a non-empty queue without waiting producers. -/
theorem MessageQueueGet_cons (k : Kernel) (mq dst pprio timeout : Nat) (m : osMessage_t)
    (rest : List osMessage_t) (hmq : mq ≠ NULL) (hid : (k.objs mq).id = ID_MESSAGE_QUEUE)
    (hdst : dst ≠ NULL) (h : (k.objs mq).msg_queue = m :: rest)
    (hput : (k.objs mq).wait_put_queue = []) :
    MessageQueueGet k mq dst pprio timeout =
      (osOK,
        { k with
          mem := if pprio ≠ NULL then Function.update (writeBytes k.mem dst m.data) pprio m.priority
            else writeBytes k.mem dst m.data
          objs := Function.update k.objs mq
            { k.objs mq with
              msg_queue := rest
              mp_info := libMemoryPoolFree (k.objs mq).mp_info m.addr
              msg_count := ((k.objs mq).msg_count + 4294967295) % 4294967296 } }) := by
  unfold MessageQueueGet
  rw [if_neg (by simp [hmq, hid, hdst]), MessageGet_cons k mq dst pprio m rest h]
  simp [hput]

/-- Result of `MessageQueuePut` on a queue without waiting consumers and with a free
slot. -/
theorem MessageQueuePut_alloc (k : Kernel) (mq src P timeout b : Nat) (free : List Nat)
    (hmq : mq ≠ NULL) (hid : (k.objs mq).id = ID_MESSAGE_QUEUE) (hsrc : src ≠ NULL)
    (hget : (k.objs mq).wait_get_queue = [])
    (h : (k.objs mq).mp_info.block_free = b :: free) :
    MessageQueuePut k mq src P timeout =
      (osOK,
        { k with
          objs := Function.update k.objs mq
            { k.objs mq with
              mp_info := { (k.objs mq).mp_info with block_free := free }
              msg_queue := QueueAppend (k.objs mq).msg_queue
                (MessagePut.que P (k.objs mq).msg_queue) (MessagePut.msg k mq src P b)
              msg_count := ((k.objs mq).msg_count + 1) % 4294967296 } }) := by
  unfold MessageQueuePut
  rw [if_neg (by simp [hmq, hid, hsrc])]
  simp [hget, MessagePut_alloc k mq src P b free h]


/-! ## Priority order of the linked messages -/

theorem MessagePut.que_drop_lt (P : Nat) (l : List osMessage_t) (hs : Descending l) :
    ∀ b ∈ l.drop (MessagePut.que P l), b.priority < P := by
  intro b hb
  have hd : Descending (l.drop (MessagePut.que P l)) :=
    List.Pairwise.sublist (List.drop_sublist _ _) hs
  have hh := MessagePut.que_drop P l
  cases hl : l.drop (MessagePut.que P l) with
  | nil => rw [hl] at hb; simp at hb
  | cons x xs =>
    rw [hl] at hb hd hh
    have hx : x.priority < P := hh x rfl
    simp only [List.mem_cons] at hb
    rcases hb with rfl | hb
    · exact hx
    · have := (List.pairwise_cons.mp hd).1 b hb
      omega

theorem QueueAppend_descending (P : Nat) (l : List osMessage_t) (msg : osMessage_t)
    (hs : Descending l) (hp : msg.priority = P) :
    Descending (QueueAppend l (MessagePut.que P l) msg) := by
  have hsplit : Descending (l.take (MessagePut.que P l) ++ l.drop (MessagePut.que P l)) := by
    rw [List.take_append_drop]; exact hs
  unfold Descending at hsplit
  rw [List.pairwise_append] at hsplit
  obtain ⟨h1, h2, h3⟩ := hsplit
  unfold Descending QueueAppend
  rw [List.pairwise_append]
  refine ⟨h1, List.pairwise_cons.mpr ⟨?_, h2⟩, ?_⟩
  · intro b hb
    have := MessagePut.que_drop_lt P l hs b hb
    omega
  · intro a ha b hb
    simp only [List.mem_cons] at hb
    rcases hb with rfl | hb
    · have := MessagePut.que_take P l a ha
      omega
    · exact h3 a ha b hb

theorem QueueAppend_filter (P : Nat) (l : List osMessage_t) (msg : osMessage_t)
    (hs : Descending l) (hp : msg.priority = P) (p : Nat) :
    (QueueAppend l (MessagePut.que P l) msg).filter (fun m => m.priority = p)
      = l.filter (fun m => m.priority = p) ++ (if P = p then [msg] else []) := by
  have hlt := MessagePut.que_drop_lt P l hs
  have hl : l.filter (fun m => m.priority = p)
      = (l.take (MessagePut.que P l)).filter (fun m => m.priority = p)
        ++ (l.drop (MessagePut.que P l)).filter (fun m => m.priority = p) := by
    rw [← List.filter_append, List.take_append_drop]
  unfold QueueAppend
  rw [List.filter_append, List.filter_cons, hl]
  by_cases hPp : P = p
  · subst hPp
    have hnil : (l.drop (MessagePut.que P l)).filter (fun m => m.priority = P) = [] := by
      rw [List.filter_eq_nil_iff]
      intro b hb
      have := hlt b hb
      simp only [decide_eq_true_eq]
      omega
    simp [hnil, hp]
  · have hne : ¬ msg.priority = p := by rw [hp]; exact hPp
    simp [hne, hPp]

theorem QueueAppend_length {α : Type} (l : List α) (pos : Nat) (e : α) (h : pos ≤ l.length) :
    (QueueAppend l pos e).length = l.length + 1 := by
  simp [QueueAppend]
  omega

theorem QueueAppend_mem {α : Type} (l : List α) (pos : Nat) (e x : α)
    (hx : x ∈ QueueAppend l pos e) : x = e ∨ x ∈ l := by
  simp only [QueueAppend, List.mem_append, List.mem_cons] at hx
  rcases hx with hx | hx | hx
  · exact Or.inr (List.mem_of_mem_take hx)
  · exact Or.inl hx
  · exact Or.inr (List.mem_of_mem_drop hx)


/-! ## Sequences of puts and gets -/

/-- One more put into a queue that is not full keeps it `Filled`. -/
theorem Filled.put (k : Kernel) (mq cap size src prio : Nat) (inputs : List (List Nat × Nat))
    (payload : List Nat) (hf : Filled k mq cap size inputs) (hroom : inputs.length < cap)
    (hsz : payload.length = size) (hsrc : src ≠ NULL) :
    (MessageQueuePut { k with mem := writeBytes k.mem src payload } mq src prio 0).1 = osOK ∧
    Filled (MessageQueuePut { k with mem := writeBytes k.mem src payload } mq src prio 0).2
      mq cap size (inputs ++ [(payload, prio)]) := by
  obtain ⟨⟨hmq, hid, hcnt, hpool, hmax⟩, hget, hput, hsize, hcap, hdesc, hdata, hlen, hfil⟩ := hf
  have hfree : (k.objs mq).mp_info.block_free ≠ [] := by
    intro h
    rw [h] at hpool
    simp at hpool
    omega
  obtain ⟨b, free, hb⟩ := List.exists_cons_of_ne_nil hfree
  rw [MessageQueuePut_alloc { k with mem := writeBytes k.mem src payload } mq src prio 0 b free
    hmq hid hsrc hget hb]
  rw [hb] at hpool
  simp only [List.length_cons] at hpool
  have hmsg : (MessagePut.msg { k with mem := writeBytes k.mem src payload } mq src prio b).view
      = (payload, prio) := by
    simp only [osMessage_t.view, MessagePut.msg, hsize, ← hsz, readBytes_writeBytes]
  have hprio : (MessagePut.msg { k with mem := writeBytes k.mem src payload } mq src prio b).priority
      = prio := rfl
  have hque := MessagePut.que_le prio (k.objs mq).msg_queue
  refine ⟨rfl, ⟨hmq, ?_, ?_, ?_, ?_⟩, ?_, ?_, ?_, ?_, ?_, ?_, ?_, ?_⟩
  · simpa using hid
  · simp only [Function.update_same]
    rw [QueueAppend_length _ _ _ hque, hcnt, Nat.mod_eq_of_lt]
    omega
  · simp only [Function.update_same]
    rw [QueueAppend_length _ _ _ hque]
    omega
  · simpa using hmax
  · simpa using hget
  · simpa using hput
  · simpa using hsize
  · simpa using hcap
  · simp only [Function.update_same]
    exact QueueAppend_descending prio _ _ hdesc hprio
  · simp only [Function.update_same]
    intro m hm
    rcases QueueAppend_mem _ _ _ _ hm with rfl | hm
    · simp [MessagePut.msg, readBytes_length, hsize]
    · exact hdata m hm
  · simp only [Function.update_same]
    rw [QueueAppend_length _ _ _ hque, hlen]
    simp
  · intro p
    simp only [Function.update_same]
    rw [QueueAppend_filter prio _ _ hdesc hprio p, List.map_append, hfil p, List.filter_append]
    congr 1
    by_cases hp : prio = p
    · simp only [hp, if_true, List.map_cons, List.map_nil]
      rw [← hp, hmsg]
      simp
    · simp [hp]

/-- Putting `msgs` one after the other into a `Filled` queue with enough room:
every put returns `osOK` and the queue is `Filled` by all the inputs. -/
theorem Filled.putAll (mq cap size src : Nat) (hsrc : src ≠ NULL) (msgs : List (List Nat × Nat)) :
    ∀ (k : Kernel) (inputs : List (List Nat × Nat)), Filled k mq cap size inputs →
      inputs.length + msgs.length ≤ cap → (∀ m ∈ msgs, m.1.length = size) →
      (∀ s ∈ (MbOS.putAll mq src msgs k).1, s = osOK) ∧
      Filled (MbOS.putAll mq src msgs k).2 mq cap size (inputs ++ msgs) := by
  induction msgs with
  | nil =>
    intro k inputs hf _ _
    simpa [MbOS.putAll] using hf
  | cons x rest ih =>
    intro k inputs hf hroom hsz
    obtain ⟨payload, prio⟩ := x
    simp only [List.length_cons] at hroom
    have h1 := Filled.put k mq cap size src prio inputs payload hf (by omega)
      (hsz (payload, prio) (List.mem_cons_self _ _)) hsrc
    have h2 := ih _ (inputs ++ [(payload, prio)]) h1.2 (by simp; omega)
      (fun m hm => hsz m (List.mem_cons_of_mem _ hm))
    simp only [MbOS.putAll]
    refine ⟨?_, ?_⟩
    · intro s hs
      simp only [List.mem_cons] at hs
      rcases hs with rfl | hs
      · exact h1.1
      · exact h2.1 s hs
    · simpa using h2.2


/-- One get from a valid non-empty queue without waiting producers. -/
theorem MessageQueueGet_step (k : Kernel) (mq dst pprio size : Nat) (m : osMessage_t)
    (rest : List osMessage_t) (hv : Valid k mq) (hdst : dst ≠ NULL)
    (hput : (k.objs mq).wait_put_queue = []) (hsize : (k.objs mq).msg_size = size)
    (hq : (k.objs mq).msg_queue = m :: rest) (hm : m.data.length = size)
    (hdisj : pprio < dst ∨ dst + size ≤ pprio) :
    (MessageQueueGet k mq dst pprio 0).1 = osOK ∧
    readBytes (MessageQueueGet k mq dst pprio 0).2.mem dst
      (((MessageQueueGet k mq dst pprio 0).2.objs mq).msg_size) = m.data ∧
    (pprio ≠ NULL → (MessageQueueGet k mq dst pprio 0).2.mem pprio = m.priority) ∧
    Valid (MessageQueueGet k mq dst pprio 0).2 mq ∧
    ((MessageQueueGet k mq dst pprio 0).2.objs mq).wait_put_queue = [] ∧
    ((MessageQueueGet k mq dst pprio 0).2.objs mq).msg_size = size ∧
    ((MessageQueueGet k mq dst pprio 0).2.objs mq).msg_queue = rest := by
  obtain ⟨hmq, hid, hcnt, hpool, hmax⟩ := hv
  rw [MessageQueueGet_cons k mq dst pprio 0 m rest hmq hid hdst hq hput]
  rw [hq] at hpool hcnt
  simp only [List.length_cons] at hpool hcnt
  refine ⟨rfl, ?_, ?_, ⟨hmq, ?_, ?_, ?_, ?_⟩, ?_, ?_, ?_⟩
  · simp only [Function.update_same, hsize]
    by_cases hp : pprio = NULL
    · simp only [hp, ne_eq, not_true_eq_false, if_false]
      rw [← hm, readBytes_writeBytes]
    · simp only [ne_eq, hp, not_false_eq_true, if_true]
      rw [readBytes_update _ _ _ _ _ hdisj, ← hm, readBytes_writeBytes]
  · intro hp
    simp [hp]
  · simpa using hid
  · simp only [Function.update_same]
    rw [hcnt]
    omega
  · simp only [Function.update_same, libMemoryPoolFree, List.length_cons]
    omega
  · simpa [libMemoryPoolFree] using hmax
  · simpa using hput
  · simpa using hsize
  · simp

/-- Getting as many times as there are linked messages from a valid queue
without waiting producers returns them head first and empties the queue. -/
theorem getAll_drain (mq dst pprio size : Nat) (hdst : dst ≠ NULL)
    (hdisj : pprio < dst ∨ dst + size ≤ pprio) (Q : List osMessage_t) :
    ∀ k : Kernel, Valid k mq → (k.objs mq).wait_put_queue = [] → (k.objs mq).msg_size = size →
      (k.objs mq).msg_queue = Q → (∀ m ∈ Q, m.data.length = size) →
      (getAll mq dst pprio Q.length k).1.map (fun r => (r.1, r.2.1))
        = Q.map (fun m => (osOK, m.data)) ∧
      (pprio ≠ NULL → (getAll mq dst pprio Q.length k).1.map (fun r => r.2.2)
        = Q.map (fun m => m.priority)) ∧
      Valid (getAll mq dst pprio Q.length k).2 mq ∧
      ((getAll mq dst pprio Q.length k).2.objs mq).msg_queue = [] := by
  induction Q with
  | nil =>
    intro k hv _ _ hq _
    simp [getAll, hv, hq]
  | cons m rest ih =>
    intro k hv hput hsize hq hdata
    obtain ⟨h1, h2, h3, h4, h5, h6, h7⟩ := MessageQueueGet_step k mq dst pprio size m rest hv hdst
      hput hsize hq (hdata m (List.mem_cons_self _ _)) hdisj
    obtain ⟨i1, i2, i3, i4⟩ := ih _ h4 h5 h6 h7 (fun x hx => hdata x (List.mem_cons_of_mem _ hx))
    simp only [List.length_cons, getAll, List.map_cons]
    refine ⟨?_, ?_, i3, i4⟩
    · rw [h1, h2, i1]
    · intro hp
      rw [h3 hp, i2 hp]


/-! ## Creation -/

/-- A successful `MessageQueueNew` returns the control-block address of the
attributes and initialises the control block there. -/
theorem MessageQueueNew_success (hs hcb : Nat) (k : Kernel) (msg_count msg_size : Nat)
    (attr : Option osMessageQueueAttr_t) (mq : Nat) (k0 : Kernel)
    (h : MessageQueueNew hs hcb k msg_count msg_size attr = (mq, k0)) (hne : mq ≠ NULL) :
    ∃ a, attr = some a ∧ mq = a.cb_mem ∧ msg_count ≠ 0 ∧ msg_size ≠ 0 ∧
      k0 = { k with
        objs := Function.update k.objs mq
          { id := ID_MESSAGE_QUEUE
            flags := 0
            name := a.name
            msg_size := msg_size
            msg_count := 0
            wait_put_queue := []
            wait_get_queue := []
            msg_queue := []
            mp_info := libMemoryPoolInit msg_count
              (MessageQueueNew.block_size hs msg_size) a.mq_mem } } := by
  unfold MessageQueueNew at h
  cases attr with
  | none =>
    simp only [Prod.mk.injEq] at h
    exact absurd h.1.symm hne
  | some a =>
    simp only at h
    split at h
    · simp only [Prod.mk.injEq] at h
      exact absurd h.1.symm hne
    · rename_i h0
      split at h
      · simp only [Prod.mk.injEq] at h
        exact absurd h.1.symm hne
      · simp only [Prod.mk.injEq, QueueReset] at h
        obtain ⟨h1, h2⟩ := h
        refine ⟨a, rfl, h1.symm, ?_, ?_, ?_⟩
        · intro hc; exact h0 (Or.inl hc)
        · intro hc; exact h0 (Or.inr hc)
        · rw [← h2, ← h1]

/-- A freshly created queue is `Filled` by no input. -/
theorem MessageQueueNew_filled (hs hcb : Nat) (k : Kernel) (msg_count msg_size : Nat)
    (attr : Option osMessageQueueAttr_t) (mq : Nat) (k0 : Kernel)
    (h : MessageQueueNew hs hcb k msg_count msg_size attr = (mq, k0)) (hne : mq ≠ NULL)
    (hcount : msg_count < 4294967296) :
    Filled k0 mq msg_count msg_size [] := by
  obtain ⟨a, _, _, _, _, hk0⟩ := MessageQueueNew_success hs hcb k msg_count msg_size attr mq k0 h hne
  subst hk0
  refine ⟨⟨hne, ?_, ?_, ?_, ?_⟩, ?_, ?_, ?_, ?_, ?_, ?_, ?_, ?_⟩ <;>
    simp [libMemoryPoolInit, poolChain, Descending, hcount]


/-! ## Claims on call sequences -/

/-- C1: into a freshly created queue of capacity `msg_count`, putting at most
`msg_count` messages (timeout 0, any priorities) succeeds every time, and the
same number of gets succeed and return the messages in non-increasing priority
order, the messages of each priority in the order they were put. -/
theorem MessageQueue_gets_in_priority_order (hs hcb : Nat) (k : Kernel)
    (msg_count msg_size : Nat) (attr : Option osMessageQueueAttr_t) (mq : Nat) (k0 : Kernel)
    (hnew : MessageQueueNew hs hcb k msg_count msg_size attr = (mq, k0)) (hmq : mq ≠ NULL)
    (hcount : msg_count < 4294967296)
    (msgs : List (List Nat × Nat)) (hroom : msgs.length ≤ msg_count)
    (hsz : ∀ m ∈ msgs, m.1.length = msg_size)
    (src dst pprio : Nat) (hsrc : src ≠ NULL) (hdst : dst ≠ NULL) (hpprio : pprio ≠ NULL)
    (hdisj : pprio < dst ∨ dst + msg_size ≤ pprio) :
    (∀ s ∈ (putAll mq src msgs k0).1, s = osOK) ∧
    (∀ r ∈ (getAll mq dst pprio msgs.length (putAll mq src msgs k0).2).1, r.1 = osOK) ∧
    (getAll mq dst pprio msgs.length (putAll mq src msgs k0).2).1.length = msgs.length ∧
    ((getAll mq dst pprio msgs.length (putAll mq src msgs k0).2).1.map
      (fun r => r.2.2)).Pairwise (fun a b => b ≤ a) ∧
    ∀ p, ((getAll mq dst pprio msgs.length (putAll mq src msgs k0).2).1.map
      (fun r => r.2)).filter (fun x => x.2 = p) = msgs.filter (fun x => x.2 = p) := by
  have hf0 := MessageQueueNew_filled hs hcb k msg_count msg_size attr mq k0 hnew hmq hcount
  obtain ⟨hputs, hf⟩ := Filled.putAll mq msg_count msg_size src hsrc msgs k0 [] hf0
    (by simpa using hroom) hsz
  simp only [List.nil_append] at hf
  obtain ⟨hv, _, hput, hsize, _, hdesc, hdata, hlen, hfil⟩ := hf
  obtain ⟨g1, g2, _, _⟩ := getAll_drain mq dst pprio msg_size hdst hdisj
    ((putAll mq src msgs k0).2.objs mq).msg_queue (putAll mq src msgs k0).2 hv hput hsize rfl hdata
  rw [hlen] at g1 g2
  have g2 := g2 hpprio
  have hlen2 : (getAll mq dst pprio msgs.length (putAll mq src msgs k0).2).1.length
      = msgs.length := by
    have := congrArg List.length g1
    simpa [hlen] using this
  have hview : (getAll mq dst pprio msgs.length (putAll mq src msgs k0).2).1.map (fun r => r.2)
      = ((putAll mq src msgs k0).2.objs mq).msg_queue.map osMessage_t.view := by
    have h1 := congrArg (List.map Prod.snd) g1
    simp only [List.map_map] at h1
    apply List.ext_getElem
    · simp [hlen2, hlen]
    · intro i hi1 hi2
      have e1 := congrArg (fun l => l[i]?) h1
      have e2 := congrArg (fun l => l[i]?) g2
      simp only [List.getElem?_map] at e1 e2
      simp only [List.length_map] at hi1 hi2
      rw [List.getElem?_eq_getElem hi1, List.getElem?_eq_getElem hi2] at e1 e2
      simp only [Option.map_some', Function.comp_apply, Option.some.injEq] at e1 e2
      simp only [List.getElem_map, osMessage_t.view]
      exact Prod.ext e1 e2
  refine ⟨hputs, ?_, hlen2, ?_, ?_⟩
  · intro r hr
    have h1 := congrArg (List.map Prod.fst) g1
    simp only [List.map_map] at h1
    have : r.1 ∈ List.map (Prod.fst ∘ fun m : osMessage_t => (osOK, m.data))
        ((putAll mq src msgs k0).2.objs mq).msg_queue := by
      rw [← h1]
      exact List.mem_map.mpr ⟨r, hr, rfl⟩
    obtain ⟨m, _, hm⟩ := List.mem_map.mp this
    exact hm.symm
  · rw [g2, List.pairwise_map]
    exact hdesc
  · intro p
    rw [hview, ← hfil p, List.filter_map]
    rfl

/-- C1, the literal scenario: capacity 4, message size 4, `Put (0xAA, 2)`,
`Put (0xBB, 5)`, `Put (0xCC, 0)`, `Put (0xDD, 5)`; the four gets return `0xBB`,
`0xDD`, `0xAA`, `0xCC`. -/
theorem MessageQueue_gets_in_priority_order_witness :
    (getAll Scenario.created.1 0x20002000 0x20002010 4
      (putAll Scenario.created.1 0x20003000 Scenario.puts Scenario.created.2).2).1
      = [(osOK, [0xBB, 0, 0, 0], 5), (osOK, [0xDD, 0, 0, 0], 5),
          (osOK, [0xAA, 0, 0, 0], 2), (osOK, [0xCC, 0, 0, 0], 0)] ∧
    ((∀ s ∈ (putAll Scenario.created.1 0x20003000 Scenario.puts Scenario.created.2).1,
        s = osOK) ∧
      (∀ r ∈ (getAll Scenario.created.1 0x20002000 0x20002010 Scenario.puts.length
        (putAll Scenario.created.1 0x20003000 Scenario.puts Scenario.created.2).2).1,
        r.1 = osOK) ∧
      (getAll Scenario.created.1 0x20002000 0x20002010 Scenario.puts.length
        (putAll Scenario.created.1 0x20003000 Scenario.puts Scenario.created.2).2).1.length
        = Scenario.puts.length ∧
      ((getAll Scenario.created.1 0x20002000 0x20002010 Scenario.puts.length
        (putAll Scenario.created.1 0x20003000 Scenario.puts Scenario.created.2).2).1.map
        (fun r => r.2.2)).Pairwise (fun a b => b ≤ a) ∧
      ∀ p, ((getAll Scenario.created.1 0x20002000 0x20002010 Scenario.puts.length
        (putAll Scenario.created.1 0x20003000 Scenario.puts Scenario.created.2).2).1.map
        (fun r => r.2)).filter (fun x => x.2 = p) = Scenario.puts.filter (fun x => x.2 = p)) :=
  ⟨by decide,
    MessageQueue_gets_in_priority_order 12 64 Kernel.blank 4 4 (some Scenario.attr)
      Scenario.created.1 Scenario.created.2 rfl (by decide) (by decide) Scenario.puts (by decide)
      (by decide) 0x20003000 0x20002000 0x20002010 (by decide) (by decide) (by decide)
      (by decide)⟩


/-- C2, at the scenario queue holding priorities 5 and 2, for a put of
priority 3. -/
theorem MessagePut_links_by_priority_witness :
    Valid Scenario.half 0x20000000 ∧
    (Scenario.half.objs 0x20000000).mp_info.block_free ≠ [] ∧
    ∃ msg k1 pre post,
      MessagePut Scenario.half 0x20000000 0x20003000 3 = (some msg, k1) ∧
      msg.priority = 3 ∧
      msg.data = readBytes Scenario.half.mem 0x20003000 (Scenario.half.objs 0x20000000).msg_size ∧
      (Scenario.half.objs 0x20000000).msg_queue = pre ++ post ∧
      (k1.objs 0x20000000).msg_queue = pre ++ msg :: post ∧
      (∀ m ∈ pre, 3 ≤ m.priority) ∧
      (∀ m, post.head? = some m → m.priority < 3) ∧
      (3 = 0 → post = []) ∧
      (k1.objs 0x20000000).msg_count = (Scenario.half.objs 0x20000000).msg_count + 1 :=
  ⟨by unfold Valid; decide, by decide,
    MessagePut_links_by_priority Scenario.half 0x20000000 0x20003000 3
      (by unfold Valid; decide) (by decide)⟩

/-- C3: putting at most `max_blocks` payloads with priority 0 into a valid empty
queue without waiters and getting as many times returns `osOK` every time and
the payloads in put order; the queue is empty afterwards. -/
theorem MessageQueue_fifo_roundtrip (k : Kernel) (mq : Nat) (hv : Valid k mq)
    (hget : (k.objs mq).wait_get_queue = []) (hput : (k.objs mq).wait_put_queue = [])
    (hempty : (k.objs mq).msg_queue = [])
    (payloads : List (List Nat)) (hn : payloads.length ≤ (k.objs mq).mp_info.max_blocks)
    (hsz : ∀ x ∈ payloads, x.length = (k.objs mq).msg_size)
    (src dst pprio : Nat) (hsrc : src ≠ NULL) (hdst : dst ≠ NULL)
    (hdisj : pprio < dst ∨ dst + (k.objs mq).msg_size ≤ pprio) :
    (∀ s ∈ (putAll mq src (payloads.map (fun x => (x, 0))) k).1, s = osOK) ∧
    (getAll mq dst pprio payloads.length
      (putAll mq src (payloads.map (fun x => (x, 0))) k).2).1.map (fun r => (r.1, r.2.1))
      = payloads.map (fun x => (osOK, x)) ∧
    ((getAll mq dst pprio payloads.length
      (putAll mq src (payloads.map (fun x => (x, 0))) k).2).2.objs mq).msg_queue = [] ∧
    ((getAll mq dst pprio payloads.length
      (putAll mq src (payloads.map (fun x => (x, 0))) k).2).2.objs mq).msg_count = 0 := by
  have hf0 : Filled k mq (k.objs mq).mp_info.max_blocks (k.objs mq).msg_size [] := by
    refine ⟨hv, hget, hput, rfl, rfl, ?_, ?_, ?_, ?_⟩ <;> simp [hempty, Descending]
  obtain ⟨hputs, hf⟩ := Filled.putAll mq _ _ src hsrc (payloads.map (fun x => (x, 0))) k [] hf0
    (by simpa using hn) (by simpa using hsz)
  simp only [List.nil_append] at hf
  obtain ⟨hv1, _, hput1, hsize1, _, _, hdata1, hlen1, hfil1⟩ := hf
  simp only [List.length_map] at hlen1
  obtain ⟨g1, _, g3, g4⟩ := getAll_drain mq dst pprio (k.objs mq).msg_size hdst hdisj
    ((putAll mq src (payloads.map (fun x => (x, 0))) k).2.objs mq).msg_queue
    (putAll mq src (payloads.map (fun x => (x, 0))) k).2 hv1 hput1 hsize1 rfl hdata1
  rw [hlen1] at g1 g3 g4
  have hzero := hfil1 0
  have hall : (payloads.map (fun x => ((x, 0) : List Nat × Nat))).filter (fun x => x.2 = 0)
      = payloads.map (fun x => (x, 0)) := by
    rw [List.filter_eq_self]
    intro a ha
    obtain ⟨x, _, rfl⟩ := List.mem_map.mp ha
    simp
  rw [hall] at hzero
  have hself : ((putAll mq src (payloads.map (fun x => (x, 0))) k).2.objs mq).msg_queue.filter
      (fun m => m.priority = 0)
      = ((putAll mq src (payloads.map (fun x => (x, 0))) k).2.objs mq).msg_queue := by
    rw [List.filter_eq_self, ← List.filter_length_eq_length]
    have := congrArg List.length hzero
    simpa [hlen1] using this
  rw [hself] at hzero
  refine ⟨hputs, ?_, g4, ?_⟩
  · rw [g1]
    have := congrArg (List.map (fun x : List Nat × Nat => (osOK, x.1))) hzero
    simpa [List.map_map, Function.comp_def, osMessage_t.view] using this
  · obtain ⟨_, _, hcnt, _, _⟩ := g3
    rw [hcnt, g4]
    rfl

/-- C3, at the scenario queue with the payloads `0x11` and `0x22`; for a single
payload the get returns what was put. -/
theorem MessageQueue_fifo_roundtrip_witness :
    (getAll 0x20000000 0x20002000 NULL 1
      (putAll 0x20000000 0x20003000 [([0x11, 0, 0, 0], 0)] Scenario.created.2).2).1.map
        (fun r => (r.1, r.2.1)) = [(osOK, [0x11, 0, 0, 0])] ∧
    ((∀ s ∈ (putAll 0x20000000 0x20003000
        ([[0x11, 0, 0, 0], [0x22, 0, 0, 0]].map (fun x => (x, 0))) Scenario.created.2).1,
        s = osOK) ∧
      (getAll 0x20000000 0x20002000 NULL [[0x11, 0, 0, 0], [0x22, 0, 0, 0]].length
        (putAll 0x20000000 0x20003000
          ([[0x11, 0, 0, 0], [0x22, 0, 0, 0]].map (fun x => (x, 0))) Scenario.created.2).2).1.map
          (fun r => (r.1, r.2.1))
        = [[0x11, 0, 0, 0], [0x22, 0, 0, 0]].map (fun x => (osOK, x)) ∧
      ((getAll 0x20000000 0x20002000 NULL [[0x11, 0, 0, 0], [0x22, 0, 0, 0]].length
        (putAll 0x20000000 0x20003000
          ([[0x11, 0, 0, 0], [0x22, 0, 0, 0]].map (fun x => (x, 0)))
          Scenario.created.2).2).2.objs 0x20000000).msg_queue = [] ∧
      ((getAll 0x20000000 0x20002000 NULL [[0x11, 0, 0, 0], [0x22, 0, 0, 0]].length
        (putAll 0x20000000 0x20003000
          ([[0x11, 0, 0, 0], [0x22, 0, 0, 0]].map (fun x => (x, 0)))
          Scenario.created.2).2).2.objs 0x20000000).msg_count = 0) :=
  ⟨by decide,
    MessageQueue_fifo_roundtrip Scenario.created.2 0x20000000 (by unfold Valid; decide)
      (by decide) (by decide) (by decide) [[0x11, 0, 0, 0], [0x22, 0, 0, 0]] (by decide)
      (by decide) 0x20003000 0x20002000 NULL (by decide) (by decide) (by decide)⟩


/-! ## Hand-over to a waiting consumer -/

/-- Result of `MessageQueuePut` when a consumer waits: the state after the call. -/
theorem MessageQueuePut_consumer (k : Kernel) (mq msg_ptr P timeout thread : Nat)
    (rest : List Nat) (hmq : mq ≠ NULL) (hid : (k.objs mq).id = ID_MESSAGE_QUEUE)
    (hptr : msg_ptr ≠ NULL) (hget : (k.objs mq).wait_get_queue = thread :: rest) :
    MessageQueuePut k mq msg_ptr P timeout =
      (osOK,
        let k1 := libThreadWaitExit k thread (toU32 osOK) dispatch_t.DISPATCH_YES
        let winfo := (k1.threads thread).winfo.msgque
        let k2 := { k1 with mem := memcpy k1.mem winfo.msg msg_ptr (k1.objs mq).msg_size }
        if winfo.msg_prio ≠ NULL then
          { k2 with mem := Function.update k2.mem winfo.msg_prio P }
        else k2) := by
  unfold MessageQueuePut
  rw [if_neg (by simp [hmq, hid, hptr])]
  simp only [hget]

/-- C4: on a valid queue with a consumer blocked in `wait_get_queue`,
`MessageQueuePut` returns `osOK`; the memory afterwards is the memory before
with `msg_size` bytes copied from `msg_ptr` to the buffer recorded by the head
consumer and then, when its priority location is non-null, the priority stored
there; that consumer is unlinked, ready, with return value `osOK`; the count,
the message list and the pool are unchanged. -/
theorem MessageQueuePut_hands_over_to_consumer (k : Kernel)
    (mq msg_ptr P timeout thread : Nat) (rest : List Nat) (hv : Valid k mq)
    (hptr : msg_ptr ≠ NULL) (hget : (k.objs mq).wait_get_queue = thread :: rest) :
    (MessageQueuePut k mq msg_ptr P timeout).1 = osOK ∧
    (MessageQueuePut k mq msg_ptr P timeout).2.mem =
      (if (k.threads thread).winfo.msgque.msg_prio ≠ NULL then
        Function.update
          (memcpy k.mem (k.threads thread).winfo.msgque.msg msg_ptr (k.objs mq).msg_size)
          (k.threads thread).winfo.msgque.msg_prio P
      else memcpy k.mem (k.threads thread).winfo.msgque.msg msg_ptr (k.objs mq).msg_size) ∧
    (((k.threads thread).winfo.msgque.msg_prio < (k.threads thread).winfo.msgque.msg ∨
        (k.threads thread).winfo.msgque.msg + (k.objs mq).msg_size
          ≤ (k.threads thread).winfo.msgque.msg_prio) →
      readBytes (MessageQueuePut k mq msg_ptr P timeout).2.mem
        (k.threads thread).winfo.msgque.msg (k.objs mq).msg_size
        = readBytes k.mem msg_ptr (k.objs mq).msg_size) ∧
    ((k.threads thread).winfo.msgque.msg_prio ≠ NULL →
      (MessageQueuePut k mq msg_ptr P timeout).2.mem (k.threads thread).winfo.msgque.msg_prio
        = P) ∧
    ((MessageQueuePut k mq msg_ptr P timeout).2.threads thread).state
      = ThreadState.ThreadReady ∧
    ofU32 ((MessageQueuePut k mq msg_ptr P timeout).2.threads thread).winfo.ret_val = osOK ∧
    ((MessageQueuePut k mq msg_ptr P timeout).2.objs mq).wait_get_queue = rest ∧
    (MessageQueuePut k mq msg_ptr P timeout).2.ready_list = k.ready_list ++ [thread] ∧
    ((MessageQueuePut k mq msg_ptr P timeout).2.objs mq).msg_count = (k.objs mq).msg_count ∧
    ((MessageQueuePut k mq msg_ptr P timeout).2.objs mq).msg_queue = (k.objs mq).msg_queue ∧
    ((MessageQueuePut k mq msg_ptr P timeout).2.objs mq).mp_info = (k.objs mq).mp_info := by
  obtain ⟨hmq, hid, _, _, _⟩ := hv
  rw [MessageQueuePut_consumer k mq msg_ptr P timeout thread rest hmq hid hptr hget]
  have hmem : ∀ (mem : Nat → Nat) (dst src n : Nat),
      readBytes (memcpy mem dst src n) dst n = readBytes mem src n := by
    intro mem dst src n
    have := readBytes_writeBytes mem dst (readBytes mem src n)
    rwa [readBytes_length] at this
  by_cases hp : (k.threads thread).winfo.msgque.msg_prio = NULL
  · refine ⟨rfl, ?_, ?_, ?_, ?_, ?_, ?_, ?_, ?_, ?_, ?_⟩ <;>
      simp [libThreadWaitExit, libThreadDispatch, QueueRemoveEntry, hp, hget, hmem, toU32, ofU32,
        osOK]
  · refine ⟨rfl, ?_, ?_, ?_, ?_, ?_, ?_, ?_, ?_, ?_, ?_⟩
    · simp [libThreadWaitExit, libThreadDispatch, hp]
    · intro hd
      simp only [libThreadWaitExit, libThreadDispatch, Function.update_same, ne_eq, hp,
        not_false_eq_true, if_true]
      rw [readBytes_update _ _ _ _ _ hd, hmem]
    all_goals
      simp [libThreadWaitExit, libThreadDispatch, QueueRemoveEntry, hp, hget, toU32, ofU32, osOK]


/-! ## Get from a non-empty queue -/

/-- C5: on a valid non-empty queue without waiting producers `MessageQueueGet`
returns `osOK`; the memory afterwards is the memory before with the payload of
the head message stored at `msg_ptr` and then, only when `msg_prio` is
non-null, its priority stored at `msg_prio`; the slot is pushed back on the
free list, the count drops by one and the remaining messages stay linked in
their order. -/
theorem MessageQueueGet_pops_head (k : Kernel) (mq msg_ptr msg_prio timeout : Nat)
    (m : osMessage_t) (rest : List osMessage_t) (hv : Valid k mq) (hptr : msg_ptr ≠ NULL)
    (hq : (k.objs mq).msg_queue = m :: rest) (hput : (k.objs mq).wait_put_queue = []) :
    (MessageQueueGet k mq msg_ptr msg_prio timeout).1 = osOK ∧
    (msg_prio ≠ NULL → (MessageQueueGet k mq msg_ptr msg_prio timeout).2.mem
      = Function.update (writeBytes k.mem msg_ptr m.data) msg_prio m.priority) ∧
    (msg_prio = NULL → (MessageQueueGet k mq msg_ptr msg_prio timeout).2.mem
      = writeBytes k.mem msg_ptr m.data) ∧
    ((MessageQueueGet k mq msg_ptr msg_prio timeout).2.objs mq).mp_info.block_free
      = m.addr :: (k.objs mq).mp_info.block_free ∧
    ((MessageQueueGet k mq msg_ptr msg_prio timeout).2.objs mq).msg_count + 1
      = (k.objs mq).msg_count ∧
    ((MessageQueueGet k mq msg_ptr msg_prio timeout).2.objs mq).msg_queue = rest := by
  obtain ⟨hmq, hid, hcnt, hpool, hmax⟩ := hv
  rw [MessageQueueGet_cons k mq msg_ptr msg_prio timeout m rest hmq hid hptr hq hput]
  rw [hq] at hcnt hpool
  simp only [List.length_cons] at hcnt hpool
  refine ⟨rfl, ?_, ?_, ?_, ?_, ?_⟩
  · intro h
    simp [h]
  · intro h
    simp [h]
  · simp [libMemoryPoolFree]
  · simp only [Function.update_same]
    rw [hcnt]
    omega
  · simp

/-- Result of `MessageQueueGet` on a non-empty queue with a waiting producer: the state
after the call. -/
theorem MessageQueueGet_producer (k : Kernel) (mq dst pprio timeout thread : Nat)
    (m : osMessage_t) (rest : List osMessage_t) (others : List Nat) (hmq : mq ≠ NULL)
    (hid : (k.objs mq).id = ID_MESSAGE_QUEUE) (hdst : dst ≠ NULL)
    (hq : (k.objs mq).msg_queue = m :: rest)
    (hput : (k.objs mq).wait_put_queue = thread :: others) :
    MessageQueueGet k mq dst pprio timeout =
      (osOK,
        libThreadWaitExit
          { k with
            mem := (MessageGet k mq dst pprio).2.mem
            objs := Function.update k.objs mq
              { k.objs mq with
                msg_queue := QueueAppend rest
                  (MessagePut.que ((k.threads thread).winfo.msgque.msg_prio % 256) rest)
                  (MessagePut.msg (MessageGet k mq dst pprio).2 mq
                    (k.threads thread).winfo.msgque.msg
                    ((k.threads thread).winfo.msgque.msg_prio % 256) m.addr)
                msg_count :=
                  (((k.objs mq).msg_count + 4294967295) % 4294967296 + 1) % 4294967296 } }
          thread (toU32 osOK) dispatch_t.DISPATCH_YES) := by
  unfold MessageQueueGet
  rw [if_neg (by simp [hmq, hid, hdst]), MessageGet_cons k mq dst pprio m rest hq]
  simp only [Function.update_same, hput]
  rw [MessagePut_alloc _ mq _ _ m.addr (k.objs mq).mp_info.block_free
    (by simp [libMemoryPoolFree])]
  simp [libMemoryPoolFree]

/-- C6: on a valid non-empty queue with a producer blocked in
`wait_put_queue`, `MessageQueueGet` returns `osOK` and, after popping the head
message, links the pending message of the head producer (read at the pointer
and with the priority of its wait-info) between `pre` and `post`, where
`pre ++ post` are the remaining messages, `pre` has priorities at least that of
the message and the head of `post` a lower one; that producer is unlinked,
ready, with return value `osOK`; the other producers stay linked and their
control blocks are untouched; the count is what it was. -/
theorem MessageQueueGet_refills_from_producer (k : Kernel)
    (mq dst pprio timeout thread : Nat) (m : osMessage_t) (rest : List osMessage_t)
    (others : List Nat) (hv : Valid k mq) (hdst : dst ≠ NULL)
    (hq : (k.objs mq).msg_queue = m :: rest)
    (hput : (k.objs mq).wait_put_queue = thread :: others) :
    (MessageQueueGet k mq dst pprio timeout).1 = osOK ∧
    (∃ msg pre post,
      msg.data = readBytes (MessageGet k mq dst pprio).2.mem
        (k.threads thread).winfo.msgque.msg (k.objs mq).msg_size ∧
      msg.priority = (k.threads thread).winfo.msgque.msg_prio % 256 ∧
      rest = pre ++ post ∧
      ((MessageQueueGet k mq dst pprio timeout).2.objs mq).msg_queue = pre ++ msg :: post ∧
      (∀ x ∈ pre, msg.priority ≤ x.priority) ∧
      (∀ x, post.head? = some x → x.priority < msg.priority)) ∧
    ((MessageQueueGet k mq dst pprio timeout).2.threads thread).state
      = ThreadState.ThreadReady ∧
    ofU32 ((MessageQueueGet k mq dst pprio timeout).2.threads thread).winfo.ret_val = osOK ∧
    (MessageQueueGet k mq dst pprio timeout).2.ready_list = k.ready_list ++ [thread] ∧
    ((MessageQueueGet k mq dst pprio timeout).2.objs mq).wait_put_queue = others ∧
    (∀ t, t ≠ thread → (MessageQueueGet k mq dst pprio timeout).2.threads t = k.threads t) ∧
    ((MessageQueueGet k mq dst pprio timeout).2.objs mq).msg_count = (k.objs mq).msg_count := by
  obtain ⟨hmq, hid, hcnt, hpool, hmax⟩ := hv
  rw [MessageQueueGet_producer k mq dst pprio timeout thread m rest others hmq hid hdst hq hput]
  rw [hq] at hcnt hpool
  simp only [List.length_cons] at hcnt hpool
  refine ⟨rfl, ⟨MessagePut.msg (MessageGet k mq dst pprio).2 mq
      (k.threads thread).winfo.msgque.msg
      ((k.threads thread).winfo.msgque.msg_prio % 256) m.addr,
    rest.take (MessagePut.que ((k.threads thread).winfo.msgque.msg_prio % 256) rest),
    rest.drop (MessagePut.que ((k.threads thread).winfo.msgque.msg_prio % 256) rest),
    ?_, ?_, ?_, ?_, ?_, ?_⟩, ?_, ?_, ?_, ?_, ?_, ?_⟩
  · rw [MessageGet_cons k mq dst pprio m rest hq]
    simp [MessagePut.msg]
  · rfl
  · exact (List.take_append_drop _ _).symm
  · simp [libThreadWaitExit, libThreadDispatch, QueueAppend]
  · exact MessagePut.que_take _ rest
  · exact MessagePut.que_drop _ rest
  · simp [libThreadWaitExit, libThreadDispatch]
  · simp [libThreadWaitExit, libThreadDispatch, toU32, ofU32, osOK]
  · simp [libThreadWaitExit, libThreadDispatch]
  · simp [libThreadWaitExit, libThreadDispatch, QueueRemoveEntry, hput]
  · intro t ht
    simp [libThreadWaitExit, libThreadDispatch, Function.update, ht]
  · simp only [libThreadWaitExit, libThreadDispatch, Function.update_same]
    rw [hcnt]
    omega


/-- C4, at the scenario queue with the running thread blocked in `Get`: a put
of the payload at `0x20003000` with priority 3. -/
theorem MessageQueuePut_hands_over_to_consumer_witness :
    Valid Scenario.consumer 0x20000000 ∧
    (Scenario.consumer.objs 0x20000000).wait_get_queue = [0x20001000] ∧
    (MessageQueuePut Scenario.consumer 0x20000000 0x20003000 3 0).1 = osOK ∧
    (MessageQueuePut Scenario.consumer 0x20000000 0x20003000 3 0).2.mem 0x20002010 = 3 ∧
    ((MessageQueuePut Scenario.consumer 0x20000000 0x20003000 3 0).2.threads 0x20001000).state
      = ThreadState.ThreadReady ∧
    ((MessageQueuePut Scenario.consumer 0x20000000 0x20003000 3 0).2.objs 0x20000000).msg_count
      = 0 :=
  have h := MessageQueuePut_hands_over_to_consumer Scenario.consumer 0x20000000 0x20003000 3 0
    0x20001000 [] (by unfold Valid; decide) (by decide) (by decide)
  ⟨by unfold Valid; decide, by decide, h.1, h.2.2.2.1 (by decide), h.2.2.2.2.1,
    h.2.2.2.2.2.2.2.2.1.trans (by decide)⟩

/-- C5, at the full scenario queue: the get returns the head message `0xBB` of
priority 5 and leaves three messages. -/
theorem MessageQueueGet_pops_head_witness :
    Valid Scenario.full 0x20000000 ∧
    (Scenario.full.objs 0x20000000).wait_put_queue = [] ∧
    ((Scenario.full.objs 0x20000000).msg_queue.map osMessage_t.view)
      = [([0xBB, 0, 0, 0], 5), ([0xDD, 0, 0, 0], 5), ([0xAA, 0, 0, 0], 2), ([0xCC, 0, 0, 0], 0)] ∧
    (MessageQueueGet Scenario.full 0x20000000 0x20002000 0x20002010 0).1 = osOK ∧
    ((MessageQueueGet Scenario.full 0x20000000 0x20002000 0x20002010 0).2.objs
      0x20000000).msg_count + 1 = 4 ∧
    ((MessageQueueGet Scenario.full 0x20000000 0x20002000 0x20002010 0).2.objs
      0x20000000).msg_queue = Scenario.tail :=
  have h := MessageQueueGet_pops_head Scenario.full 0x20000000 0x20002000 0x20002010 0
    Scenario.head Scenario.tail
    (by unfold Valid; decide) (by decide) (by decide) (by decide)
  ⟨by unfold Valid; decide, by decide, by decide, h.1, h.2.2.2.2.1.trans (by decide),
    h.2.2.2.2.2⟩

/-- C6, at the full scenario queue with the running thread blocked in `Put`
(payload `0xEE`, priority 7): the get returns `osOK`, the producer is made ready
and the count stays 4. -/
theorem MessageQueueGet_refills_from_producer_witness :
    Valid Scenario.producer 0x20000000 ∧
    (Scenario.producer.objs 0x20000000).wait_put_queue = [0x20001000] ∧
    (MessageQueueGet Scenario.producer 0x20000000 0x20002000 0x20002010 0).1 = osOK ∧
    ((MessageQueueGet Scenario.producer 0x20000000 0x20002000 0x20002010 0).2.threads
      0x20001000).state = ThreadState.ThreadReady ∧
    ((MessageQueueGet Scenario.producer 0x20000000 0x20002000 0x20002010 0).2.objs
      0x20000000).msg_count = 4 ∧
    ((MessageQueueGet Scenario.producer 0x20000000 0x20002000 0x20002010 0).2.objs
      0x20000000).msg_queue.map osMessage_t.view
      = [([0xEE, 0, 0, 0], 7), ([0xDD, 0, 0, 0], 5), ([0xAA, 0, 0, 0], 2),
          ([0xCC, 0, 0, 0], 0)] :=
  have h := MessageQueueGet_refills_from_producer Scenario.producer 0x20000000 0x20002000
    0x20002010 0 0x20001000
    Scenario.head Scenario.tail []
    (by unfold Valid; decide) (by decide) (by decide) (by decide)
  ⟨by unfold Valid; decide, by decide, h.1, h.2.2.1, h.2.2.2.2.2.2.2.trans (by decide),
    by decide⟩


/-! ## Calls that cannot proceed -/

/-- Result of `MessageQueueGet` with timeout 0 on an empty queue. -/
theorem MessageQueueGet_empty (k : Kernel) (mq msg_ptr msg_prio : Nat) (hmq : mq ≠ NULL)
    (hid : (k.objs mq).id = ID_MESSAGE_QUEUE) (hptr : msg_ptr ≠ NULL)
    (hempty : (k.objs mq).msg_queue = []) :
    MessageQueueGet k mq msg_ptr msg_prio 0 = (osErrorResource, k) := by
  unfold MessageQueueGet
  rw [if_neg (by simp [hmq, hid, hptr]), MessageGet_nil k mq msg_ptr msg_prio hempty]
  simp

/-- C8: on a valid empty queue, `osMessageQueueGet` with a non-null buffer and
timeout 0 returns `osErrorResource` and leaves the whole kernel state (the
queue and the user memory with the buffer of the caller) unchanged, whatever
the context of the call: thread (`irq_mode = false`, `irq_masked = false`),
ISR or interrupts masked. -/
theorem osMessageQueueGet_empty_no_wait (resume : Kernel → Kernel) (k : Kernel)
    (mq msg_ptr msg_prio : Nat) (hv : Valid k mq) (hptr : msg_ptr ≠ NULL)
    (hempty : (k.objs mq).msg_queue = []) (irq_mode irq_masked : Bool) :
    osMessageQueueGet resume { k with irq_mode := irq_mode, irq_masked := irq_masked }
      mq msg_ptr msg_prio 0
      = (osErrorResource, { k with irq_mode := irq_mode, irq_masked := irq_masked }) := by
  obtain ⟨hmq, hid, _, _, _⟩ := hv
  unfold osMessageQueueGet
  rw [MessageQueueGet_empty { k with irq_mode := irq_mode, irq_masked := irq_masked }
    mq msg_ptr msg_prio hmq hid hptr hempty]
  have : osErrorResource ≠ osThreadWait := by decide
  simp [this]

/-- C8, at the freshly created scenario queue, from thread context and from an
ISR. -/
theorem osMessageQueueGet_empty_no_wait_witness :
    Valid Scenario.created.2 0x20000000 ∧
    (Scenario.created.2.objs 0x20000000).msg_queue = [] ∧
    (osMessageQueueGet id
      { Scenario.created.2 with irq_mode := false, irq_masked := false }
      0x20000000 0x20002000 0x20002010 0).1 = osErrorResource ∧
    (osMessageQueueGet id
      { Scenario.created.2 with irq_mode := true, irq_masked := false }
      0x20000000 0x20002000 0x20002010 0).1 = osErrorResource :=
  ⟨by unfold Valid; decide, by decide,
    congrArg Prod.fst (osMessageQueueGet_empty_no_wait id Scenario.created.2 0x20000000
      0x20002000 0x20002010 (by unfold Valid; decide) (by decide) (by decide) false false),
    congrArg Prod.fst (osMessageQueueGet_empty_no_wait id Scenario.created.2 0x20000000
      0x20002000 0x20002010 (by unfold Valid; decide) (by decide) (by decide) true false)⟩

/-- C9: on a valid full queue (the count equals the capacity) without a waiting
consumer, `MessageQueuePut` with timeout 0 returns `osErrorResource` and leaves
the whole kernel state unchanged: message list, count, pool and both wait
queues. -/
theorem MessageQueuePut_full_no_wait (k : Kernel) (mq msg_ptr P : Nat) (hv : Valid k mq)
    (hptr : msg_ptr ≠ NULL) (hfull : (k.objs mq).msg_count = (k.objs mq).mp_info.max_blocks)
    (hget : (k.objs mq).wait_get_queue = []) :
    (k.objs mq).mp_info.block_free = [] ∧
    MessageQueuePut k mq msg_ptr P 0 = (osErrorResource, k) := by
  obtain ⟨hmq, hid, hcnt, hpool, _⟩ := hv
  have hfree : (k.objs mq).mp_info.block_free = [] := by
    apply List.eq_nil_of_length_eq_zero
    omega
  refine ⟨hfree, ?_⟩
  unfold MessageQueuePut
  rw [if_neg (by simp [hmq, hid, hptr])]
  simp [hget, MessagePut_full k mq msg_ptr P hfree]

/-- C9, at the full scenario queue. -/
theorem MessageQueuePut_full_no_wait_witness :
    Valid Scenario.full 0x20000000 ∧
    (Scenario.full.objs 0x20000000).msg_count = (Scenario.full.objs 0x20000000).mp_info.max_blocks ∧
    (Scenario.full.objs 0x20000000).wait_get_queue = [] ∧
    (MessageQueuePut Scenario.full 0x20000000 0x20003000 9 0).1 = osErrorResource :=
  ⟨by unfold Valid; decide, by decide, by decide,
    congrArg Prod.fst (MessageQueuePut_full_no_wait Scenario.full 0x20000000 0x20003000 9
      (by unfold Valid; decide) (by decide) (by decide) (by decide)).2⟩

/-- C10: in ISR context or with interrupts masked, `osMessageQueuePut` and
`osMessageQueueGet` with a timeout other than 0 return `osErrorParameter` and
leave the kernel state unchanged, for every state and all arguments. -/
theorem osMessageQueue_isr_timeout (resume : Kernel → Kernel) (k : Kernel)
    (mq msg_ptr msg_prio pprio timeout : Nat)
    (hirq : IsIrqMode k = true ∨ IsIrqMasked k = true) (ht : timeout ≠ 0) :
    osMessageQueuePut resume k mq msg_ptr msg_prio timeout = (osErrorParameter, k) ∧
    osMessageQueueGet resume k mq msg_ptr pprio timeout = (osErrorParameter, k) := by
  have h : (IsIrqMode k || IsIrqMasked k) = true := by
    rcases hirq with h | h <;> simp [h]
  constructor
  · unfold osMessageQueuePut
    rw [if_pos h, if_pos ht]
  · unfold osMessageQueueGet
    rw [if_pos h, if_pos ht]

/-- C10, at the full scenario queue seen from an ISR, with timeout 10. -/
theorem osMessageQueue_isr_timeout_witness :
    (IsIrqMode { Scenario.full with irq_mode := true } = true ∨
      IsIrqMasked { Scenario.full with irq_mode := true } = true) ∧
    (osMessageQueuePut id { Scenario.full with irq_mode := true }
      0x20000000 0x20003000 1 10).1 = osErrorParameter ∧
    (osMessageQueueGet id { Scenario.full with irq_mode := true }
      0x20000000 0x20003000 0x20002010 10).1 = osErrorParameter :=
  have h := osMessageQueue_isr_timeout id { Scenario.full with irq_mode := true }
    0x20000000 0x20003000 1 0x20002010 10 (Or.inl rfl) (by decide)
  ⟨Or.inl rfl, congrArg Prod.fst h.1, congrArg Prod.fst h.2⟩


/-! ## Reset -/

/-- One pass of the loop of `MessageQueueReset` with a free slot: the pending
message of the head producer is deposited and the producer is released. -/
theorem MessageQueueReset.pass (k : Kernel) (mq t b : Nat) (ts free : List Nat)
    (inputs : List (List Nat × Nat)) (hput : (k.objs mq).wait_put_queue = t :: ts)
    (hfree : (k.objs mq).mp_info.block_free = b :: free) (hd : Deposited k mq inputs) :
    ∃ k2, (MessagePut k mq (k.threads t).winfo.msgque.msg
        ((k.threads t).winfo.msgque.msg_prio % 256)).2 = k2 ∧
      (∃ m, (MessagePut k mq (k.threads t).winfo.msgque.msg
        ((k.threads t).winfo.msgque.msg_prio % 256)).1 = some m) ∧
      Deposited (libThreadWaitExit k2 t (toU32 osOK) dispatch_t.DISPATCH_NO) mq
        (inputs ++ [pending k mq t]) ∧
      ((libThreadWaitExit k2 t (toU32 osOK) dispatch_t.DISPATCH_NO).objs mq).wait_put_queue = ts ∧
      ((libThreadWaitExit k2 t (toU32 osOK) dispatch_t.DISPATCH_NO).objs mq).mp_info.block_free
        = free ∧
      ((libThreadWaitExit k2 t (toU32 osOK) dispatch_t.DISPATCH_NO).objs mq).mp_info.max_blocks
        = (k.objs mq).mp_info.max_blocks ∧
      ((libThreadWaitExit k2 t (toU32 osOK) dispatch_t.DISPATCH_NO).objs mq).msg_size
        = (k.objs mq).msg_size ∧
      ((libThreadWaitExit k2 t (toU32 osOK) dispatch_t.DISPATCH_NO).objs mq).id
        = (k.objs mq).id ∧
      (libThreadWaitExit k2 t (toU32 osOK) dispatch_t.DISPATCH_NO).mem = k.mem ∧
      (libThreadWaitExit k2 t (toU32 osOK) dispatch_t.DISPATCH_NO).ready_list
        = k.ready_list ++ [t] ∧
      (libThreadWaitExit k2 t (toU32 osOK) dispatch_t.DISPATCH_NO).threads
        = Function.update k.threads t
          { state := ThreadState.ThreadReady
            winfo := { (k.threads t).winfo with ret_val := toU32 osOK } } := by
  obtain ⟨hdesc, hlen, hfil, hcnt, hpool, hmax⟩ := hd
  rw [MessagePut_alloc k mq _ _ b free hfree]
  rw [hfree] at hpool
  simp only [List.length_cons] at hpool
  have hque := MessagePut.que_le ((k.threads t).winfo.msgque.msg_prio % 256) (k.objs mq).msg_queue
  refine ⟨_, rfl, ⟨_, rfl⟩, ⟨?_, ?_, ?_, ?_, ?_, ?_⟩, ?_, ?_, ?_, ?_, ?_, ?_, ?_, ?_⟩
  · simp only [libThreadWaitExit, Function.update_same]
    exact QueueAppend_descending ((k.threads t).winfo.msgque.msg_prio % 256) _ _ hdesc rfl
  · simp only [libThreadWaitExit, Function.update_same]
    rw [QueueAppend_length _ _ _ hque, hlen]
    simp
  · intro p
    simp only [libThreadWaitExit, Function.update_same]
    rw [QueueAppend_filter ((k.threads t).winfo.msgque.msg_prio % 256) _ _ hdesc rfl p,
      List.map_append, hfil p, List.filter_append]
    congr 1
    by_cases hp : (k.threads t).winfo.msgque.msg_prio % 256 = p
    · simp [hp, pending, osMessage_t.view, MessagePut.msg]
    · simp [hp, pending]
  · simp only [libThreadWaitExit, Function.update_same]
    rw [QueueAppend_length _ _ _ hque, hcnt, Nat.mod_eq_of_lt]
    omega
  · simp only [libThreadWaitExit, Function.update_same]
    rw [QueueAppend_length _ _ _ hque]
    omega
  · simpa [libThreadWaitExit] using hmax
  · simp [libThreadWaitExit, QueueRemoveEntry, hput]
  · simp [libThreadWaitExit]
  · simp [libThreadWaitExit]
  · simp [libThreadWaitExit]
  · simp [libThreadWaitExit]
  · simp [libThreadWaitExit]
  · simp [libThreadWaitExit]
  · simp [libThreadWaitExit]


theorem pending_congr (k k2 : Kernel) (mq t : Nat) (hmem : k2.mem = k.mem)
    (hsize : (k2.objs mq).msg_size = (k.objs mq).msg_size)
    (hw : (k2.threads t).winfo.msgque = (k.threads t).winfo.msgque) :
    pending k2 mq t = pending k mq t := by
  simp [pending, hmem, hsize, hw]

/-- The loop of `MessageQueueReset` run with the length of `wait_put_queue` as
fuel: the pending messages of the first `min (waiting) (free)` producers are
deposited, in the order they were waiting, and exactly these producers are
released with `osOK`. -/
theorem MessageQueueReset.loop_spec (mq : Nat) (ws : List Nat) :
    ∀ (k : Kernel) (inputs : List (List Nat × Nat)),
      (k.objs mq).wait_put_queue = ws → ws.Nodup → Deposited k mq inputs →
      Deposited (MessageQueueReset.loop mq ws.length k) mq
        (inputs ++ (ws.take (min ws.length (k.objs mq).mp_info.block_free.length)).map
          (pending k mq)) ∧
      ((MessageQueueReset.loop mq ws.length k).objs mq).wait_put_queue
        = ws.drop (min ws.length (k.objs mq).mp_info.block_free.length) ∧
      ((MessageQueueReset.loop mq ws.length k).objs mq).mp_info.max_blocks
        = (k.objs mq).mp_info.max_blocks ∧
      ((MessageQueueReset.loop mq ws.length k).objs mq).id = (k.objs mq).id ∧
      (MessageQueueReset.loop mq ws.length k).ready_list
        = k.ready_list ++ ws.take (min ws.length (k.objs mq).mp_info.block_free.length) ∧
      (∀ t ∈ ws.take (min ws.length (k.objs mq).mp_info.block_free.length),
        ((MessageQueueReset.loop mq ws.length k).threads t).state = ThreadState.ThreadReady ∧
        ((MessageQueueReset.loop mq ws.length k).threads t).winfo.ret_val = toU32 osOK) ∧
      (∀ t, t ∉ ws.take (min ws.length (k.objs mq).mp_info.block_free.length) →
        (MessageQueueReset.loop mq ws.length k).threads t = k.threads t) := by
  induction ws with
  | nil =>
    intro k inputs hput _ hd
    simp [MessageQueueReset.loop, hput, hd]
  | cons t ts ih =>
    intro k inputs hput hnd hd
    cases hfree : (k.objs mq).mp_info.block_free with
    | nil =>
      have hloop : MessageQueueReset.loop mq (t :: ts).length k = k := by
        simp [MessageQueueReset.loop, hput, MessagePut_full k mq _ _ hfree]
      rw [hloop]
      simp [hput, hd]
    | cons b free =>
      obtain ⟨k2, hk2, ⟨m, hm⟩, p1, p2, p3, p4, p5, p6, p7, p8, p9⟩ :=
        MessageQueueReset.pass k mq t b ts free inputs hput hfree hd
      have hloop : MessageQueueReset.loop mq (t :: ts).length k
          = MessageQueueReset.loop mq ts.length
            (libThreadWaitExit k2 t (toU32 osOK) dispatch_t.DISPATCH_NO) := by
        have hpair : MessagePut k mq (k.threads t).winfo.msgque.msg
            ((k.threads t).winfo.msgque.msg_prio % 256) = (some m, k2) := Prod.ext hm hk2
        simp only [List.length_cons, MessageQueueReset.loop, hput, hpair, p2]
        cases ts with
        | nil => simp [isQueueEmpty, MessageQueueReset.loop]
        | cons x xs => simp [isQueueEmpty]
      have hnd2 : ts.Nodup := (List.nodup_cons.mp hnd).2
      have hnot : t ∉ ts := (List.nodup_cons.mp hnd).1
      obtain ⟨i1, i2, i3, i4, i5, i6, i7⟩ := ih _ (inputs ++ [pending k mq t]) p2 hnd2 p1
      have hpend : ∀ x, pending (libThreadWaitExit k2 t (toU32 osOK) dispatch_t.DISPATCH_NO) mq x
          = pending k mq x := by
        intro x
        apply pending_congr _ _ _ _ p7 p5
        rw [p9]
        by_cases hx : x = t
        · subst hx; simp
        · simp [Function.update, hx]
      have hmin : min (t :: ts).length (b :: free).length = min ts.length free.length + 1 := by
        simp only [List.length_cons]
        omega
      rw [hloop, hmin, List.take_succ_cons, List.drop_succ_cons]
      rw [p3] at i1 i2 i5 i6 i7
      have hfun : pending (libThreadWaitExit k2 t (toU32 osOK) dispatch_t.DISPATCH_NO) mq
          = pending k mq := funext hpend
      rw [hfun] at i1
      refine ⟨?_, i2, ?_, ?_, ?_, ?_, ?_⟩
      · simpa using i1
      · rw [i3, p4]
      · rw [i4, p6]
      · rw [i5, p8]
        simp
      · intro x hx
        simp only [List.mem_cons] at hx
        rcases hx with rfl | hx
        · have hx' : x ∉ ts.take (min ts.length free.length) :=
            fun h => hnot (List.mem_of_mem_take h)
          rw [i7 x hx', p9]
          simp
        · exact i6 x hx
      · intro x hx
        simp only [List.mem_cons, not_or] at hx
        rw [i7 x hx.2, p9]
        simp [Function.update, hx.1]


/-- The state of `MessageQueueReset` before its loop: no message, every slot
free, the waiting producers untouched. -/
theorem MessageQueueReset.cleared (k : Kernel) (mq : Nat)
    (hmax : (k.objs mq).mp_info.max_blocks < 4294967296) :
    Deposited
      { k with
        objs := Function.update k.objs mq
          { k.objs mq with
            msg_count := 0
            msg_queue := QueueReset (k.objs mq).msg_queue
            mp_info := libMemoryPoolReset (k.objs mq).mp_info } } mq [] := by
  refine ⟨?_, ?_, ?_, ?_, ?_, ?_⟩ <;>
    simp [QueueReset, libMemoryPoolReset, poolChain, Descending, hmax]

/-- C7: on a valid queue of capacity `max_blocks` whose `wait_put_queue` holds
the producers `ws` (each thread once), `MessageQueueReset` returns `osOK`; with
`n = min ws.length max_blocks`, the messages linked afterwards are exactly the
pending messages of the first `n` producers, deposited in the order they were
waiting (non-increasing priority, waiting order within a priority); these `n`
producers are ready with return value `osOK`, the others stay linked in
`wait_put_queue` with their control blocks untouched; the count is `n`. -/
theorem MessageQueueReset_releases_producers (k : Kernel) (mq : Nat) (hv : Valid k mq)
    (hnd : (k.objs mq).wait_put_queue.Nodup) :
    (MessageQueueReset k mq).1 = osOK ∧
    Descending ((MessageQueueReset k mq).2.objs mq).msg_queue ∧
    (∀ p, (((MessageQueueReset k mq).2.objs mq).msg_queue.filter
        (fun m => m.priority = p)).map osMessage_t.view
      = (((k.objs mq).wait_put_queue.take
          (min (k.objs mq).wait_put_queue.length (k.objs mq).mp_info.max_blocks)).map
          (pending k mq)).filter (fun x => x.2 = p)) ∧
    ((MessageQueueReset k mq).2.objs mq).msg_queue.length
      = min (k.objs mq).wait_put_queue.length (k.objs mq).mp_info.max_blocks ∧
    (∀ t ∈ (k.objs mq).wait_put_queue.take
        (min (k.objs mq).wait_put_queue.length (k.objs mq).mp_info.max_blocks),
      ((MessageQueueReset k mq).2.threads t).state = ThreadState.ThreadReady ∧
      ofU32 ((MessageQueueReset k mq).2.threads t).winfo.ret_val = osOK) ∧
    (MessageQueueReset k mq).2.ready_list
      = k.ready_list ++ (k.objs mq).wait_put_queue.take
          (min (k.objs mq).wait_put_queue.length (k.objs mq).mp_info.max_blocks) ∧
    ((MessageQueueReset k mq).2.objs mq).wait_put_queue
      = (k.objs mq).wait_put_queue.drop
          (min (k.objs mq).wait_put_queue.length (k.objs mq).mp_info.max_blocks) ∧
    (∀ t, t ∉ (k.objs mq).wait_put_queue.take
        (min (k.objs mq).wait_put_queue.length (k.objs mq).mp_info.max_blocks) →
      (MessageQueueReset k mq).2.threads t = k.threads t) ∧
    ((MessageQueueReset k mq).2.objs mq).msg_count
      = min (k.objs mq).wait_put_queue.length (k.objs mq).mp_info.max_blocks := by
  obtain ⟨hmq, hid, _, _, hmax⟩ := hv
  have hd := MessageQueueReset.cleared k mq hmax
  obtain ⟨l1, l2, l3, l4, l5, l6, l7⟩ := MessageQueueReset.loop_spec mq (k.objs mq).wait_put_queue
    _ [] (by simp) hnd hd
  have hfreelen : (libMemoryPoolReset (k.objs mq).mp_info).block_free.length
      = (k.objs mq).mp_info.max_blocks := by
    simp [libMemoryPoolReset, poolChain]
  simp only [Function.update_same, hfreelen, List.nil_append] at l1 l2 l3 l4 l5 l6 l7
  have hpend : pending
      { k with
        objs := Function.update k.objs mq
          { k.objs mq with
            msg_count := 0
            msg_queue := QueueReset (k.objs mq).msg_queue
            mp_info := libMemoryPoolReset (k.objs mq).mp_info } } mq = pending k mq := by
    funext t
    simp [pending]
  rw [hpend] at l1
  have hres : (MessageQueueReset k mq).1 = osOK ∧
      ((MessageQueueReset k mq).2.objs = (MessageQueueReset.loop mq (k.objs mq).wait_put_queue.length
        { k with
          objs := Function.update k.objs mq
            { k.objs mq with
              msg_count := 0
              msg_queue := QueueReset (k.objs mq).msg_queue
              mp_info := libMemoryPoolReset (k.objs mq).mp_info } }).objs ∧
      (MessageQueueReset k mq).2.threads = (MessageQueueReset.loop mq
        (k.objs mq).wait_put_queue.length
        { k with
          objs := Function.update k.objs mq
            { k.objs mq with
              msg_count := 0
              msg_queue := QueueReset (k.objs mq).msg_queue
              mp_info := libMemoryPoolReset (k.objs mq).mp_info } }).threads ∧
      (MessageQueueReset k mq).2.ready_list = (MessageQueueReset.loop mq
        (k.objs mq).wait_put_queue.length
        { k with
          objs := Function.update k.objs mq
            { k.objs mq with
              msg_count := 0
              msg_queue := QueueReset (k.objs mq).msg_queue
              mp_info := libMemoryPoolReset (k.objs mq).mp_info } }).ready_list) := by
    unfold MessageQueueReset
    rw [if_neg (by simp [hmq, hid])]
    cases hws : (k.objs mq).wait_put_queue with
    | nil => simp [isQueueEmpty, hws, MessageQueueReset.loop]
    | cons x xs => simp [isQueueEmpty, hws, libThreadDispatch]
  obtain ⟨r1, r2, r3, r4⟩ := hres
  obtain ⟨d1, d2, d3, d4, _, _⟩ := l1
  simp only [List.length_map, List.length_take, List.length_nil] at d2
  rw [r2, r3, r4]
  refine ⟨r1, d1, d3, ?_, ?_, l5, l2, l7, ?_⟩
  · rw [d2]
    omega
  · intro t ht
    obtain ⟨s1, s2⟩ := l6 t ht
    refine ⟨s1, ?_⟩
    rw [s2]
    decide
  · rw [d4, d2]
    omega


/-- C7, the literal scenario: capacity 2, the queue full, the producers P1 and
P2 blocked on `Put`; after `Reset` both are ready with `osOK`, their messages
are linked and the count is 2. -/
theorem MessageQueueReset_releases_producers_witness :
    Valid Scenario.pairBlocked 0x20000000 ∧
    (Scenario.pairBlocked.objs 0x20000000).wait_put_queue = [0x20001000, 0x20001100] ∧
    (Scenario.pairBlocked.objs 0x20000000).mp_info.max_blocks = 2 ∧
    (Scenario.pairBlocked.threads 0x20001000).state = ThreadState.ThreadBlocked ∧
    (Scenario.pairBlocked.threads 0x20001100).state = ThreadState.ThreadBlocked ∧
    (MessageQueueReset Scenario.pairBlocked 0x20000000).1 = osOK ∧
    ((MessageQueueReset Scenario.pairBlocked 0x20000000).2.threads 0x20001000).state
      = ThreadState.ThreadReady ∧
    ofU32 ((MessageQueueReset Scenario.pairBlocked 0x20000000).2.threads
      0x20001000).winfo.ret_val = osOK ∧
    ((MessageQueueReset Scenario.pairBlocked 0x20000000).2.threads 0x20001100).state
      = ThreadState.ThreadReady ∧
    ofU32 ((MessageQueueReset Scenario.pairBlocked 0x20000000).2.threads
      0x20001100).winfo.ret_val = osOK ∧
    ((MessageQueueReset Scenario.pairBlocked 0x20000000).2.objs 0x20000000).msg_count = 2 ∧
    ((MessageQueueReset Scenario.pairBlocked 0x20000000).2.objs 0x20000000).msg_queue.map
      osMessage_t.view = [([0x22, 0, 0, 0], 2), ([0x11, 0, 0, 0], 1)] :=
  have h := MessageQueueReset_releases_producers Scenario.pairBlocked 0x20000000
    (by unfold Valid; decide) (by decide)
  ⟨by unfold Valid; decide, by decide, by decide, by decide, by decide, h.1,
    (h.2.2.2.2.1 0x20001000 (by decide)).1, (h.2.2.2.2.1 0x20001000 (by decide)).2,
    (h.2.2.2.2.1 0x20001100 (by decide)).1, (h.2.2.2.2.1 0x20001100 (by decide)).2,
    h.2.2.2.2.2.2.2.2.trans (by decide), by decide⟩

/-! ## Invalid handles and null pointers -/

/-- C19: for a handle that is `NULL` or whose control block is not stamped
`ID_MESSAGE_QUEUE`, and for a `NULL` message pointer, `MessageQueuePut` and
`MessageQueueGet` return `osErrorParameter` with the kernel state unchanged;
for such a handle `MessageQueueReset` and `MessageQueueDelete` return
`osErrorParameter` with the state unchanged, the four numeric inspectors return
0 and `MessageQueueGetName` returns `NULL`. -/
theorem MessageQueue_parameter_errors (k : Kernel) (mq_id msg_ptr msg_prio timeout : Nat) :
    ((mq_id = NULL ∨ (k.objs mq_id).id ≠ ID_MESSAGE_QUEUE ∨ msg_ptr = NULL) →
      MessageQueuePut k mq_id msg_ptr msg_prio timeout = (osErrorParameter, k) ∧
      MessageQueueGet k mq_id msg_ptr msg_prio timeout = (osErrorParameter, k)) ∧
    ((mq_id = NULL ∨ (k.objs mq_id).id ≠ ID_MESSAGE_QUEUE) →
      MessageQueueReset k mq_id = (osErrorParameter, k) ∧
      MessageQueueDelete k mq_id = (osErrorParameter, k) ∧
      MessageQueueGetCapacity k mq_id = 0 ∧
      MessageQueueGetMsgSize k mq_id = 0 ∧
      MessageQueueGetCount k mq_id = 0 ∧
      MessageQueueGetSpace k mq_id = 0 ∧
      MessageQueueGetName k mq_id = NULL) := by
  refine ⟨fun h => ⟨?_, ?_⟩, fun h => ⟨?_, ?_, ?_, ?_, ?_, ?_, ?_⟩⟩
  · unfold MessageQueuePut
    rw [if_pos h]
  · unfold MessageQueueGet
    rw [if_pos h]
  · unfold MessageQueueReset
    rw [if_pos h]
  · unfold MessageQueueDelete
    rw [if_pos h]
  · unfold MessageQueueGetCapacity
    rw [if_pos h]
  · unfold MessageQueueGetMsgSize
    rw [if_pos h]
  · unfold MessageQueueGetCount
    rw [if_pos h]
  · unfold MessageQueueGetSpace
    rw [if_pos h]
  · unfold MessageQueueGetName
    rw [if_pos h]

/-- C19, at the deleted scenario queue (stale handle) and, for the null
message pointer, at the full scenario queue. -/
theorem MessageQueue_parameter_errors_witness :
    (Scenario.deleted.objs 0x20000000).id ≠ ID_MESSAGE_QUEUE ∧
    MessageQueuePut Scenario.deleted 0x20000000 0x20003000 1 0
      = (osErrorParameter, Scenario.deleted) ∧
    MessageQueueGetCapacity Scenario.deleted 0x20000000 = 0 ∧
    MessageQueueGetName Scenario.deleted 0x20000000 = NULL ∧
    MessageQueueGet Scenario.full 0x20000000 NULL 0 0 = (osErrorParameter, Scenario.full) :=
  ⟨by decide,
    ((MessageQueue_parameter_errors Scenario.deleted 0x20000000 0x20003000 1 0).1
      (Or.inr (Or.inl (by decide)))).1,
    ((MessageQueue_parameter_errors Scenario.deleted 0x20000000 0x20003000 1 0).2
      (Or.inr (by decide))).2.2.1,
    ((MessageQueue_parameter_errors Scenario.deleted 0x20000000 0x20003000 1 0).2
      (Or.inr (by decide))).2.2.2.2.2.2,
    ((MessageQueue_parameter_errors Scenario.full 0x20000000 NULL 0 0).1
      (Or.inr (Or.inr rfl))).2⟩

/-! ## Delete -/

theorem foldl_erase_self (ws : List Nat) : List.foldl List.erase ws ws = [] := by
  induction ws with
  | nil => rfl
  | cons t ts ih => simpa using ih

theorem foldl_erase_nil (ws : List Nat) : List.foldl List.erase [] ws = [] := by
  induction ws with
  | nil => rfl
  | cons t ts ih => simpa using ih

theorem mem_foldl_erase (ws : List Nat) :
    ∀ (l : List Nat) (t : Nat), t ∈ l → t ∉ ws → t ∈ List.foldl List.erase l ws := by
  induction ws with
  | nil => intro l t h _; simpa using h
  | cons x xs ih =>
    intro l t h hn
    simp only [List.mem_cons, not_or] at hn
    simp only [List.foldl_cons]
    exact ih _ t ((List.mem_erase_of_ne hn.1).mpr h) hn.2

/-- Releasing the threads `ws` one after the other: in every control block
they are unlinked from both wait queues, nothing else changes there. -/
theorem drain_objs (r : Nat) (ws : List Nat) :
    ∀ (k : Kernel) (a : Nat),
      (List.foldl (fun s t => libThreadWaitExit s t r dispatch_t.DISPATCH_NO) k ws).objs a =
        { k.objs a with
          wait_put_queue := List.foldl List.erase (k.objs a).wait_put_queue ws
          wait_get_queue := List.foldl List.erase (k.objs a).wait_get_queue ws } := by
  induction ws with
  | nil => intro k a; rfl
  | cons t ts ih =>
    intro k a
    simp only [List.foldl_cons]
    rw [ih]
    simp [libThreadWaitExit, QueueRemoveEntry]

/-- A thread that is ready with return value `r` stays so while threads are
released with `r`. -/
theorem drain_threads_keep (r : Nat) (ws : List Nat) :
    ∀ (k : Kernel) (t : Nat),
      (k.threads t).state = ThreadState.ThreadReady ∧ (k.threads t).winfo.ret_val = r →
      ((List.foldl (fun s t => libThreadWaitExit s t r dispatch_t.DISPATCH_NO) k ws).threads
          t).state = ThreadState.ThreadReady ∧
        ((List.foldl (fun s t => libThreadWaitExit s t r dispatch_t.DISPATCH_NO) k ws).threads
          t).winfo.ret_val = r := by
  induction ws with
  | nil => intro k t h; exact h
  | cons x xs ih =>
    intro k t h
    simp only [List.foldl_cons]
    apply ih
    by_cases hx : t = x
    · subst hx
      simp [libThreadWaitExit]
    · simpa [libThreadWaitExit, Function.update, hx] using h

/-- Every released thread ends up ready with return value `r`. -/
theorem drain_threads_mem (r : Nat) (ws : List Nat) :
    ∀ (k : Kernel) (t : Nat), t ∈ ws →
      ((List.foldl (fun s t => libThreadWaitExit s t r dispatch_t.DISPATCH_NO) k ws).threads
          t).state = ThreadState.ThreadReady ∧
        ((List.foldl (fun s t => libThreadWaitExit s t r dispatch_t.DISPATCH_NO) k ws).threads
          t).winfo.ret_val = r := by
  induction ws with
  | nil => intro k t h; simp at h
  | cons x xs ih =>
    intro k t h
    simp only [List.foldl_cons]
    simp only [List.mem_cons] at h
    rcases h with rfl | h
    · apply drain_threads_keep
      simp [libThreadWaitExit]
    · exact ih _ t h

/-- The state after `MessageQueueDelete` on a valid handle: both wait queues
of the control block are drained and the ID tag is cleared; the other fields of
the control block are kept. -/
theorem MessageQueueDelete_objs (k : Kernel) (mq : Nat) (hmq : mq ≠ NULL)
    (hid : (k.objs mq).id = ID_MESSAGE_QUEUE) :
    (MessageQueueDelete k mq).1 = osOK ∧
    (MessageQueueDelete k mq).2.objs mq =
      { k.objs mq with id := ID_INVALID, wait_put_queue := [], wait_get_queue := [] } := by
  unfold MessageQueueDelete
  rw [if_neg (by simp [hmq, hid])]
  refine ⟨rfl, ?_⟩
  simp only [libThreadWaitDelete, libThreadDispatch, Function.update_same, drain_objs,
    foldl_erase_self, foldl_erase_nil]

/-- The threads after `MessageQueueDelete` on a valid handle: every thread that
was linked in one of the two wait queues is ready with return value
`osErrorResource`. -/
theorem MessageQueueDelete_threads (k : Kernel) (mq t : Nat) (hmq : mq ≠ NULL)
    (hid : (k.objs mq).id = ID_MESSAGE_QUEUE)
    (ht : t ∈ (k.objs mq).wait_put_queue ∨ t ∈ (k.objs mq).wait_get_queue) :
    ((MessageQueueDelete k mq).2.threads t).state = ThreadState.ThreadReady ∧
    ((MessageQueueDelete k mq).2.threads t).winfo.ret_val = toU32 osErrorResource := by
  unfold MessageQueueDelete
  rw [if_neg (by simp [hmq, hid])]
  simp only [libThreadWaitDelete, libThreadDispatch, drain_objs]
  by_cases hp : t ∈ (k.objs mq).wait_put_queue
  · exact drain_threads_keep _ _ _ t (drain_threads_mem _ _ k t hp)
  · have hg : t ∈ (k.objs mq).wait_get_queue := ht.resolve_left hp
    exact drain_threads_mem _ _ _ t (mem_foldl_erase _ _ t hg hp)

/-- C12: `MessageQueueDelete` on a valid queue returns `osOK`; every thread
that was blocked in `wait_put_queue` or in `wait_get_queue` is ready with
return value `osErrorResource`, and both wait queues are empty afterwards. -/
theorem MessageQueueDelete_releases_waiters (k : Kernel) (mq : Nat) (hv : Valid k mq) :
    (MessageQueueDelete k mq).1 = osOK ∧
    (∀ t, t ∈ (k.objs mq).wait_put_queue ∨ t ∈ (k.objs mq).wait_get_queue →
      ((MessageQueueDelete k mq).2.threads t).state = ThreadState.ThreadReady ∧
      ofU32 ((MessageQueueDelete k mq).2.threads t).winfo.ret_val = osErrorResource) ∧
    ((MessageQueueDelete k mq).2.objs mq).wait_put_queue = [] ∧
    ((MessageQueueDelete k mq).2.objs mq).wait_get_queue = [] := by
  obtain ⟨hmq, hid, _, _, _⟩ := hv
  obtain ⟨h1, h2⟩ := MessageQueueDelete_objs k mq hmq hid
  refine ⟨h1, ?_, ?_, ?_⟩
  · intro t ht
    obtain ⟨s1, s2⟩ := MessageQueueDelete_threads k mq t hmq hid ht
    refine ⟨s1, ?_⟩
    rw [s2]
    decide
  · rw [h2]
  · rw [h2]

/-- C12, at the full scenario queue with the running thread blocked in
`Put`. -/
theorem MessageQueueDelete_releases_waiters_witness :
    Valid Scenario.producer 0x20000000 ∧
    (Scenario.producer.objs 0x20000000).wait_put_queue = [0x20001000] ∧
    (Scenario.producer.threads 0x20001000).state = ThreadState.ThreadBlocked ∧
    (MessageQueueDelete Scenario.producer 0x20000000).1 = osOK ∧
    ((MessageQueueDelete Scenario.producer 0x20000000).2.threads 0x20001000).state
      = ThreadState.ThreadReady ∧
    ofU32 ((MessageQueueDelete Scenario.producer 0x20000000).2.threads 0x20001000).winfo.ret_val
      = osErrorResource ∧
    ((MessageQueueDelete Scenario.producer 0x20000000).2.objs 0x20000000).wait_put_queue = [] :=
  have h := MessageQueueDelete_releases_waiters Scenario.producer 0x20000000
    (by unfold Valid; decide)
  ⟨by unfold Valid; decide, by decide, by decide, h.1,
    (h.2.1 0x20001000 (Or.inl (by decide))).1, (h.2.1 0x20001000 (Or.inl (by decide))).2,
    h.2.2.1⟩

/-- C11: after `MessageQueueDelete` returned `osOK` on a valid queue the ID tag
of the control block is `ID_INVALID`, and `MessageQueuePut`, `MessageQueueGet`,
`MessageQueueReset` and `MessageQueueDelete` on the same handle then return
`osErrorParameter`, for all other arguments, with the kernel state (hence the
control block) unchanged. -/
theorem MessageQueueDelete_invalidates (k : Kernel) (mq : Nat) (hv : Valid k mq) :
    (MessageQueueDelete k mq).1 = osOK ∧
    ((MessageQueueDelete k mq).2.objs mq).id = ID_INVALID ∧
    ∀ msg_ptr msg_prio timeout : Nat,
      MessageQueuePut (MessageQueueDelete k mq).2 mq msg_ptr msg_prio timeout
        = (osErrorParameter, (MessageQueueDelete k mq).2) ∧
      MessageQueueGet (MessageQueueDelete k mq).2 mq msg_ptr msg_prio timeout
        = (osErrorParameter, (MessageQueueDelete k mq).2) ∧
      MessageQueueReset (MessageQueueDelete k mq).2 mq
        = (osErrorParameter, (MessageQueueDelete k mq).2) ∧
      MessageQueueDelete (MessageQueueDelete k mq).2 mq
        = (osErrorParameter, (MessageQueueDelete k mq).2) := by
  obtain ⟨hmq, hid, _, _, _⟩ := hv
  obtain ⟨h1, h2⟩ := MessageQueueDelete_objs k mq hmq hid
  have hinv : ((MessageQueueDelete k mq).2.objs mq).id = ID_INVALID := by rw [h2]
  have hne : ((MessageQueueDelete k mq).2.objs mq).id ≠ ID_MESSAGE_QUEUE := by
    rw [hinv]
    decide
  refine ⟨h1, hinv, fun msg_ptr msg_prio timeout => ⟨?_, ?_, ?_, ?_⟩⟩
  · unfold MessageQueuePut
    rw [if_pos (Or.inr (Or.inl hne))]
  · unfold MessageQueueGet
    rw [if_pos (Or.inr (Or.inl hne))]
  · generalize (MessageQueueDelete k mq).2 = k1 at hne
    unfold MessageQueueReset
    rw [if_pos (Or.inr hne)]
  · generalize (MessageQueueDelete k mq).2 = k1 at hne
    unfold MessageQueueDelete
    rw [if_pos (Or.inr hne)]

/-- C11, at the full scenario queue with a blocked producer. -/
theorem MessageQueueDelete_invalidates_witness :
    Valid Scenario.producer 0x20000000 ∧
    (MessageQueueDelete Scenario.producer 0x20000000).1 = osOK ∧
    ((MessageQueueDelete Scenario.producer 0x20000000).2.objs 0x20000000).id = ID_INVALID ∧
    (MessageQueuePut (MessageQueueDelete Scenario.producer 0x20000000).2
      0x20000000 0x20003000 1 0).1 = osErrorParameter ∧
    (MessageQueueGet (MessageQueueDelete Scenario.producer 0x20000000).2
      0x20000000 0x20003000 1 0).1 = osErrorParameter :=
  have h := MessageQueueDelete_invalidates Scenario.producer 0x20000000
    (by unfold Valid; decide)
  ⟨by unfold Valid; decide, h.1, h.2.1, congrArg Prod.fst (h.2.2 0x20003000 1 0).1,
    congrArg Prod.fst (h.2.2 0x20003000 1 0).2.1⟩

/-! ## Blocking put -/

/-- C20: on a valid full queue without waiting consumer, `MessageQueuePut` with
a timeout other than 0: when the wait state is entered, the running thread is
linked at the tail of `wait_put_queue` and blocked, its wait-info records the
message pointer and the priority, the result is the sentinel `osThreadWait`, and
the linked messages, the count and the pool are unchanged; when the wait state
cannot be entered the result is `osErrorTimeout` and nothing changes. -/
theorem MessageQueuePut_blocks_when_full (k : Kernel) (mq msg_ptr P timeout : Nat)
    (hv : Valid k mq) (hptr : msg_ptr ≠ NULL)
    (hfull : (k.objs mq).msg_count = (k.objs mq).mp_info.max_blocks)
    (hget : (k.objs mq).wait_get_queue = []) (ht : timeout ≠ 0) :
    (k.wait_allowed = true →
      (MessageQueuePut k mq msg_ptr P timeout).1 = osThreadWait ∧
      ((MessageQueuePut k mq msg_ptr P timeout).2.objs mq).wait_put_queue
        = (k.objs mq).wait_put_queue ++ [ThreadGetRunning k] ∧
      ((MessageQueuePut k mq msg_ptr P timeout).2.threads (ThreadGetRunning k)).winfo.msgque
        = { msg := msg_ptr, msg_prio := P } ∧
      ((MessageQueuePut k mq msg_ptr P timeout).2.threads (ThreadGetRunning k)).state
        = ThreadState.ThreadBlocked ∧
      ((MessageQueuePut k mq msg_ptr P timeout).2.objs mq).msg_queue = (k.objs mq).msg_queue ∧
      ((MessageQueuePut k mq msg_ptr P timeout).2.objs mq).msg_count = (k.objs mq).msg_count ∧
      ((MessageQueuePut k mq msg_ptr P timeout).2.objs mq).mp_info = (k.objs mq).mp_info) ∧
    (k.wait_allowed = false →
      MessageQueuePut k mq msg_ptr P timeout = (osErrorTimeout, k)) := by
  obtain ⟨hmq, hid, hcnt, hpool, _⟩ := hv
  have hfree : (k.objs mq).mp_info.block_free = [] := by
    apply List.eq_nil_of_length_eq_zero
    omega
  have hput : MessageQueuePut k mq msg_ptr P timeout =
      match libThreadWaitEnter k (ThreadGetRunning k) mq WaitQueue.wait_put_queue timeout with
      | (true, k2) =>
        (osThreadWait,
          { k2 with
            threads := Function.update k2.threads (ThreadGetRunning k)
              { k2.threads (ThreadGetRunning k) with
                winfo :=
                  { (k2.threads (ThreadGetRunning k)).winfo with
                    msgque := { msg := msg_ptr, msg_prio := P } } } })
      | (false, k2) => (osErrorTimeout, k2) := by
    unfold MessageQueuePut
    rw [if_neg (by simp [hmq, hid, hptr])]
    simp [hget, MessagePut_full k mq msg_ptr P hfree, ht]
  rw [hput]
  constructor
  · intro hw
    simp [libThreadWaitEnter, libThreadDispatch, hw, QueueAppend]
  · intro hw
    simp [libThreadWaitEnter, hw]

/-- C20, at the full scenario queue: the running thread `0x20001000` blocks
with its message pointer `0x20003000` and priority 7 recorded; with the wait
state refused the call returns `osErrorTimeout`. -/
theorem MessageQueuePut_blocks_when_full_witness :
    Valid Scenario.full 0x20000000 ∧
    (MessageQueuePut Scenario.full 0x20000000 0x20003000 7 osWaitForever).1 = osThreadWait ∧
    ((MessageQueuePut Scenario.full 0x20000000 0x20003000 7 osWaitForever).2.objs
      0x20000000).wait_put_queue = [0x20001000] ∧
    ((MessageQueuePut Scenario.full 0x20000000 0x20003000 7 osWaitForever).2.threads
      0x20001000).winfo.msgque = { msg := 0x20003000, msg_prio := 7 } ∧
    (MessageQueuePut { Scenario.full with wait_allowed := false }
      0x20000000 0x20003000 7 osWaitForever).1 = osErrorTimeout :=
  have h := MessageQueuePut_blocks_when_full Scenario.full 0x20000000 0x20003000 7 osWaitForever
    (by unfold Valid; decide) (by decide) (by decide) (by decide) (by decide)
  ⟨by unfold Valid; decide, (h.1 (by decide)).1, (h.1 (by decide)).2.1.trans (by decide),
    (h.1 (by decide)).2.2.1,
    congrArg Prod.fst ((MessageQueuePut_blocks_when_full { Scenario.full with wait_allowed := false }
      0x20000000 0x20003000 7 osWaitForever
      (by unfold Valid; decide) (by decide) (by decide) (by decide) (by decide)).2 rfl)⟩

/-! ## Parameter checks of `MessageQueueNew` -/

theorem and_three (x : Nat) : x &&& 3 = x % 4 :=
  Nat.and_pow_two_sub_one_eq_mod x 2

/-- A number below `2 ^ n` is below 2 to the number of powers of 2 (with
exponent below `n`) it reaches: its bit length. -/
theorem lt_two_pow_bitlen (x : Nat) :
    ∀ n : Nat, x < 2 ^ n → x < 2 ^ ((List.range n).filter (fun i => 2 ^ i ≤ x)).length := by
  intro n
  induction n with
  | zero => intro h; simpa using h
  | succ n ih =>
    intro h
    rw [List.range_succ, List.filter_append, List.length_append]
    by_cases hx : 2 ^ n ≤ x
    · have hall : (List.range n).filter (fun i => 2 ^ i ≤ x) = List.range n := by
        rw [List.filter_eq_self]
        intro i hi
        have hi' : i < n := List.mem_range.mp hi
        have : 2 ^ i ≤ 2 ^ n := Nat.pow_le_pow_right (by decide) (Nat.le_of_lt hi')
        simp only [decide_eq_true_eq]
        omega
      simp [hall, hx]
      exact h
    · have hlt : x < 2 ^ n := Nat.lt_of_not_le hx
      simp [hx]
      exact ih hlt

/-- The guard on the leading zeros: when it passes, the product of the two
32-bit words does not wrap. -/
theorem CLZ_guard (a b : Nat) (ha : a < 4294967296) (hb : b < 4294967296)
    (h : ¬ (__CLZ a + __CLZ b < 32)) : a * b < 4294967296 := by
  unfold __CLZ at h
  rw [Nat.mod_eq_of_lt ha, Nat.mod_eq_of_lt hb] at h
  have la := lt_two_pow_bitlen a 32 ha
  have lb := lt_two_pow_bitlen b 32 hb
  have ca : ((List.range 32).filter (fun i => 2 ^ i ≤ a)).length ≤ 32 := by
    have := List.length_filter_le (fun i => decide (2 ^ i ≤ a)) (List.range 32)
    simpa using this
  have cb : ((List.range 32).filter (fun i => 2 ^ i ≤ b)).length ≤ 32 := by
    have := List.length_filter_le (fun i => decide (2 ^ i ≤ b)) (List.range 32)
    simpa using this
  generalize ((List.range 32).filter (fun i => 2 ^ i ≤ a)).length = La at h la ca
  generalize ((List.range 32).filter (fun i => 2 ^ i ≤ b)).length = Lb at h lb cb
  have hsum : La + Lb ≤ 32 := by omega
  calc a * b < 2 ^ La * 2 ^ Lb := Nat.mul_lt_mul'' la lb
    _ = 2 ^ (La + Lb) := (Nat.pow_add 2 La Lb).symm
    _ ≤ 2 ^ 32 := Nat.pow_le_pow_right (by decide) hsum

theorem MessageQueueNew.block_size_lt (hs msg_size : Nat) :
    MessageQueueNew.block_size hs msg_size < 4294967296 := by
  unfold MessageQueueNew.block_size
  exact Nat.mod_lt _ (by decide)

/-- Rejections of `MessageQueueNew`: it returns `NULL` and leaves the kernel
state (hence the control block) unchanged whenever `msg_count` is 0, `msg_size`
is 0, `attr` is `NULL`, the control-block memory is `NULL`, not 4-byte aligned
or smaller than the control block, the message memory is `NULL` or not 4-byte
aligned, or its size is below `msg_count` times `MessageQueueNew.block_size`,
the slot size as the code computes it in 32-bit arithmetic. That slot size
can be smaller than `msg_size` rounded up plus the header, see
`MessageQueueNew.block_size_wrapped`. -/
theorem MessageQueueNew_rejects (hs hcb : Nat) (k : Kernel) (msg_count msg_size : Nat)
    (attr : Option osMessageQueueAttr_t) (hcount : msg_count < 4294967296)
    (h : msg_count = 0 ∨ msg_size = 0 ∨ attr = none ∨
      ∃ a, attr = some a ∧
        (a.cb_mem = NULL ∨ a.cb_mem % 4 ≠ 0 ∨ a.cb_size < hcb ∨
          a.mq_mem = NULL ∨ a.mq_mem % 4 ≠ 0 ∨
          a.mq_size < msg_count * MessageQueueNew.block_size hs msg_size)) :
    MessageQueueNew hs hcb k msg_count msg_size attr = (NULL, k) := by
  unfold MessageQueueNew
  cases attr with
  | none => rfl
  | some a =>
    simp only
    by_cases h0 : msg_count = 0 ∨ msg_size = 0
    · rw [if_pos h0]
    · rw [if_neg h0]
      have ha : a.cb_mem = NULL ∨ a.cb_mem % 4 ≠ 0 ∨ a.cb_size < hcb ∨
          a.mq_mem = NULL ∨ a.mq_mem % 4 ≠ 0 ∨
          a.mq_size < msg_count * MessageQueueNew.block_size hs msg_size := by
        rcases h with h | h | h | ⟨b, hb, h⟩
        · exact absurd (Or.inl h) h0
        · exact absurd (Or.inr h) h0
        · exact absurd h (by simp)
        · cases hb
          exact h
      by_cases hclz : __CLZ msg_count + __CLZ (MessageQueueNew.block_size hs msg_size) < 32
      · rw [if_pos (Or.inl hclz)]
      · have hprod := CLZ_guard msg_count _ hcount (MessageQueueNew.block_size_lt hs msg_size) hclz
        rw [if_pos]
        rw [Nat.mod_eq_of_lt hprod, and_three, and_three]
        exact Or.inr ha

/-- Rejections of `MessageQueueNew` for the scenario attributes with a
misaligned control block, with slot memory one byte short, and for
`msg_count = 0`. -/
theorem MessageQueueNew_rejects_witness :
    MessageQueueNew 12 64 Kernel.blank 4 4 (some { Scenario.attr with cb_mem := 0x20000002 })
      = (NULL, Kernel.blank) ∧
    MessageQueueNew 12 64 Kernel.blank 4 4 (some { Scenario.attr with mq_size := 63 })
      = (NULL, Kernel.blank) ∧
    MessageQueueNew 12 64 Kernel.blank 0 4 (some Scenario.attr) = (NULL, Kernel.blank) :=
  ⟨MessageQueueNew_rejects 12 64 Kernel.blank 4 4 (some { Scenario.attr with cb_mem := 0x20000002 })
      (by decide) (Or.inr (Or.inr (Or.inr ⟨_, rfl, Or.inr (Or.inl (by decide))⟩))),
    MessageQueueNew_rejects 12 64 Kernel.blank 4 4 (some { Scenario.attr with mq_size := 63 })
      (by decide)
      (Or.inr (Or.inr (Or.inr ⟨_, rfl, Or.inr (Or.inr (Or.inr (Or.inr (Or.inr (by decide)))))⟩))),
    MessageQueueNew_rejects 12 64 Kernel.blank 0 4 (some Scenario.attr) (by decide)
      (Or.inl rfl)⟩

/-- The slot size computed for `msg_size = 0xFFFFFFFF` and a 12-byte header is
12, while `msg_size` rounded up to a multiple of 4 plus the header is
4294967308. -/
theorem MessageQueueNew.block_size_wrapped :
    MessageQueueNew.block_size 12 0xFFFFFFFF = 12 ∧
    (0xFFFFFFFF + 3) / 4 * 4 + 12 = 4294967308 := by
  decide

/-- C13, the failing input: `MessageQueueNew (1, 0xFFFFFFFF, &attr)` with a
12-byte message header and 12 bytes of message memory. The message memory is
smaller than `msg_count` times the slot size `msg_size` rounded up to a
multiple of 4 plus the header (12 < 1 * 4294967308), so the call should return
`NULL` and write nothing; the code returns the control-block address
`0x20000000` and stamps the control block, which was blank before, with
`ID_MESSAGE_QUEUE`, a capacity of 1 and a slot size of 12. -/
theorem MessageQueueNew_accepts_short_memory :
    Scenario.attrSmall.mq_size < 1 * ((0xFFFFFFFF + 3) / 4 * 4 + 12) ∧
    (MessageQueueNew 12 64 Kernel.blank 1 0xFFFFFFFF (some Scenario.attrSmall)).1
      = 0x20000000 ∧
    (MessageQueueNew 12 64 Kernel.blank 1 0xFFFFFFFF (some Scenario.attrSmall)).1 ≠ NULL ∧
    (Kernel.blank.objs 0x20000000).id ≠ ID_MESSAGE_QUEUE ∧
    ((MessageQueueNew 12 64 Kernel.blank 1 0xFFFFFFFF (some Scenario.attrSmall)).2.objs
      0x20000000).id = ID_MESSAGE_QUEUE ∧
    ((MessageQueueNew 12 64 Kernel.blank 1 0xFFFFFFFF (some Scenario.attrSmall)).2.objs
      0x20000000).mp_info.max_blocks = 1 ∧
    ((MessageQueueNew 12 64 Kernel.blank 1 0xFFFFFFFF (some Scenario.attrSmall)).2.objs
      0x20000000).mp_info.block_size = 12 := by
  decide

/-! ## The control block after `MessageQueueNew` -/

/-- C14: a successful `MessageQueueNew (msg_count, msg_size, attr)` returns the
control-block address given in the attributes; the control block there is
stamped `ID_MESSAGE_QUEUE`, has flags 0, no linked message and two empty wait
queues, and the inspectors report count 0, capacity `msg_count`, message size
`msg_size`, space `msg_count` and the name of the attributes. -/
theorem MessageQueueNew_initialises (hs hcb : Nat) (k : Kernel) (msg_count msg_size : Nat)
    (attr : Option osMessageQueueAttr_t) (mq : Nat) (k0 : Kernel)
    (hnew : MessageQueueNew hs hcb k msg_count msg_size attr = (mq, k0)) (hne : mq ≠ NULL)
    (hcount : msg_count < 4294967296) :
    ∃ a, attr = some a ∧ mq = a.cb_mem ∧
      (k0.objs mq).id = ID_MESSAGE_QUEUE ∧ (k0.objs mq).flags = 0 ∧
      (k0.objs mq).msg_queue = [] ∧
      (k0.objs mq).wait_put_queue = [] ∧ (k0.objs mq).wait_get_queue = [] ∧
      MessageQueueGetCount k0 mq = 0 ∧
      MessageQueueGetCapacity k0 mq = msg_count ∧
      MessageQueueGetMsgSize k0 mq = msg_size ∧
      MessageQueueGetSpace k0 mq = msg_count ∧
      MessageQueueGetName k0 mq = a.name := by
  obtain ⟨a, ha, hmq, _, _, hk0⟩ :=
    MessageQueueNew_success hs hcb k msg_count msg_size attr mq k0 hnew hne
  subst hk0
  have hnn : ¬ mq = NULL := hne
  refine ⟨a, ha, hmq, ?_, ?_, ?_, ?_, ?_, ?_, ?_, ?_, ?_, ?_⟩
  · simp
  · simp
  · simp
  · simp
  · simp
  · simp [MessageQueueGetCount, hnn]
  · simp [MessageQueueGetCapacity, hnn, libMemoryPoolInit]
  · simp [MessageQueueGetMsgSize, hnn]
  · simp only [MessageQueueGetSpace, Function.update_same, libMemoryPoolInit]
    rw [if_neg (by simp [hnn])]
    simp only [Nat.zero_mod, Nat.sub_zero, Nat.add_mod_right]
    exact Nat.mod_eq_of_lt hcount
  · simp [MessageQueueGetName, hnn]

/-- C14, at the creation of the scenario queue. -/
theorem MessageQueueNew_initialises_witness :
    Scenario.created.1 ≠ NULL ∧
    ∃ a, some Scenario.attr = some a ∧ Scenario.created.1 = a.cb_mem ∧
      (Scenario.created.2.objs Scenario.created.1).id = ID_MESSAGE_QUEUE ∧
      (Scenario.created.2.objs Scenario.created.1).flags = 0 ∧
      (Scenario.created.2.objs Scenario.created.1).msg_queue = [] ∧
      (Scenario.created.2.objs Scenario.created.1).wait_put_queue = [] ∧
      (Scenario.created.2.objs Scenario.created.1).wait_get_queue = [] ∧
      MessageQueueGetCount Scenario.created.2 Scenario.created.1 = 0 ∧
      MessageQueueGetCapacity Scenario.created.2 Scenario.created.1 = 4 ∧
      MessageQueueGetMsgSize Scenario.created.2 Scenario.created.1 = 4 ∧
      MessageQueueGetSpace Scenario.created.2 Scenario.created.1 = 4 ∧
      MessageQueueGetName Scenario.created.2 Scenario.created.1 = a.name :=
  ⟨by decide,
    MessageQueueNew_initialises 12 64 Kernel.blank 4 4 (some Scenario.attr)
      Scenario.created.1 Scenario.created.2 rfl (by decide) (by decide)⟩

/-- C15, the failing input: `MessageQueueNew (1, 0xFFFFFFFF, &attr)` with a
12-byte message header and 12 bytes of slot memory succeeds and hands the pool
a slot size of 12, because `msg_size + 3U` wraps to 2 and rounds down to 0;
as natural numbers `msg_size` rounded up to a multiple of 4 plus the header is
4294967308. -/
theorem MessageQueueNew_slot_size_wraps :
    (MessageQueueNew 12 64 Kernel.blank 1 0xFFFFFFFF (some Scenario.attrSmall)).1
      = 0x20000000 ∧
    (((MessageQueueNew 12 64 Kernel.blank 1 0xFFFFFFFF (some Scenario.attrSmall)).2.objs
      0x20000000).mp_info.block_size) = 12 ∧
    (0xFFFFFFFF + 3) / 4 * 4 + 12 = 4294967308 ∧
    MessageQueueNew.block_size 12 0xFFFFFFFF ≠ (0xFFFFFFFF + 3) / 4 * 4 + 12 := by
  decide

/-! ## Validity is kept by every call -/

/-- Validity only reads the ID tag, the count, the linked messages and the
pool of the control block. -/
theorem Valid.congr (k k1 : Kernel) (mq : Nat) (hv : Valid k mq)
    (hid : (k1.objs mq).id = (k.objs mq).id)
    (hcnt : (k1.objs mq).msg_count = (k.objs mq).msg_count)
    (hq : (k1.objs mq).msg_queue = (k.objs mq).msg_queue)
    (hp : (k1.objs mq).mp_info = (k.objs mq).mp_info) : Valid k1 mq := by
  unfold Valid at hv ⊢
  rw [hid, hcnt, hq, hp]
  exact hv

theorem libThreadWaitExit_valid (k : Kernel) (t r mq : Nat) (d : dispatch_t)
    (hv : Valid k mq) : Valid (libThreadWaitExit k t r d) mq := by
  apply Valid.congr k _ mq hv <;> cases d <;> simp [libThreadWaitExit, libThreadDispatch]

theorem libThreadWaitEnter_valid (k : Kernel) (t mq timeout : Nat) (wq : WaitQueue)
    (hv : Valid k mq) : Valid (libThreadWaitEnter k t mq wq timeout).2 mq := by
  unfold libThreadWaitEnter
  split
  · apply Valid.congr k _ mq hv <;> cases wq <;> simp [libThreadDispatch]
  · exact hv

theorem MessagePut_valid (k : Kernel) (mq msg_ptr P : Nat) (hv : Valid k mq) :
    Valid (MessagePut k mq msg_ptr P).2 mq := by
  cases hfree : (k.objs mq).mp_info.block_free with
  | nil =>
    rw [MessagePut_full k mq msg_ptr P hfree]
    exact hv
  | cons b free =>
    rw [MessagePut_alloc k mq msg_ptr P b free hfree]
    obtain ⟨hmq, hid, hcnt, hpool, hmax⟩ := hv
    rw [hfree] at hpool
    simp only [List.length_cons] at hpool
    have hque := MessagePut.que_le P (k.objs mq).msg_queue
    refine ⟨hmq, ?_, ?_, ?_, ?_⟩
    · simpa using hid
    · simp only [Function.update_same]
      rw [QueueAppend_length _ _ _ hque, hcnt, Nat.mod_eq_of_lt]
      omega
    · simp only [Function.update_same]
      rw [QueueAppend_length _ _ _ hque]
      omega
    · simpa using hmax

theorem MessageGet_valid (k : Kernel) (mq dst pprio : Nat) (hv : Valid k mq) :
    Valid (MessageGet k mq dst pprio).2 mq := by
  cases hq : (k.objs mq).msg_queue with
  | nil =>
    rw [MessageGet_nil k mq dst pprio hq]
    exact hv
  | cons m rest =>
    rw [MessageGet_cons k mq dst pprio m rest hq]
    obtain ⟨hmq, hid, hcnt, hpool, hmax⟩ := hv
    rw [hq] at hcnt hpool
    simp only [List.length_cons] at hcnt hpool
    refine ⟨hmq, ?_, ?_, ?_, ?_⟩
    · simpa using hid
    · simp only [Function.update_same]
      rw [hcnt]
      omega
    · simp only [Function.update_same, libMemoryPoolFree, List.length_cons]
      omega
    · simpa [libMemoryPoolFree] using hmax

theorem MessageQueuePut_valid (k : Kernel) (mq msg_ptr P timeout : Nat) (hv : Valid k mq) :
    Valid (MessageQueuePut k mq msg_ptr P timeout).2 mq := by
  unfold MessageQueuePut
  split
  · exact hv
  · split
    · rename_i thread rest hget
      have h1 := libThreadWaitExit_valid k thread (toU32 osOK) mq dispatch_t.DISPATCH_YES hv
      simp only
      split
      · exact Valid.congr _ _ mq h1 rfl rfl rfl rfl
      · exact Valid.congr _ _ mq h1 rfl rfl rfl rfl
    · have h1 := MessagePut_valid k mq msg_ptr P hv
      split
      · rename_i o k1 heq
        rw [heq] at h1
        exact h1
      · rename_i o k1 heq
        rw [heq] at h1
        simp only at h1
        split
        · have h2 := libThreadWaitEnter_valid k1 (ThreadGetRunning k1) mq timeout
            WaitQueue.wait_put_queue h1
          dsimp only
          split
          · rename_i b k2 heq2
            rw [heq2] at h2
            exact Valid.congr _ _ mq h2 rfl rfl rfl rfl
          · rename_i b k2 heq2
            rw [heq2] at h2
            exact h2
        · exact h1

theorem MessageQueueGet_valid (k : Kernel) (mq dst pprio timeout : Nat) (hv : Valid k mq) :
    Valid (MessageQueueGet k mq dst pprio timeout).2 mq := by
  unfold MessageQueueGet
  split
  · exact hv
  · have h1 := MessageGet_valid k mq dst pprio hv
    split
    · rename_i o k1 heq
      rw [heq] at h1
      simp only at h1
      split
      · rename_i thread rest hput
        have h2 := MessagePut_valid k1 mq (k1.threads thread).winfo.msgque.msg
          ((k1.threads thread).winfo.msgque.msg_prio % 256) h1
        simp only
        split
        · rename_i o2 k2 heq2
          rw [heq2] at h2
          exact libThreadWaitExit_valid k2 thread (toU32 osOK) mq dispatch_t.DISPATCH_YES h2
        · rename_i o2 k2 heq2
          rw [heq2] at h2
          exact h2
      · exact h1
    · rename_i o k1 heq
      rw [heq] at h1
      simp only at h1
      split
      · have h2 := libThreadWaitEnter_valid k1 (ThreadGetRunning k1) mq timeout
          WaitQueue.wait_get_queue h1
        dsimp only
        split
        · rename_i b k2 heq2
          rw [heq2] at h2
          exact Valid.congr _ _ mq h2 rfl rfl rfl rfl
        · rename_i b k2 heq2
          rw [heq2] at h2
          exact h2
      · exact h1

theorem MessageQueueReset.loop_valid (mq : Nat) :
    ∀ (fuel : Nat) (k : Kernel), Valid k mq → Valid (MessageQueueReset.loop mq fuel k) mq := by
  intro fuel
  induction fuel with
  | zero => intro k hv; exact hv
  | succ n ih =>
    intro k hv
    unfold MessageQueueReset.loop
    split
    · exact hv
    · rename_i thread rest hput
      have h1 := MessagePut_valid k mq (k.threads thread).winfo.msgque.msg
        ((k.threads thread).winfo.msgque.msg_prio % 256) hv
      simp only
      split
      · rename_i k1 heq
        rw [heq] at h1
        exact h1
      · rename_i o k1 heq
        rw [heq] at h1
        have h2 := libThreadWaitExit_valid k1 thread (toU32 osOK) mq dispatch_t.DISPATCH_NO h1
        split
        · exact ih _ h2
        · exact h2

theorem MessageQueueReset_valid (k : Kernel) (mq : Nat) (hv : Valid k mq) :
    Valid (MessageQueueReset k mq).2 mq := by
  unfold MessageQueueReset
  split
  · exact hv
  · obtain ⟨hmq, hid, _, _, hmax⟩ := hv
    have h1 : Valid
        { k with
          objs := Function.update k.objs mq
            { k.objs mq with
              msg_count := 0
              msg_queue := QueueReset (k.objs mq).msg_queue
              mp_info := libMemoryPoolReset (k.objs mq).mp_info } } mq := by
      refine ⟨hmq, ?_, ?_, ?_, ?_⟩ <;>
        simp [QueueReset, libMemoryPoolReset, poolChain, hid, hmax]
    simp only
    split
    · exact Valid.congr _ _ mq (MessageQueueReset.loop_valid mq _ _ h1) rfl rfl rfl rfl
    · exact h1

/-- Every reachable state of a queue is valid. -/
theorem Reachable.valid (mq : Nat) (k : Kernel) (h : Reachable mq k) : Valid k mq := by
  induction h with
  | new hs hcb k msg_count msg_size attr k0 hnew hne hcount =>
    exact (MessageQueueNew_filled hs hcb k msg_count msg_size attr mq k0 hnew hne hcount).1
  | put k msg_ptr msg_prio timeout _ ih => exact MessageQueuePut_valid k mq _ _ _ ih
  | get k msg_ptr msg_prio timeout _ ih => exact MessageQueueGet_valid k mq _ _ _ ih
  | reset k _ ih => exact MessageQueueReset_valid k mq ih
  | between k k1 _ hb ih =>
    obtain ⟨h1, _, _⟩ := hb
    apply Valid.congr k k1 mq ih <;> rw [h1]

/-! ## Reachable states and the capacity -/

theorem Between.of_objs_eq (mq : Nat) (k k1 : Kernel) (h : k1.objs = k.objs) :
    Between mq k k1 := by
  unfold Between
  rw [h]
  exact ⟨rfl, List.Sublist.refl _, List.Sublist.refl _⟩

theorem Reachable.after_puts (mq src : Nat) (msgs : List (List Nat × Nat)) :
    ∀ k : Kernel, Reachable mq k → Reachable mq (MbOS.putAll mq src msgs k).2 := by
  induction msgs with
  | nil => intro k h; exact h
  | cons x rest ih =>
    intro k h
    obtain ⟨payload, prio⟩ := x
    simp only [MbOS.putAll]
    apply ih
    apply Reachable.put
    exact Reachable.between k _ h (Between.of_objs_eq mq k _ rfl)

/-- The full scenario queue with a blocked producer is reached by
`MessageQueueNew`, four puts and a fifth put with an infinite timeout. -/
theorem Scenario.producer_reachable : Reachable 0x20000000 Scenario.producer := by
  have h0 : Reachable 0x20000000 Scenario.created.2 :=
    Reachable.new 12 64 Kernel.blank 4 4 (some Scenario.attr) Scenario.created.2
      (Prod.ext (by decide) rfl) (by decide) (by decide)
  have h1 : Reachable 0x20000000 Scenario.full :=
    Reachable.after_puts 0x20000000 0x20003000 Scenario.puts _ h0
  exact Reachable.put _ _ _ _
    (Reachable.between Scenario.full _ h1 (Between.of_objs_eq _ _ _ rfl))

/-- C16, the claim fails: the full scenario queue with one blocked producer is
reachable, its count is 4 and one pending message is held by the producer,
which exceeds the capacity 4. -/
theorem MessageQueue_pending_exceeds_capacity :
    Reachable 0x20000000 Scenario.producer ∧
    (Scenario.producer.objs 0x20000000).msg_count = 4 ∧
    (Scenario.producer.objs 0x20000000).wait_put_queue.length = 1 ∧
    (Scenario.producer.objs 0x20000000).mp_info.max_blocks = 4 ∧
    ¬ ((Scenario.producer.objs 0x20000000).msg_count
        + (Scenario.producer.objs 0x20000000).wait_put_queue.length
      ≤ (Scenario.producer.objs 0x20000000).mp_info.max_blocks) :=
  ⟨Scenario.producer_reachable, by decide, by decide, by decide, by decide⟩

/-- C16 as amended: in every state reachable from a successful
`MessageQueueNew` by put, get and reset calls, `msg_count` alone is at most
the capacity of the queue. -/
theorem Reachable_count_le_capacity (mq : Nat) (k : Kernel) (h : Reachable mq k) :
    (k.objs mq).msg_count ≤ (k.objs mq).mp_info.max_blocks := by
  obtain ⟨_, _, hcnt, hpool, _⟩ := Reachable.valid mq k h
  omega

/-- C16 as amended, at the full scenario queue with a blocked producer. -/
theorem Reachable_count_le_capacity_witness :
    Reachable 0x20000000 Scenario.producer ∧
    (Scenario.producer.objs 0x20000000).msg_count
      ≤ (Scenario.producer.objs 0x20000000).mp_info.max_blocks :=
  ⟨Scenario.producer_reachable,
    Reachable_count_le_capacity 0x20000000 Scenario.producer Scenario.producer_reachable⟩

/-! ## Put from an interrupt handler -/

theorem libThreadWaitExit_postState (k : Kernel) (t r mq : Nat) (d : dispatch_t) :
    postState (libThreadWaitExit k t r d) mq = postState k mq := by
  cases d <;> simp [postState, libThreadWaitExit, libThreadDispatch]

theorem libThreadWaitEnter_postState (k : Kernel) (t mq timeout : Nat) (wq : WaitQueue) :
    postState (libThreadWaitEnter k t mq wq timeout).2 mq = postState k mq := by
  unfold libThreadWaitEnter
  split
  · cases wq <;> simp [postState, libThreadDispatch]
  · rfl

theorem MessagePut_postState (k : Kernel) (mq msg_ptr P : Nat) :
    postState (MessagePut k mq msg_ptr P).2 mq = postState k mq := by
  cases hfree : (k.objs mq).mp_info.block_free with
  | nil => rw [MessagePut_full k mq msg_ptr P hfree]
  | cons b free =>
    rw [MessagePut_alloc k mq msg_ptr P b free hfree]
    simp [postState]

/-- No path of `MessageQueuePut` touches the post queue, the flags byte of the
control block or the interrupt context. -/
theorem MessageQueuePut_postState (k : Kernel) (mq msg_ptr P timeout : Nat) :
    postState (MessageQueuePut k mq msg_ptr P timeout).2 mq = postState k mq := by
  unfold MessageQueuePut
  split
  · rfl
  · split
    · rename_i thread rest hget
      have h1 := libThreadWaitExit_postState k thread (toU32 osOK) mq dispatch_t.DISPATCH_YES
      dsimp only
      split
      · exact h1
      · exact h1
    · have h1 := MessagePut_postState k mq msg_ptr P
      split
      · rename_i o k1 heq
        rw [heq] at h1
        exact h1
      · rename_i o k1 heq
        rw [heq] at h1
        dsimp only at h1
        split
        · have h2 := libThreadWaitEnter_postState k1 (ThreadGetRunning k1) mq timeout
            WaitQueue.wait_put_queue
          dsimp only
          split
          · rename_i b k2 heq2
            rw [heq2] at h2
            exact h2.trans h1
          · rename_i b k2 heq2
            rw [heq2] at h2
            exact h2.trans h1
        · exact h1

/-- The head consumer after `MessageQueuePut` handed the message over to it:
unlinked, ready, with return value `osOK`. -/
theorem MessageQueuePut_consumer_woken (k : Kernel) (mq msg_ptr P timeout thread : Nat)
    (rest : List Nat) (hmq : mq ≠ NULL) (hid : (k.objs mq).id = ID_MESSAGE_QUEUE)
    (hptr : msg_ptr ≠ NULL) (hget : (k.objs mq).wait_get_queue = thread :: rest) :
    (MessageQueuePut k mq msg_ptr P timeout).1 = osOK ∧
    ((MessageQueuePut k mq msg_ptr P timeout).2.objs mq).wait_get_queue = rest ∧
    ((MessageQueuePut k mq msg_ptr P timeout).2.threads thread).state
      = ThreadState.ThreadReady ∧
    ofU32 ((MessageQueuePut k mq msg_ptr P timeout).2.threads thread).winfo.ret_val
      = osOK := by
  rw [MessageQueuePut_consumer k mq msg_ptr P timeout thread rest hmq hid hptr hget]
  by_cases hp : (k.threads thread).winfo.msgque.msg_prio = NULL
  · refine ⟨rfl, ?_, ?_, ?_⟩ <;>
      simp [libThreadWaitExit, libThreadDispatch, QueueRemoveEntry, hp, hget, toU32, ofU32, osOK]
  · refine ⟨rfl, ?_, ?_, ?_⟩ <;>
      simp [libThreadWaitExit, libThreadDispatch, QueueRemoveEntry, hp, hget, toU32, ofU32, osOK]

/-- C17, the claim fails: with the consumer `0x20001000` blocked on the
scenario queue, `osMessageQueuePut` with timeout 0 from an interrupt handler
returns `osOK` with the consumer unlinked from `wait_get_queue`, the post
queue still empty and `FLAGS_POST_PROC` clear in the flags of the object. -/
theorem osMessageQueuePut_isr_unlinks_consumer :
    IsIrqMode Scenario.consumerIsr = true ∧
    (Scenario.consumerIsr.objs 0x20000000).wait_get_queue = [0x20001000] ∧
    Scenario.consumerIsr.post_queue = [] ∧
    (osMessageQueuePut id Scenario.consumerIsr 0x20000000 0x20003000 3 0).1 = osOK ∧
    ((osMessageQueuePut id Scenario.consumerIsr 0x20000000 0x20003000 3 0).2.objs
      0x20000000).wait_get_queue = [] ∧
    (osMessageQueuePut id Scenario.consumerIsr 0x20000000 0x20003000 3 0).2.post_queue = [] ∧
    ((osMessageQueuePut id Scenario.consumerIsr 0x20000000 0x20003000 3 0).2.objs
      0x20000000).flags &&& FLAGS_POST_PROC = 0 := by
  decide

/-- C17 as amended: from ISR context (or with interrupts masked),
`osMessageQueuePut` with timeout 0 on a valid queue with a waiting consumer is
the handler `MessageQueuePut` itself: it returns `osOK`, unlinks the head
consumer from `wait_get_queue` and makes it ready with return value `osOK`;
the post queue and the flags byte of the object (hence `FLAGS_POST_PROC`) are
left as they were, by this call and by a second ISR put with any arguments. -/
theorem osMessageQueuePut_isr_serves_consumer (resume : Kernel → Kernel) (k : Kernel)
    (mq msg_ptr P thread : Nat) (rest : List Nat) (hv : Valid k mq)
    (hirq : IsIrqMode k = true ∨ IsIrqMasked k = true) (hptr : msg_ptr ≠ NULL)
    (hget : (k.objs mq).wait_get_queue = thread :: rest) :
    osMessageQueuePut resume k mq msg_ptr P 0 = MessageQueuePut k mq msg_ptr P 0 ∧
    (osMessageQueuePut resume k mq msg_ptr P 0).1 = osOK ∧
    ((osMessageQueuePut resume k mq msg_ptr P 0).2.objs mq).wait_get_queue = rest ∧
    ((osMessageQueuePut resume k mq msg_ptr P 0).2.threads thread).state
      = ThreadState.ThreadReady ∧
    ofU32 ((osMessageQueuePut resume k mq msg_ptr P 0).2.threads thread).winfo.ret_val = osOK ∧
    (osMessageQueuePut resume k mq msg_ptr P 0).2.post_queue = k.post_queue ∧
    ((osMessageQueuePut resume k mq msg_ptr P 0).2.objs mq).flags = (k.objs mq).flags ∧
    ∀ msg_ptr2 P2 : Nat,
      (osMessageQueuePut resume (osMessageQueuePut resume k mq msg_ptr P 0).2
        mq msg_ptr2 P2 0).2.post_queue = k.post_queue ∧
      ((osMessageQueuePut resume (osMessageQueuePut resume k mq msg_ptr P 0).2
        mq msg_ptr2 P2 0).2.objs mq).flags = (k.objs mq).flags := by
  have hisr : ∀ (s : Kernel) (p q : Nat), (IsIrqMode s || IsIrqMasked s) = true →
      osMessageQueuePut resume s mq p q 0 = MessageQueuePut s mq p q 0 := by
    intro s p q h
    unfold osMessageQueuePut
    rw [if_pos h, if_neg (by simp)]
  have hk : (IsIrqMode k || IsIrqMasked k) = true := by
    rcases hirq with h | h <;> simp [h]
  have hpost := MessageQueuePut_postState k mq msg_ptr P 0
  have hk1 : (IsIrqMode (MessageQueuePut k mq msg_ptr P 0).2
      || IsIrqMasked (MessageQueuePut k mq msg_ptr P 0).2) = true := by
    have e1 := congrArg (fun x => x.2.2.1) hpost
    have e2 := congrArg (fun x => x.2.2.2) hpost
    simp only [postState] at e1 e2
    simp only [IsIrqMode, IsIrqMasked] at hk ⊢
    rw [e1, e2]
    exact hk
  obtain ⟨hmq, hid, _, _, _⟩ := hv
  obtain ⟨c1, c7, c5, c6⟩ :=
    MessageQueuePut_consumer_woken k mq msg_ptr P 0 thread rest hmq hid hptr hget
  rw [hisr k msg_ptr P hk]
  refine ⟨rfl, c1, c7, c5, c6, congrArg (fun x => x.1) hpost,
    congrArg (fun x => x.2.1) hpost, ?_⟩
  intro msg_ptr2 P2
  rw [hisr _ msg_ptr2 P2 hk1]
  have hpost2 := MessageQueuePut_postState (MessageQueuePut k mq msg_ptr P 0).2 mq msg_ptr2 P2 0
  exact ⟨(congrArg (fun x => x.1) hpost2).trans (congrArg (fun x => x.1) hpost),
    (congrArg (fun x => x.2.1) hpost2).trans (congrArg (fun x => x.2.1) hpost)⟩

/-- C17 as amended, at the scenario queue with a blocked consumer, from an
interrupt handler. -/
theorem osMessageQueuePut_isr_serves_consumer_witness :
    Valid Scenario.consumerIsr 0x20000000 ∧
    (IsIrqMode Scenario.consumerIsr = true ∨ IsIrqMasked Scenario.consumerIsr = true) ∧
    (Scenario.consumerIsr.objs 0x20000000).wait_get_queue = [0x20001000] ∧
    (osMessageQueuePut id Scenario.consumerIsr 0x20000000 0x20003000 3 0).1 = osOK ∧
    ((osMessageQueuePut id Scenario.consumerIsr 0x20000000 0x20003000 3 0).2.objs
      0x20000000).wait_get_queue = [] ∧
    (osMessageQueuePut id Scenario.consumerIsr 0x20000000 0x20003000 3 0).2.post_queue
      = Scenario.consumerIsr.post_queue :=
  have h := osMessageQueuePut_isr_serves_consumer id Scenario.consumerIsr 0x20000000 0x20003000 3
    0x20001000 [] (by unfold Valid; decide) (Or.inl (by decide)) (by decide) (by decide)
  ⟨by unfold Valid; decide, Or.inl (by decide), by decide, h.2.1, h.2.2.1, h.2.2.2.2.2.1⟩

/-! ## The payload is copied at put time -/

/-- C18: a put that stores the message in a slot (valid queue, no waiter, a
free slot) returns `osOK`, and whatever the user memory `mem1` is made to hold
afterwards (the source buffer overwritten in any way), getting all the
messages yields the same payloads: those linked before, with, at the place of
the new message, the bytes the source buffer held when the put was called. -/
theorem MessageQueue_payload_copied_at_put (k : Kernel) (mq src P timeout : Nat)
    (hv : Valid k mq) (hsrc : src ≠ NULL)
    (hget : (k.objs mq).wait_get_queue = []) (hput : (k.objs mq).wait_put_queue = [])
    (hfree : (k.objs mq).mp_info.block_free ≠ [])
    (hdata : ∀ m ∈ (k.objs mq).msg_queue, m.data.length = (k.objs mq).msg_size)
    (dst pprio : Nat) (hdst : dst ≠ NULL)
    (hdisj : pprio < dst ∨ dst + (k.objs mq).msg_size ≤ pprio) :
    (MessageQueuePut k mq src P timeout).1 = osOK ∧
    ∃ pre post, (k.objs mq).msg_queue = pre ++ post ∧
      ∀ mem1 : Nat → Nat,
        (getAll mq dst pprio ((k.objs mq).msg_queue.length + 1)
          { (MessageQueuePut k mq src P timeout).2 with mem := mem1 }).1.map
            (fun r => (r.1, r.2.1))
          = pre.map (fun m => (osOK, m.data))
            ++ (osOK, readBytes k.mem src (k.objs mq).msg_size)
              :: post.map (fun m => (osOK, m.data)) := by
  obtain ⟨b, free, hb⟩ := List.exists_cons_of_ne_nil hfree
  have hv1 := MessageQueuePut_valid k mq src P timeout hv
  obtain ⟨hmq, hid, hcnt, hpool, hmax⟩ := hv
  have hque := MessagePut.que_le P (k.objs mq).msg_queue
  rw [MessageQueuePut_alloc k mq src P timeout b free hmq hid hsrc hget hb] at hv1 ⊢
  refine ⟨rfl, (k.objs mq).msg_queue.take (MessagePut.que P (k.objs mq).msg_queue),
    (k.objs mq).msg_queue.drop (MessagePut.que P (k.objs mq).msg_queue),
    (List.take_append_drop _ _).symm, ?_⟩
  intro mem1
  have hlen : (k.objs mq).msg_queue.length + 1
      = (QueueAppend (k.objs mq).msg_queue (MessagePut.que P (k.objs mq).msg_queue)
          (MessagePut.msg k mq src P b)).length := (QueueAppend_length _ _ _ hque).symm
  rw [hlen]
  obtain ⟨g1, _, _, _⟩ := getAll_drain mq dst pprio (k.objs mq).msg_size hdst hdisj
    (QueueAppend (k.objs mq).msg_queue (MessagePut.que P (k.objs mq).msg_queue)
      (MessagePut.msg k mq src P b))
    { k with
      mem := mem1
      objs := Function.update k.objs mq
        { k.objs mq with
          mp_info := { (k.objs mq).mp_info with block_free := free }
          msg_queue := QueueAppend (k.objs mq).msg_queue
            (MessagePut.que P (k.objs mq).msg_queue) (MessagePut.msg k mq src P b)
          msg_count := ((k.objs mq).msg_count + 1) % 4294967296 } }
    (Valid.congr _ _ mq hv1 rfl rfl rfl rfl) (by simpa using hput) (by simp) (by simp)
    (by
      intro m hm
      rcases QueueAppend_mem _ _ _ _ hm with rfl | hm
      · simp [MessagePut.msg, readBytes_length]
      · exact hdata m hm)
  rw [g1]
  simp [QueueAppend, MessagePut.msg]

/-- C18, at the scenario queue holding priorities 5 and 2: a put of priority 3
from the buffer at `0x20003000` (then holding `0xBB`), after which the buffer
is overwritten with `0x99`; the three gets return `0xBB`, `0xBB`, `0xAA`, the
second being the new message. -/
theorem MessageQueue_payload_copied_at_put_witness :
    Valid Scenario.half 0x20000000 ∧
    readBytes Scenario.half.mem 0x20003000 4 = [0xBB, 0, 0, 0] ∧
    (getAll 0x20000000 0x20002000 NULL 3
      { (MessageQueuePut Scenario.half 0x20000000 0x20003000 3 0).2 with
        mem := writeBytes Scenario.half.mem 0x20003000 [0x99, 0, 0, 0] }).1.map
          (fun r => (r.1, r.2.1))
      = [(osOK, [0xBB, 0, 0, 0]), (osOK, [0xBB, 0, 0, 0]), (osOK, [0xAA, 0, 0, 0])] ∧
    (MessageQueuePut Scenario.half 0x20000000 0x20003000 3 0).1 = osOK :=
  ⟨by unfold Valid; decide, by decide, by decide,
    (MessageQueue_payload_copied_at_put Scenario.half 0x20000000 0x20003000 3 0
      (by unfold Valid; decide) (by decide) (by decide) (by decide) (by decide) (by decide)
      0x20002000 NULL (by decide) (by decide)).1⟩

/-! ## Blocking get, wrappers -/

/-- Result of `MessageQueueGet` with a timeout other than 0 on an empty queue:
what `libThreadWaitEnter` decides. -/
theorem MessageQueueGet_wait_eq (k : Kernel) (mq msg_ptr msg_prio timeout : Nat)
    (hmq : mq ≠ NULL) (hid : (k.objs mq).id = ID_MESSAGE_QUEUE) (hptr : msg_ptr ≠ NULL)
    (hempty : (k.objs mq).msg_queue = []) (ht : timeout ≠ 0) :
    MessageQueueGet k mq msg_ptr msg_prio timeout =
      match libThreadWaitEnter k (ThreadGetRunning k) mq WaitQueue.wait_get_queue timeout with
      | (true, k2) =>
        (osThreadWait,
          { k2 with
            threads := Function.update k2.threads (ThreadGetRunning k)
              { k2.threads (ThreadGetRunning k) with
                winfo :=
                  { (k2.threads (ThreadGetRunning k)).winfo with
                    msgque := { msg := msg_ptr, msg_prio := msg_prio } } } })
      | (false, k2) => (osErrorTimeout, k2) := by
  unfold MessageQueueGet
  rw [if_neg (by simp [hmq, hid, hptr]), MessageGet_nil k mq msg_ptr msg_prio hempty]
  simp [ht]

/-- Result of `MessageQueuePut` with a timeout other than 0 on a queue without
waiting consumer and without free slot: what `libThreadWaitEnter` decides. -/
theorem MessageQueuePut_wait_eq (k : Kernel) (mq msg_ptr P timeout : Nat)
    (hmq : mq ≠ NULL) (hid : (k.objs mq).id = ID_MESSAGE_QUEUE) (hptr : msg_ptr ≠ NULL)
    (hget : (k.objs mq).wait_get_queue = [])
    (hfree : (k.objs mq).mp_info.block_free = []) (ht : timeout ≠ 0) :
    MessageQueuePut k mq msg_ptr P timeout =
      match libThreadWaitEnter k (ThreadGetRunning k) mq WaitQueue.wait_put_queue timeout with
      | (true, k2) =>
        (osThreadWait,
          { k2 with
            threads := Function.update k2.threads (ThreadGetRunning k)
              { k2.threads (ThreadGetRunning k) with
                winfo :=
                  { (k2.threads (ThreadGetRunning k)).winfo with
                    msgque := { msg := msg_ptr, msg_prio := P } } } })
      | (false, k2) => (osErrorTimeout, k2) := by
  unfold MessageQueuePut
  rw [if_neg (by simp [hmq, hid, hptr])]
  simp [hget, MessagePut_full k mq msg_ptr P hfree, ht]

/-- C21: on a valid empty queue, `MessageQueueGet` with a timeout other than 0:
when the wait state is entered, the running thread is linked at the tail of
`wait_get_queue` and blocked, its wait-info records the destination buffer
pointer and the priority-output pointer, the result is the sentinel
`osThreadWait`, and the linked messages, the count and the pool are unchanged;
when the wait state cannot be entered the result is `osErrorTimeout` and
nothing changes. -/
theorem MessageQueueGet_blocks_when_empty (k : Kernel) (mq msg_ptr msg_prio timeout : Nat)
    (hv : Valid k mq) (hptr : msg_ptr ≠ NULL) (hempty : (k.objs mq).msg_queue = [])
    (ht : timeout ≠ 0) :
    (k.wait_allowed = true →
      (MessageQueueGet k mq msg_ptr msg_prio timeout).1 = osThreadWait ∧
      ((MessageQueueGet k mq msg_ptr msg_prio timeout).2.objs mq).wait_get_queue
        = (k.objs mq).wait_get_queue ++ [ThreadGetRunning k] ∧
      ((MessageQueueGet k mq msg_ptr msg_prio timeout).2.threads
        (ThreadGetRunning k)).winfo.msgque = { msg := msg_ptr, msg_prio := msg_prio } ∧
      ((MessageQueueGet k mq msg_ptr msg_prio timeout).2.threads (ThreadGetRunning k)).state
        = ThreadState.ThreadBlocked ∧
      ((MessageQueueGet k mq msg_ptr msg_prio timeout).2.objs mq).msg_queue
        = (k.objs mq).msg_queue ∧
      ((MessageQueueGet k mq msg_ptr msg_prio timeout).2.objs mq).msg_count
        = (k.objs mq).msg_count ∧
      ((MessageQueueGet k mq msg_ptr msg_prio timeout).2.objs mq).mp_info
        = (k.objs mq).mp_info) ∧
    (k.wait_allowed = false →
      MessageQueueGet k mq msg_ptr msg_prio timeout = (osErrorTimeout, k)) := by
  obtain ⟨hmq, hid, _, _, _⟩ := hv
  rw [MessageQueueGet_wait_eq k mq msg_ptr msg_prio timeout hmq hid hptr hempty ht]
  constructor
  · intro hw
    simp [libThreadWaitEnter, libThreadDispatch, hw, QueueAppend]
  · intro hw
    simp [libThreadWaitEnter, hw]

/-- C21, at the freshly created scenario queue: the running thread `0x20001000`
blocks with its buffer `0x20002000` and its priority byte `0x20002010`
recorded; with the wait state refused the call returns `osErrorTimeout`. -/
theorem MessageQueueGet_blocks_when_empty_witness :
    Valid Scenario.created.2 0x20000000 ∧
    (MessageQueueGet Scenario.created.2 0x20000000 0x20002000 0x20002010 100).1
      = osThreadWait ∧
    ((MessageQueueGet Scenario.created.2 0x20000000 0x20002000 0x20002010 100).2.objs
      0x20000000).wait_get_queue = [0x20001000] ∧
    ((MessageQueueGet Scenario.created.2 0x20000000 0x20002000 0x20002010 100).2.threads
      0x20001000).winfo.msgque = { msg := 0x20002000, msg_prio := 0x20002010 } ∧
    (MessageQueueGet { Scenario.created.2 with wait_allowed := false }
      0x20000000 0x20002000 0x20002010 100).1 = osErrorTimeout :=
  have h := MessageQueueGet_blocks_when_empty Scenario.created.2 0x20000000 0x20002000
    0x20002010 100 (by unfold Valid; decide) (by decide) (by decide) (by decide)
  ⟨by unfold Valid; decide, (h.1 (by decide)).1, (h.1 (by decide)).2.1.trans (by decide),
    (h.1 (by decide)).2.2.1,
    congrArg Prod.fst ((MessageQueueGet_blocks_when_empty
      { Scenario.created.2 with wait_allowed := false } 0x20000000 0x20002000 0x20002010 100
      (by unfold Valid; decide) (by decide) (by decide) (by decide)).2 rfl)⟩

/-- C23: in ISR context or with interrupts masked, `osMessageQueueReset` and
`osMessageQueueDelete` return `osErrorISR`, `osMessageQueueNew` and
`osMessageQueueGetName` return `NULL`, and the kernel state is returned as it
was, for every state and all arguments. -/
theorem osMessageQueue_isr_refused (hs hcb : Nat) (k : Kernel) (mq msg_count msg_size : Nat)
    (attr : Option osMessageQueueAttr_t)
    (hirq : IsIrqMode k = true ∨ IsIrqMasked k = true) :
    osMessageQueueReset k mq = (osErrorISR, k) ∧
    osMessageQueueDelete k mq = (osErrorISR, k) ∧
    osMessageQueueNew hs hcb k msg_count msg_size attr = (NULL, k) ∧
    osMessageQueueGetName k mq = NULL := by
  have h : (IsIrqMode k || IsIrqMasked k) = true := by
    rcases hirq with h | h <;> simp [h]
  refine ⟨?_, ?_, ?_, ?_⟩
  · unfold osMessageQueueReset
    rw [if_pos h]
  · unfold osMessageQueueDelete
    rw [if_pos h]
  · unfold osMessageQueueNew
    rw [if_pos h]
  · unfold osMessageQueueGetName
    rw [if_pos h]

/-- C23, at the full scenario queue seen from an interrupt handler. -/
theorem osMessageQueue_isr_refused_witness :
    (IsIrqMode Scenario.fullIsr = true ∨ IsIrqMasked Scenario.fullIsr = true) ∧
    (MessageQueueGetName { Scenario.fullIsr with irq_mode := false } 0x20000000
      = Scenario.attr.name) ∧
    osMessageQueueReset Scenario.fullIsr 0x20000000 = (osErrorISR, Scenario.fullIsr) ∧
    osMessageQueueDelete Scenario.fullIsr 0x20000000 = (osErrorISR, Scenario.fullIsr) ∧
    osMessageQueueNew 12 64 Scenario.fullIsr 4 4 (some Scenario.attr)
      = (NULL, Scenario.fullIsr) ∧
    osMessageQueueGetName Scenario.fullIsr 0x20000000 = NULL :=
  ⟨Or.inl (by decide), by decide,
    osMessageQueue_isr_refused 12 64 Scenario.fullIsr 0x20000000 4 4 (some Scenario.attr)
      (Or.inl (by decide))⟩

/-! ## Count, space and capacity -/

/-- C27: in every state reachable from a successful `MessageQueueNew` by put,
get and reset calls, `msg_count` is the number of linked messages and at most
`max_blocks`; so the 32-bit difference of `MessageQueueGetSpace` is the
natural difference `max_blocks - msg_count`, and count plus space is the
capacity. -/
theorem Reachable_count_space_capacity (mq : Nat) (k : Kernel) (h : Reachable mq k) :
    (k.objs mq).msg_count = (k.objs mq).msg_queue.length ∧
    (k.objs mq).msg_count ≤ (k.objs mq).mp_info.max_blocks ∧
    MessageQueueGetSpace k mq + (k.objs mq).msg_count = (k.objs mq).mp_info.max_blocks ∧
    MessageQueueGetCount k mq + MessageQueueGetSpace k mq = MessageQueueGetCapacity k mq := by
  obtain ⟨hmq, hid, hcnt, hpool, hmax⟩ := Reachable.valid mq k h
  have hgood : ¬ (mq = NULL ∨ (k.objs mq).id ≠ ID_MESSAGE_QUEUE) := by simp [hmq, hid]
  have hle : (k.objs mq).msg_count ≤ (k.objs mq).mp_info.max_blocks := by omega
  have hspace : MessageQueueGetSpace k mq + (k.objs mq).msg_count
      = (k.objs mq).mp_info.max_blocks := by
    unfold MessageQueueGetSpace
    rw [if_neg hgood]
    omega
  refine ⟨hcnt, hle, hspace, ?_⟩
  unfold MessageQueueGetCount MessageQueueGetCapacity
  rw [if_neg hgood, if_neg hgood]
  omega

/-- C27, at the full scenario queue with a blocked producer. -/
theorem Reachable_count_space_capacity_witness :
    Reachable 0x20000000 Scenario.producer ∧
    MessageQueueGetCount Scenario.producer 0x20000000 = 4 ∧
    MessageQueueGetCount Scenario.producer 0x20000000
      + MessageQueueGetSpace Scenario.producer 0x20000000
      = MessageQueueGetCapacity Scenario.producer 0x20000000 :=
  ⟨Scenario.producer_reachable, by decide,
    (Reachable_count_space_capacity 0x20000000 Scenario.producer
      Scenario.producer_reachable).2.2.2⟩

/-! ## Sizes checked by `MessageQueueNew` -/

/-- A successful `MessageQueueNew` passed the leading-zero guard and the check
of the size of the message memory. -/
theorem MessageQueueNew_checks (hs hcb : Nat) (k : Kernel) (msg_count msg_size : Nat)
    (attr : Option osMessageQueueAttr_t) (mq : Nat) (k0 : Kernel)
    (h : MessageQueueNew hs hcb k msg_count msg_size attr = (mq, k0)) (hne : mq ≠ NULL) :
    ∃ a, attr = some a ∧
      ¬ (__CLZ msg_count + __CLZ (MessageQueueNew.block_size hs msg_size) < 32) ∧
      ¬ (a.mq_size < (msg_count * MessageQueueNew.block_size hs msg_size) % 4294967296) := by
  unfold MessageQueueNew at h
  cases attr with
  | none =>
    simp only [Prod.mk.injEq] at h
    exact absurd h.1.symm hne
  | some a =>
    simp only at h
    split at h
    · simp only [Prod.mk.injEq] at h
      exact absurd h.1.symm hne
    · split at h
      · simp only [Prod.mk.injEq] at h
        exact absurd h.1.symm hne
      · rename_i hchk
        simp only [not_or] at hchk
        exact ⟨a, rfl, hchk.1, hchk.2.2.2.2.2.2⟩

/-- C29: when `MessageQueueNew` succeeds (for a 32-bit `msg_count`), the
32-bit product `msg_count * block_size` is the natural product, and the size
`mq_size` of the message memory is at least that many bytes, which is the
number of slots of the pool times its slot size. -/
theorem MessageQueueNew_product_exact (hs hcb : Nat) (k : Kernel) (msg_count msg_size : Nat)
    (attr : Option osMessageQueueAttr_t) (mq : Nat) (k0 : Kernel)
    (hnew : MessageQueueNew hs hcb k msg_count msg_size attr = (mq, k0)) (hne : mq ≠ NULL)
    (hcount : msg_count < 4294967296) :
    ∃ a, attr = some a ∧
      (msg_count * MessageQueueNew.block_size hs msg_size) % 4294967296
        = msg_count * MessageQueueNew.block_size hs msg_size ∧
      msg_count * MessageQueueNew.block_size hs msg_size ≤ a.mq_size ∧
      (k0.objs mq).mp_info.max_blocks * (k0.objs mq).mp_info.block_size ≤ a.mq_size := by
  obtain ⟨a, ha, hclz, hsize⟩ := MessageQueueNew_checks hs hcb k msg_count msg_size attr mq k0
    hnew hne
  obtain ⟨b, hb, _, _, _, hk0⟩ := MessageQueueNew_success hs hcb k msg_count msg_size attr mq k0
    hnew hne
  have hprod := CLZ_guard msg_count _ hcount (MessageQueueNew.block_size_lt hs msg_size) hclz
  rw [Nat.mod_eq_of_lt hprod] at hsize
  refine ⟨a, ha, Nat.mod_eq_of_lt hprod, Nat.le_of_not_lt hsize, ?_⟩
  subst hk0
  simp only [Function.update_same, libMemoryPoolInit]
  exact Nat.le_of_not_lt hsize

/-- C29, at the creation of the scenario queue: 4 slots of 16 bytes in 64
bytes. -/
theorem MessageQueueNew_product_exact_witness :
    Scenario.created.1 ≠ NULL ∧
    MessageQueueNew.block_size 12 4 = 16 ∧
    ∃ a, some Scenario.attr = some a ∧
      (4 * MessageQueueNew.block_size 12 4) % 4294967296 = 4 * MessageQueueNew.block_size 12 4 ∧
      4 * MessageQueueNew.block_size 12 4 ≤ a.mq_size ∧
      (Scenario.created.2.objs Scenario.created.1).mp_info.max_blocks
        * (Scenario.created.2.objs Scenario.created.1).mp_info.block_size ≤ a.mq_size :=
  ⟨by decide, by decide,
    MessageQueueNew_product_exact 12 64 Kernel.blank 4 4 (some Scenario.attr)
      Scenario.created.1 Scenario.created.2 rfl (by decide) (by decide)⟩

/-- C30, the failing input: `MessageQueueNew (1, 0xFFFFFFFF, &attr)` with a
12-byte message header and 12 bytes of slot memory succeeds; the slot size of
the pool is 12, the message size of the queue is `0xFFFFFFFF`, so a slot has
no room behind the header for the `msg_size` bytes copied by `MessagePut` and
`MessageGet`. -/
theorem MessageQueueNew_slot_too_small :
    (MessageQueueNew 12 64 Kernel.blank 1 0xFFFFFFFF (some Scenario.attrSmall)).1 ≠ NULL ∧
    ((MessageQueueNew 12 64 Kernel.blank 1 0xFFFFFFFF (some Scenario.attrSmall)).2.objs
      0x20000000).id = ID_MESSAGE_QUEUE ∧
    ((MessageQueueNew 12 64 Kernel.blank 1 0xFFFFFFFF (some Scenario.attrSmall)).2.objs
      0x20000000).msg_size = 0xFFFFFFFF ∧
    ((MessageQueueNew 12 64 Kernel.blank 1 0xFFFFFFFF (some Scenario.attrSmall)).2.objs
      0x20000000).mp_info.block_size = 12 ∧
    ¬ (12 + ((MessageQueueNew 12 64 Kernel.blank 1 0xFFFFFFFF (some Scenario.attrSmall)).2.objs
        0x20000000).msg_size
      ≤ ((MessageQueueNew 12 64 Kernel.blank 1 0xFFFFFFFF (some Scenario.attrSmall)).2.objs
        0x20000000).mp_info.block_size) := by
  decide

/-! ## Waiters and fill level -/

/-- The control block after `MessageQueuePut` handed the message over to the
head consumer. -/
theorem MessageQueuePut_consumer_block (k : Kernel) (mq msg_ptr P timeout thread : Nat)
    (rest : List Nat) (hmq : mq ≠ NULL) (hid : (k.objs mq).id = ID_MESSAGE_QUEUE)
    (hptr : msg_ptr ≠ NULL) (hget : (k.objs mq).wait_get_queue = thread :: rest) :
    (MessageQueuePut k mq msg_ptr P timeout).2.objs mq =
      { k.objs mq with
        wait_put_queue := (k.objs mq).wait_put_queue.erase thread
        wait_get_queue := rest } := by
  rw [MessageQueuePut_consumer k mq msg_ptr P timeout thread rest hmq hid hptr hget]
  by_cases hp : (k.threads thread).winfo.msgque.msg_prio = NULL <;>
    simp [libThreadWaitExit, libThreadDispatch, QueueRemoveEntry, hp, hget]

/-- The control block after `MessageQueuePut` found neither a consumer nor a
free slot. -/
theorem MessageQueuePut_full_block (k : Kernel) (mq msg_ptr P timeout : Nat)
    (hmq : mq ≠ NULL) (hid : (k.objs mq).id = ID_MESSAGE_QUEUE) (hptr : msg_ptr ≠ NULL)
    (hget : (k.objs mq).wait_get_queue = [])
    (hfree : (k.objs mq).mp_info.block_free = []) :
    (MessageQueuePut k mq msg_ptr P timeout).2.objs mq = k.objs mq ∨
    (MessageQueuePut k mq msg_ptr P timeout).2.objs mq =
      { k.objs mq with
        wait_put_queue := (k.objs mq).wait_put_queue ++ [ThreadGetRunning k] } := by
  by_cases ht : timeout = 0
  · left
    subst ht
    unfold MessageQueuePut
    rw [if_neg (by simp [hmq, hid, hptr])]
    simp [hget, MessagePut_full k mq msg_ptr P hfree]
  · rw [MessageQueuePut_wait_eq k mq msg_ptr P timeout hmq hid hptr hget hfree ht]
    by_cases hw : k.wait_allowed = true
    · right
      simp [libThreadWaitEnter, libThreadDispatch, hw, QueueAppend]
    · left
      simp [libThreadWaitEnter, hw]

/-- The control block after `MessageQueueGet` on an empty queue. -/
theorem MessageQueueGet_empty_block (k : Kernel) (mq msg_ptr msg_prio timeout : Nat)
    (hmq : mq ≠ NULL) (hid : (k.objs mq).id = ID_MESSAGE_QUEUE) (hptr : msg_ptr ≠ NULL)
    (hempty : (k.objs mq).msg_queue = []) :
    (MessageQueueGet k mq msg_ptr msg_prio timeout).2.objs mq = k.objs mq ∨
    (MessageQueueGet k mq msg_ptr msg_prio timeout).2.objs mq =
      { k.objs mq with
        wait_get_queue := (k.objs mq).wait_get_queue ++ [ThreadGetRunning k] } := by
  by_cases ht : timeout = 0
  · left
    subst ht
    rw [MessageQueueGet_empty k mq msg_ptr msg_prio hmq hid hptr hempty]
  · rw [MessageQueueGet_wait_eq k mq msg_ptr msg_prio timeout hmq hid hptr hempty ht]
    by_cases hw : k.wait_allowed = true
    · right
      simp [libThreadWaitEnter, libThreadDispatch, hw, QueueAppend]
    · left
      simp [libThreadWaitEnter, hw]

/-- The control block after `MessageQueueGet` popped a message and deposited
the pending message of the head producer. -/
theorem MessageQueueGet_producer_block (k : Kernel) (mq dst pprio timeout thread : Nat)
    (m : osMessage_t) (rest : List osMessage_t) (others : List Nat) (hmq : mq ≠ NULL)
    (hid : (k.objs mq).id = ID_MESSAGE_QUEUE) (hdst : dst ≠ NULL)
    (hq : (k.objs mq).msg_queue = m :: rest)
    (hput : (k.objs mq).wait_put_queue = thread :: others) :
    ∃ q1 : List osMessage_t, q1 ≠ [] ∧
      (MessageQueueGet k mq dst pprio timeout).2.objs mq =
        { k.objs mq with
          msg_queue := q1
          msg_count := (((k.objs mq).msg_count + 4294967295) % 4294967296 + 1) % 4294967296
          wait_put_queue := others
          wait_get_queue := (k.objs mq).wait_get_queue.erase thread } := by
  rw [MessageQueueGet_producer k mq dst pprio timeout thread m rest others hmq hid hdst hq hput]
  refine ⟨QueueAppend rest
    (MessagePut.que ((k.threads thread).winfo.msgque.msg_prio % 256) rest)
    (MessagePut.msg (MessageGet k mq dst pprio).2 mq (k.threads thread).winfo.msgque.msg
      ((k.threads thread).winfo.msgque.msg_prio % 256) m.addr), ?_, ?_⟩
  · simp [QueueAppend]
  · simp [libThreadWaitExit, libThreadDispatch, QueueRemoveEntry, hput]

theorem Balanced.of_valid (k k1 : Kernel) (mq : Nat) (hb : Balanced k mq) (hv : Valid k1 mq)
    (hmax : (k1.objs mq).mp_info.max_blocks = (k.objs mq).mp_info.max_blocks)
    (hput : (k1.objs mq).wait_put_queue ≠ [] →
      (k1.objs mq).msg_count = (k.objs mq).mp_info.max_blocks)
    (hget : (k1.objs mq).wait_get_queue ≠ [] → (k1.objs mq).msg_queue = []) :
    Balanced k1 mq := by
  refine ⟨hv, ?_, ?_, hget⟩
  · rw [hmax]; exact hb.2.1
  · rw [hmax]; exact hput

theorem MessageQueuePut_balanced (k : Kernel) (mq msg_ptr P timeout : Nat)
    (hb : Balanced k mq) : Balanced (MessageQueuePut k mq msg_ptr P timeout).2 mq := by
  have hv1 := MessageQueuePut_valid k mq msg_ptr P timeout hb.1
  obtain ⟨⟨hmq, hid, hcnt, hpool, hlt⟩, hcap, ha, hg⟩ := id hb
  by_cases hptr : msg_ptr = NULL
  · have : MessageQueuePut k mq msg_ptr P timeout = (osErrorParameter, k) := by
      unfold MessageQueuePut
      rw [if_pos (Or.inr (Or.inr hptr))]
    rw [this]
    exact hb
  · cases hget : (k.objs mq).wait_get_queue with
    | cons thread rest =>
      have hblk := MessageQueuePut_consumer_block k mq msg_ptr P timeout thread rest hmq hid hptr
        hget
      have hempty : (k.objs mq).msg_queue = [] := hg (by simp [hget])
      apply Balanced.of_valid k _ mq hb hv1
      · rw [hblk]
      · intro hne
        rw [hblk] at hne ⊢
        exact ha (fun h => hne (by simp [h]))
      · intro _
        rw [hblk]
        exact hempty
    | nil =>
      cases hfree : (k.objs mq).mp_info.block_free with
      | cons b free =>
        have hroom : (k.objs mq).msg_count ≠ (k.objs mq).mp_info.max_blocks := by
          rw [hfree] at hpool
          simp only [List.length_cons] at hpool
          omega
        have hnoput : (k.objs mq).wait_put_queue = [] := by
          by_contra hne
          exact hroom (ha hne)
        rw [MessageQueuePut_alloc k mq msg_ptr P timeout b free hmq hid hptr hget hfree] at hv1 ⊢
        apply Balanced.of_valid k _ mq hb hv1
        · simp
        · intro hne
          simp [hnoput] at hne
        · intro hne
          simp [hget] at hne
      | nil =>
        have hfull : (k.objs mq).msg_count = (k.objs mq).mp_info.max_blocks := by
          rw [hfree] at hpool
          simp only [List.length_nil] at hpool
          omega
        rcases MessageQueuePut_full_block k mq msg_ptr P timeout hmq hid hptr hget hfree with
          hblk | hblk
        · apply Balanced.of_valid k _ mq hb hv1
          · rw [hblk]
          · intro _
            rw [hblk]
            exact hfull
          · intro hne
            rw [hblk] at hne
            exact absurd hget hne
        · apply Balanced.of_valid k _ mq hb hv1
          · rw [hblk]
          · intro _
            rw [hblk]
            exact hfull
          · intro hne
            rw [hblk] at hne
            exact absurd hget hne

theorem MessageQueueGet_balanced (k : Kernel) (mq dst pprio timeout : Nat)
    (hb : Balanced k mq) : Balanced (MessageQueueGet k mq dst pprio timeout).2 mq := by
  have hv1 := MessageQueueGet_valid k mq dst pprio timeout hb.1
  obtain ⟨⟨hmq, hid, hcnt, hpool, hlt⟩, hcap, ha, hg⟩ := id hb
  by_cases hptr : dst = NULL
  · have : MessageQueueGet k mq dst pprio timeout = (osErrorParameter, k) := by
      unfold MessageQueueGet
      rw [if_pos (Or.inr (Or.inr hptr))]
    rw [this]
    exact hb
  · cases hq : (k.objs mq).msg_queue with
    | nil =>
      rcases MessageQueueGet_empty_block k mq dst pprio timeout hmq hid hptr hq with hblk | hblk
      · apply Balanced.of_valid k _ mq hb hv1
        · rw [hblk]
        · intro hne
          rw [hblk] at hne ⊢
          exact ha hne
        · intro _
          rw [hblk]
          exact hq
      · apply Balanced.of_valid k _ mq hb hv1
        · rw [hblk]
        · intro hne
          rw [hblk] at hne ⊢
          exact ha hne
        · intro _
          rw [hblk]
          exact hq
    | cons m rest =>
      have hnoget : (k.objs mq).wait_get_queue = [] := by
        by_contra hne
        have := hg hne
        rw [hq] at this
        exact absurd this (by simp)
      cases hput : (k.objs mq).wait_put_queue with
      | nil =>
        rw [MessageQueueGet_cons k mq dst pprio timeout m rest hmq hid hptr hq hput] at hv1 ⊢
        apply Balanced.of_valid k _ mq hb hv1
        · simp [libMemoryPoolFree]
        · intro hne
          simp [hput] at hne
        · intro hne
          simp [hnoget] at hne
      | cons thread others =>
        obtain ⟨q1, hq1, hblk⟩ := MessageQueueGet_producer_block k mq dst pprio timeout thread m
          rest others hmq hid hptr hq hput
        have hfull : (k.objs mq).msg_count = (k.objs mq).mp_info.max_blocks :=
          ha (by simp [hput])
        apply Balanced.of_valid k _ mq hb hv1
        · rw [hblk]
        · intro _
          rw [hblk]
          simp only
          rw [hq] at hcnt
          simp only [List.length_cons] at hcnt
          omega
        · intro hne
          rw [hblk] at hne
          simp [hnoget] at hne

/-- The loop of `MessageQueueReset` with enough fuel, on a valid queue without
waiting consumer: it stops with no producer left or no slot free. -/
theorem MessageQueueReset.loop_stops (mq : Nat) :
    ∀ (fuel : Nat) (k : Kernel), (k.objs mq).wait_put_queue.length ≤ fuel →
      (k.objs mq).wait_get_queue = [] →
      ((MessageQueueReset.loop mq fuel k).objs mq).mp_info.max_blocks
        = (k.objs mq).mp_info.max_blocks ∧
      (((MessageQueueReset.loop mq fuel k).objs mq).wait_put_queue ≠ [] →
        ((MessageQueueReset.loop mq fuel k).objs mq).mp_info.block_free = []) ∧
      ((MessageQueueReset.loop mq fuel k).objs mq).wait_get_queue = [] := by
  intro fuel
  induction fuel with
  | zero =>
    intro k hlen hget
    have hnil : (k.objs mq).wait_put_queue = [] := List.eq_nil_of_length_eq_zero (by omega)
    simp [MessageQueueReset.loop, hnil, hget]
  | succ n ih =>
    intro k hlen hget
    cases hput : (k.objs mq).wait_put_queue with
    | nil => simp [MessageQueueReset.loop, hput, hget]
    | cons t ts =>
      cases hfree : (k.objs mq).mp_info.block_free with
      | nil =>
        have hloop : MessageQueueReset.loop mq (n + 1) k = k := by
          simp [MessageQueueReset.loop, hput, MessagePut_full k mq _ _ hfree]
        rw [hloop]
        simp [hfree, hget]
      | cons b free =>
        have hloop : MessageQueueReset.loop mq (n + 1) k
            = MessageQueueReset.loop mq n
              (libThreadWaitExit
                (MessagePut k mq (k.threads t).winfo.msgque.msg
                  ((k.threads t).winfo.msgque.msg_prio % 256)).2
                t (toU32 osOK) dispatch_t.DISPATCH_NO) := by
          simp only [MessageQueueReset.loop, hput]
          rw [MessagePut_alloc k mq _ _ b free hfree]
          simp only [libThreadWaitExit, Function.update_same, QueueRemoveEntry, hput,
            List.erase_cons_head]
          cases ts with
          | nil =>
            cases n <;> simp [isQueueEmpty, MessageQueueReset.loop]
          | cons x xs => simp [isQueueEmpty]
        rw [hloop]
        rw [hput] at hlen
        simp only [List.length_cons] at hlen
        have hstep := ih
          (libThreadWaitExit
            (MessagePut k mq (k.threads t).winfo.msgque.msg
              ((k.threads t).winfo.msgque.msg_prio % 256)).2
            t (toU32 osOK) dispatch_t.DISPATCH_NO)
          (by
            rw [MessagePut_alloc k mq _ _ b free hfree]
            simp [libThreadWaitExit, QueueRemoveEntry, hput]
            omega)
          (by
            rw [MessagePut_alloc k mq _ _ b free hfree]
            simp [libThreadWaitExit, QueueRemoveEntry, hget])
        refine ⟨?_, hstep.2.1, hstep.2.2⟩
        rw [hstep.1, MessagePut_alloc k mq _ _ b free hfree]
        simp [libThreadWaitExit]

theorem MessageQueueReset_balanced (k : Kernel) (mq : Nat) (hb : Balanced k mq) :
    Balanced (MessageQueueReset k mq).2 mq := by
  have hv1 := MessageQueueReset_valid k mq hb.1
  obtain ⟨⟨hmq, hid, hcnt, hpool, hlt⟩, hcap, ha, hg⟩ := id hb
  cases hput : (k.objs mq).wait_put_queue with
  | nil =>
    have hres : (MessageQueueReset k mq).2.objs mq =
        { k.objs mq with
          msg_count := 0
          msg_queue := []
          mp_info := libMemoryPoolReset (k.objs mq).mp_info } := by
      unfold MessageQueueReset
      rw [if_neg (by simp [hmq, hid])]
      simp [isQueueEmpty, hput, QueueReset]
    apply Balanced.of_valid k _ mq hb hv1
    · rw [hres]
      simp [libMemoryPoolReset]
    · intro hne
      rw [hres] at hne
      simp [hput] at hne
    · intro _
      rw [hres]
  | cons t ts =>
    have hfull : (k.objs mq).msg_count = (k.objs mq).mp_info.max_blocks :=
      ha (by simp [hput])
    have hnoget : (k.objs mq).wait_get_queue = [] := by
      by_contra hne
      have hq := hg hne
      rw [hq] at hcnt
      simp only [List.length_nil] at hcnt
      omega
    have hres : (MessageQueueReset k mq).2.objs =
        (MessageQueueReset.loop mq (k.objs mq).wait_put_queue.length
          { k with
            objs := Function.update k.objs mq
              { k.objs mq with
                msg_count := 0
                msg_queue := QueueReset (k.objs mq).msg_queue
                mp_info := libMemoryPoolReset (k.objs mq).mp_info } }).objs := by
      unfold MessageQueueReset
      rw [if_neg (by simp [hmq, hid])]
      simp [isQueueEmpty, hput, libThreadDispatch]
    obtain ⟨s1, s2, s3⟩ := MessageQueueReset.loop_stops mq (k.objs mq).wait_put_queue.length
      { k with
        objs := Function.update k.objs mq
          { k.objs mq with
            msg_count := 0
            msg_queue := QueueReset (k.objs mq).msg_queue
            mp_info := libMemoryPoolReset (k.objs mq).mp_info } }
      (by simp) (by simpa using hnoget)
    rw [← hres] at s1 s2 s3
    have hmax : ((MessageQueueReset k mq).2.objs mq).mp_info.max_blocks
        = (k.objs mq).mp_info.max_blocks := by
      rw [s1]
      simp [libMemoryPoolReset]
    apply Balanced.of_valid k _ mq hb hv1 hmax
    · intro hne
      have hfree := s2 hne
      obtain ⟨_, _, c1, c2, _⟩ := hv1
      rw [hfree] at c2
      simp only [List.length_nil] at c2
      omega
    · intro hne
      exact absurd s3 hne

theorem Between.keeps_balanced (mq : Nat) (k k1 : Kernel) (hb : Balanced k mq)
    (h : Between mq k k1) : Balanced k1 mq := by
  obtain ⟨h1, h2, h3⟩ := h
  have hv : Valid k1 mq := by
    apply Valid.congr k k1 mq hb.1 <;> rw [h1]
  have ha := hb.2.2.1
  have hg := hb.2.2.2
  apply Balanced.of_valid k k1 mq hb hv
  · rw [h1]
  · intro hne
    have : (k.objs mq).wait_put_queue ≠ [] := by
      intro hnil
      rw [hnil] at h2
      exact hne (List.sublist_nil.mp h2)
    rw [h1]
    exact ha this
  · intro hne
    have : (k.objs mq).wait_get_queue ≠ [] := by
      intro hnil
      rw [hnil] at h3
      exact hne (List.sublist_nil.mp h3)
    rw [h1]
    exact hg this

/-- Every reachable state of a queue is balanced. -/
theorem Reachable.balanced (mq : Nat) (k : Kernel) (h : Reachable mq k) : Balanced k mq := by
  induction h with
  | new hs hcb k msg_count msg_size attr k0 hnew hne hcount =>
    have hv := (MessageQueueNew_filled hs hcb k msg_count msg_size attr mq k0 hnew hne hcount).1
    obtain ⟨a, _, _, hc, _, hk0⟩ :=
      MessageQueueNew_success hs hcb k msg_count msg_size attr mq k0 hnew hne
    refine ⟨hv, ?_, ?_, ?_⟩
    · subst hk0
      simp only [Function.update_same, libMemoryPoolInit]
      omega
    · subst hk0
      simp
    · subst hk0
      simp
  | put k msg_ptr msg_prio timeout _ ih => exact MessageQueuePut_balanced k mq _ _ _ ih
  | get k msg_ptr msg_prio timeout _ ih => exact MessageQueueGet_balanced k mq _ _ _ ih
  | reset k _ ih => exact MessageQueueReset_balanced k mq ih
  | between k k1 _ hb ih => exact Between.keeps_balanced mq k k1 ih hb

/-- C28: in every state reachable from a successful `MessageQueueNew` by put,
get and reset calls (waiters may also leave the wait queues between calls),
`wait_put_queue` is non-empty only when the count equals the capacity,
`wait_get_queue` is non-empty only when no message is linked, and the two wait
queues are never non-empty together. -/
theorem Reachable_waiters_match_fill (mq : Nat) (k : Kernel) (h : Reachable mq k) :
    ((k.objs mq).wait_put_queue ≠ [] →
      (k.objs mq).msg_count = (k.objs mq).mp_info.max_blocks) ∧
    ((k.objs mq).wait_get_queue ≠ [] →
      (k.objs mq).msg_queue = [] ∧ (k.objs mq).msg_count = 0) ∧
    ¬ ((k.objs mq).wait_put_queue ≠ [] ∧ (k.objs mq).wait_get_queue ≠ []) := by
  obtain ⟨⟨_, _, hcnt, _, _⟩, hcap, ha, hg⟩ := Reachable.balanced mq k h
  refine ⟨ha, ?_, ?_⟩
  · intro hne
    have hq := hg hne
    refine ⟨hq, ?_⟩
    rw [hcnt, hq]
    rfl
  · rintro ⟨hp, hgne⟩
    have h1 := ha hp
    have h2 := hg hgne
    rw [h2] at hcnt
    simp only [List.length_nil] at hcnt
    omega

/-- C28, at the full scenario queue with a blocked producer. -/
theorem Reachable_waiters_match_fill_witness :
    Reachable 0x20000000 Scenario.producer ∧
    (Scenario.producer.objs 0x20000000).wait_put_queue = [0x20001000] ∧
    (Scenario.producer.objs 0x20000000).msg_count
      = (Scenario.producer.objs 0x20000000).mp_info.max_blocks ∧
    (Scenario.producer.objs 0x20000000).wait_get_queue = [] :=
  ⟨Scenario.producer_reachable, by decide,
    (Reachable_waiters_match_fill 0x20000000 Scenario.producer Scenario.producer_reachable).1
      (by decide),
    by decide⟩

/-! ## Linked nodes: what the operations store -/

theorem Link.QueueAppend_next (h : Nodes) (que e a : Nat) (hne : e ≠ que)
    (hT : (h que).prev ≠ e) :
    (Link.QueueAppend h que e a).next =
      if a = (h que).prev then e else if a = e then que else (h a).next := by
  generalize hP : (h que).prev = T at hT ⊢
  simp only [Link.QueueAppend, Function.update_same, Function.update_noteq hne.symm, hP,
    Function.update_apply]
  split_ifs <;> simp_all

theorem Link.QueueAppend_prev (h : Nodes) (que e a : Nat) (hne : e ≠ que)
    (hT : (h que).prev ≠ e) :
    (Link.QueueAppend h que e a).prev =
      if a = que then e else if a = e then (h que).prev else (h a).prev := by
  generalize hP : (h que).prev = T at hT ⊢
  simp only [Link.QueueAppend, Function.update_same, Function.update_noteq hne.symm, hP,
    Function.update_apply]
  split_ifs <;> simp_all

theorem Link.QueueExtract_fst (h : Nodes) (que : Nat) :
    (Link.QueueExtract h que).1 = (h que).next := rfl

theorem Link.QueueExtract_next (h : Nodes) (que a : Nat) :
    ((Link.QueueExtract h que).2 a).next =
      if a = (h que).next then (h que).next
      else if a = que then (h (h que).next).next else (h a).next := by
  generalize hE : (h que).next = E
  generalize hN : (h E).next = N
  simp only [Link.QueueExtract, Link.QueueReset, hE, hN, Function.update_apply]
  split_ifs <;> simp_all

theorem Link.QueueExtract_prev (h : Nodes) (que a : Nat) :
    ((Link.QueueExtract h que).2 a).prev =
      if a = (h que).next then (h que).next
      else if a = (h (h que).next).next then que else (h a).prev := by
  generalize hE : (h que).next = E
  generalize hN : (h E).next = N
  simp only [Link.QueueExtract, Link.QueueReset, hE, hN, Function.update_apply]
  split_ifs <;> simp_all

theorem Link.QueueRemoveEntry_next (h : Nodes) (e a : Nat) (hne : (h e).next ≠ e) :
    (Link.QueueRemoveEntry h e a).next =
      if a = e then e else if a = (h e).prev then (h e).next else (h a).next := by
  have hemp : Link.isQueueEmpty h e = false := by simp [Link.isQueueEmpty, hne]
  generalize hN : (h e).next = N at hne ⊢
  generalize hP : (h e).prev = P
  simp only [Link.QueueRemoveEntry, hemp, Link.QueueReset, hN, hP, Bool.not_false, if_true]
  by_cases h1 : a = e
  · subst h1
    simp
  · by_cases h2 : a = P <;> by_cases h3 : a = N <;> by_cases h4 : e = P <;>
      simp_all [Function.update_apply]

theorem Link.QueueRemoveEntry_prev (h : Nodes) (e a : Nat) (hne : (h e).next ≠ e) :
    (Link.QueueRemoveEntry h e a).prev =
      if a = e then e else if a = (h e).next then (h e).prev else (h a).prev := by
  have hemp : Link.isQueueEmpty h e = false := by simp [Link.isQueueEmpty, hne]
  generalize hN : (h e).next = N at hne ⊢
  generalize hP : (h e).prev = P
  simp only [Link.QueueRemoveEntry, hemp, Link.QueueReset, hN, hP, Bool.not_false, if_true]
  by_cases h1 : a = e
  · subst h1
    simp
  · by_cases h2 : a = P <;> by_cases h3 : a = N <;> by_cases h4 : e = P <;>
      simp_all [Function.update_apply]

/-! ## Linked nodes: well-formed queues -/

/-- A path only reads the `next` link of its start and of its nodes, and the
`prev` link of its nodes and of its end. -/
theorem Link.Path.frame (h h1 : Nodes) :
    ∀ (l : List Nat) (p q : Nat), (∀ a ∈ p :: l, (h1 a).next = (h a).next) →
      (∀ a ∈ l ++ [q], (h1 a).prev = (h a).prev) → Link.Path h p l q → Link.Path h1 p l q := by
  intro l
  induction l with
  | nil =>
    intro p q hn hp hpath
    simp only [Link.Path] at hpath ⊢
    rw [hn p (by simp), hp q (by simp)]
    exact hpath
  | cons x xs ih =>
    intro p q hn hp hpath
    simp only [Link.Path] at hpath ⊢
    refine ⟨?_, ?_, ?_⟩
    · rw [hn p (by simp)]; exact hpath.1
    · rw [hp x (by simp)]; exact hpath.2.1
    · exact ih x q (fun a ha => hn a (List.mem_cons_of_mem _ ha))
        (fun a ha => hp a (by simp only [List.cons_append, List.mem_cons]; exact Or.inr ha))
        hpath.2.2

/-- The `prev` link of the end of a path points into the path. -/
theorem Link.Path.end_prev (h : Nodes) :
    ∀ (l : List Nat) (p q : Nat), Link.Path h p l q → (h q).prev ∈ p :: l := by
  intro l
  induction l with
  | nil =>
    intro p q hpath
    simp only [Link.Path] at hpath
    simp [hpath.2]
  | cons x xs ih =>
    intro p q hpath
    simp only [Link.Path] at hpath
    exact List.mem_cons_of_mem _ (ih x q hpath.2.2)

/-- The links of a node inside a path point to its neighbours in the path. -/
theorem Link.Path.mid_links (h : Nodes) (e q : Nat) (ys : List Nat) :
    ∀ (xs : List Nat) (p : Nat), Link.Path h p (xs ++ e :: ys) q →
      (h e).prev ∈ p :: xs ∧ (h e).next ∈ ys ++ [q] := by
  intro xs
  induction xs with
  | nil =>
    intro p hpath
    simp only [List.nil_append, Link.Path] at hpath
    refine ⟨by simp [hpath.2.1], ?_⟩
    cases ys with
    | nil =>
      simp only [Link.Path] at hpath
      simp [hpath.2.2.1]
    | cons y ys =>
      simp only [Link.Path] at hpath
      simp [hpath.2.2.1]
  | cons x xs ih =>
    intro p hpath
    simp only [List.cons_append, Link.Path] at hpath
    obtain ⟨i1, i2⟩ := ih x hpath.2.2
    exact ⟨List.mem_cons_of_mem _ i1, i2⟩

/-- Linking a fresh node `e` in front of the end `q` of a path. -/
theorem Link.Path.append_node (h h1 : Nodes) (e q : Nat)
    (hnext : ∀ a, (h1 a).next = if a = (h q).prev then e else if a = e then q else (h a).next)
    (hprev : ∀ a, (h1 a).prev = if a = q then e else if a = e then (h q).prev else (h a).prev) :
    ∀ (l : List Nat) (p : Nat), Link.Path h p l q → e ∉ p :: l → e ≠ q → q ∉ l →
      (p :: l).Nodup → Link.Path h1 p (l ++ [e]) q := by
  intro l
  induction l with
  | nil =>
    intro p hpath he heq _ _
    simp only [Link.Path] at hpath
    simp only [List.mem_cons, List.not_mem_nil, or_false] at he
    simp only [List.nil_append, Link.Path]
    refine ⟨?_, ?_, ?_, ?_⟩
    · rw [hnext, if_pos hpath.2.symm]
    · rw [hprev, if_neg heq, if_pos rfl, hpath.2]
    · rw [hnext, hpath.2, if_neg he, if_pos rfl]
    · rw [hprev, if_pos rfl]
  | cons x xs ih =>
    intro p hpath he heq hq hnd
    simp only [Link.Path] at hpath
    have hend := Link.Path.end_prev h xs x q hpath.2.2
    have hp_notin : p ∉ x :: xs := (List.nodup_cons.mp hnd).1
    have hpe : p ≠ e := fun hc => he (by simp [hc])
    have hxe : x ≠ e := fun hc => he (by simp [hc])
    have hxq : x ≠ q := fun hc => hq (by simp [hc])
    simp only [List.cons_append, Link.Path]
    refine ⟨?_, ?_, ?_⟩
    · rw [hnext, if_neg (fun hc : p = (h q).prev => hp_notin (by rw [hc]; exact hend)), if_neg hpe]
      exact hpath.1
    · rw [hprev, if_neg hxq, if_neg hxe]
      exact hpath.2.1
    · exact ih x hpath.2.2 (fun hc => he (List.mem_cons_of_mem _ hc)) heq
        (fun hc => hq (List.mem_cons_of_mem _ hc)) (List.nodup_cons.mp hnd).2

/-- Unlinking the node `e` from inside a path. -/
theorem Link.Path.remove_node (h h1 : Nodes) (e q : Nat) (ys : List Nat)
    (hnext : ∀ a, (h1 a).next =
      if a = e then e else if a = (h e).prev then (h e).next else (h a).next)
    (hprev : ∀ a, (h1 a).prev =
      if a = e then e else if a = (h e).next then (h e).prev else (h a).prev) :
    ∀ (xs : List Nat) (p : Nat), Link.Path h p (xs ++ e :: ys) q →
      (p :: (xs ++ e :: ys)).Nodup → q ∉ xs ++ e :: ys → Link.Path h1 p (xs ++ ys) q := by
  intro xs
  induction xs with
  | nil =>
    intro p hpath hnd hq
    simp only [List.nil_append] at hpath hnd hq ⊢
    simp only [Link.Path] at hpath
    obtain ⟨h1p, h2p, hrest⟩ := hpath
    have hpe : p ≠ e := fun hc => (List.nodup_cons.mp hnd).1 (by simp [hc])
    have hqe : q ≠ e := fun hc => hq (by simp [hc])
    cases ys with
    | nil =>
      simp only [Link.Path] at hrest ⊢
      refine ⟨?_, ?_⟩
      · rw [hnext, if_neg hpe, if_pos h2p.symm]
        exact hrest.1
      · rw [hprev, if_neg hqe, if_pos hrest.1.symm]
        exact h2p
    | cons y ys =>
      simp only [Link.Path] at hrest ⊢
      have hye : y ≠ e := by
        intro hc
        have := (List.nodup_cons.mp (List.nodup_cons.mp hnd).2).1
        exact this (by simp [hc])
      have hnd_y : (y :: ys).Nodup := (List.nodup_cons.mp (List.nodup_cons.mp hnd).2).2
      refine ⟨?_, ?_, ?_⟩
      · rw [hnext, if_neg hpe, if_pos h2p.symm]
        exact hrest.1
      · rw [hprev, if_neg hye, if_pos hrest.1.symm]
        exact h2p
      · apply Link.Path.frame h h1 ys y q _ _ hrest.2.2
        · intro a ha
          have hae : a ≠ e := by
            intro hc
            have := (List.nodup_cons.mp (List.nodup_cons.mp hnd).2).1
            exact this (hc ▸ ha)
          have hap : a ≠ (h e).prev := by
            rw [h2p]
            intro hc
            exact (List.nodup_cons.mp hnd).1 (List.mem_cons_of_mem _ (hc ▸ ha))
          rw [hnext, if_neg hae, if_neg hap]
        · intro a ha
          simp only [List.mem_append, List.mem_singleton] at ha
          have hae : a ≠ e := by
            rcases ha with ha | ha
            · intro hc
              have := (List.nodup_cons.mp (List.nodup_cons.mp hnd).2).1
              exact this (List.mem_cons_of_mem _ (hc ▸ ha))
            · rw [ha]; exact hqe
          have hay : a ≠ (h e).next := by
            rw [hrest.1]
            rcases ha with ha | ha
            · intro hc
              exact (List.nodup_cons.mp hnd_y).1 (hc ▸ ha)
            · rw [ha]
              intro hc
              exact hq (by simp [hc])
          rw [hprev, if_neg hae, if_neg hay]
  | cons x xs ih =>
    intro p hpath hnd hq
    simp only [List.cons_append, Link.Path] at hpath ⊢
    obtain ⟨h1p, h2p, hrest⟩ := hpath
    obtain ⟨m1, m2⟩ := Link.Path.mid_links h e q ys xs x hrest
    have hp_notin : p ∉ x :: (xs ++ e :: ys) := (List.nodup_cons.mp hnd).1
    have hnd2 : (x :: (xs ++ e :: ys)).Nodup := (List.nodup_cons.mp hnd).2
    have hx_notin : x ∉ xs ++ e :: ys := (List.nodup_cons.mp hnd2).1
    have hpe : p ≠ e := fun hc => hp_notin (by simp [hc])
    have hxe : x ≠ e := fun hc => hx_notin (by simp [hc])
    refine ⟨?_, ?_, ?_⟩
    · have hpp : p ≠ (h e).prev := by
        intro hc
        apply hp_notin
        rw [hc]
        rcases List.mem_cons.mp m1 with m | m
        · simp [m]
        · exact List.mem_cons_of_mem _ (List.mem_append_left _ m)
      rw [hnext, if_neg hpe, if_neg hpp]
      exact h1p
    · have hxn : x ≠ (h e).next := by
        intro hc
        rcases List.mem_append.mp m2 with m | m
        · exact hx_notin (by rw [hc]; simp [m])
        · simp only [List.mem_singleton] at m
          exact hq (by rw [← m, ← hc]; simp)
      rw [hprev, if_neg hxe, if_neg hxn]
      exact h2p
    · exact ih x hrest hnd2 (fun hc => hq (List.mem_cons_of_mem _ hc))

theorem Link.IsQueue.reset (h : Nodes) (que : Nat) :
    Link.IsQueue (Link.QueueReset h que) que [] := by
  simp [Link.IsQueue, Link.Path, Link.QueueReset]

theorem Link.IsQueue.isEmpty (h : Nodes) (que : Nat) (l : List Nat)
    (hq : Link.IsQueue h que l) : Link.isQueueEmpty h que = l.isEmpty := by
  obtain ⟨hpath, hnd⟩ := hq
  cases l with
  | nil =>
    simp only [Link.Path] at hpath
    simp [Link.isQueueEmpty, hpath.1]
  | cons x xs =>
    simp only [Link.Path] at hpath
    have hx : x ≠ que := fun hc => (List.nodup_cons.mp hnd).1 (by simp [hc])
    simp [Link.isQueueEmpty, hpath.1, hx]

/-- `QueueAppend` at the sentinel of a well-formed queue links a fresh node at
the tail. -/
theorem Link.IsQueue.append (h : Nodes) (que e : Nat) (l : List Nat)
    (hq : Link.IsQueue h que l) (he : e ∉ que :: l) :
    Link.IsQueue (Link.QueueAppend h que e) que (l ++ [e]) := by
  obtain ⟨hpath, hnd⟩ := hq
  have heq : e ≠ que := fun hc => he (by simp [hc])
  have hT : (h que).prev ≠ e := by
    intro hc
    exact he (hc ▸ Link.Path.end_prev h l que que hpath)
  have hql : que ∉ l := (List.nodup_cons.mp hnd).1
  refine ⟨Link.Path.append_node h _ e que (fun a => Link.QueueAppend_next h que e a heq hT)
    (fun a => Link.QueueAppend_prev h que e a heq hT) l que hpath he heq hql hnd, ?_⟩
  have hel : e ∉ l := fun hc => he (List.mem_cons_of_mem _ hc)
  rw [List.nodup_cons] at hnd ⊢
  refine ⟨?_, ?_⟩
  · simp only [List.mem_append, List.mem_singleton, not_or]
    exact ⟨hnd.1, fun hc => heq hc.symm⟩
  · rw [List.nodup_append]
    refine ⟨hnd.2, List.nodup_singleton e, ?_⟩
    intro a ha hb
    simp only [List.mem_singleton] at hb
    exact hel (hb ▸ ha)

/-- `QueueExtract` on a well-formed non-empty queue returns the head and
unlinks it. -/
theorem Link.IsQueue.extract (h : Nodes) (que x : Nat) (xs : List Nat)
    (hq : Link.IsQueue h que (x :: xs)) :
    (Link.QueueExtract h que).1 = x ∧ Link.IsQueue (Link.QueueExtract h que).2 que xs := by
  obtain ⟨hpath, hnd⟩ := hq
  simp only [Link.Path] at hpath
  obtain ⟨h1, h2, hrest⟩ := hpath
  have hxq : x ≠ que := fun hc => (List.nodup_cons.mp hnd).1 (by simp [hc])
  have hnd2 : (que :: xs).Nodup := hnd.sublist (by simp)
  have hx_notin : x ∉ xs := (List.nodup_cons.mp (List.nodup_cons.mp hnd).2).1
  refine ⟨by rw [Link.QueueExtract_fst, h1], ?_, hnd2⟩
  cases xs with
  | nil =>
    simp only [Link.Path] at hrest ⊢
    refine ⟨?_, ?_⟩
    · rw [Link.QueueExtract_next, h1, if_neg hxq.symm, if_pos rfl]
      exact hrest.1
    · rw [Link.QueueExtract_prev, h1, if_neg hxq.symm, hrest.1, if_pos rfl]
  | cons y ys =>
    simp only [Link.Path] at hrest ⊢
    have hyx : y ≠ x := fun hc => hx_notin (by simp [hc])
    have hyq : y ≠ que := fun hc => (List.nodup_cons.mp hnd2).1 (by simp [hc])
    have hnd_y : (y :: ys).Nodup := (List.nodup_cons.mp hnd2).2
    refine ⟨?_, ?_, ?_⟩
    · rw [Link.QueueExtract_next, h1, if_neg hxq.symm, if_pos rfl]
      exact hrest.1
    · rw [Link.QueueExtract_prev, h1, if_neg hyx, hrest.1, if_pos rfl]
    · apply Link.Path.frame h _ ys y que _ _ hrest.2.2
      · intro a ha
        have hax : a ≠ x := fun hc => hx_notin (hc ▸ ha)
        have haq : a ≠ que := fun hc => (List.nodup_cons.mp hnd2).1 (hc ▸ ha)
        rw [Link.QueueExtract_next, h1, if_neg hax, if_neg haq]
      · intro a ha
        simp only [List.mem_append, List.mem_singleton] at ha
        have hax : a ≠ x := by
          rcases ha with ha | ha
          · exact fun hc => hx_notin (List.mem_cons_of_mem _ (hc ▸ ha))
          · rw [ha]; exact hxq.symm
        have hay : a ≠ y := by
          rcases ha with ha | ha
          · exact fun hc => (List.nodup_cons.mp hnd_y).1 (hc ▸ ha)
          · rw [ha]; exact hyq.symm
        rw [Link.QueueExtract_prev, h1, if_neg hax, hrest.1, if_neg hay]

/-- `QueueRemoveEntry` on a node of a well-formed queue unlinks that node and
keeps the others in their order. -/
theorem Link.IsQueue.remove (h : Nodes) (que e : Nat) (l : List Nat)
    (hq : Link.IsQueue h que l) (he : e ∈ l) :
    Link.IsQueue (Link.QueueRemoveEntry h e) que (l.erase e) := by
  obtain ⟨hpath, hnd⟩ := hq
  obtain ⟨xs, ys, rfl⟩ := List.append_of_mem he
  have hnd_l : (xs ++ e :: ys).Nodup := (List.nodup_cons.mp hnd).2
  have hql : que ∉ xs ++ e :: ys := (List.nodup_cons.mp hnd).1
  have hexs : e ∉ xs := by
    intro hc
    have := (List.nodup_append.mp hnd_l).2.2 hc
    exact this (List.mem_cons_self _ _) 
  have heys : e ∉ ys := (List.nodup_cons.mp (List.nodup_append.mp hnd_l).2.1).1
  have herase : (xs ++ e :: ys).erase e = xs ++ ys := by
    rw [List.erase_append_right _ hexs, List.erase_cons_head]
  obtain ⟨_, m2⟩ := Link.Path.mid_links h e que ys xs que hpath
  have hne : (h e).next ≠ e := by
    intro hc
    rw [hc] at m2
    rcases List.mem_append.mp m2 with m | m
    · exact heys m
    · simp only [List.mem_singleton] at m
      exact hql (by rw [← m]; simp)
  rw [herase]
  refine ⟨Link.Path.remove_node h _ e que ys (fun a => Link.QueueRemoveEntry_next h e a hne)
    (fun a => Link.QueueRemoveEntry_prev h e a hne) xs que hpath hnd hql, ?_⟩
  exact hnd.sublist (List.Sublist.cons₂ _ (List.Sublist.append (List.Sublist.refl _)
    (List.sublist_cons_self _ _)))

theorem Link.QueueRemoveEntry_empty (h : Nodes) (e : Nat) (he : (h e).next = e) :
    Link.QueueRemoveEntry h e = h := by
  simp [Link.QueueRemoveEntry, Link.isQueueEmpty, he]

theorem Link.QueueRemoveEntry_self (h : Nodes) (e : Nat) :
    (Link.QueueRemoveEntry h e e).next = e ∧
    ((h e).next ≠ e → (Link.QueueRemoveEntry h e e).prev = e) := by
  by_cases he : (h e).next = e
  · rw [Link.QueueRemoveEntry_empty h e he]
    exact ⟨he, fun hc => absurd he hc⟩
  · exact ⟨by rw [Link.QueueRemoveEntry_next h e e he, if_pos rfl],
      fun _ => by rw [Link.QueueRemoveEntry_prev h e e he, if_pos rfl]⟩

/-- Appending entries one after the other to a well-formed queue. -/
theorem Link.appendAll_spec (que : Nat) (es : List Nat) :
    ∀ (l : List Nat) (h : Nodes), Link.IsQueue h que l → (que :: (l ++ es)).Nodup →
      (Link.appendAll que es h).1 = List.replicate es.length false ∧
      Link.IsQueue (Link.appendAll que es h).2 que (l ++ es) := by
  induction es with
  | nil =>
    intro l h hq _
    simpa [Link.appendAll] using hq
  | cons e es ih =>
    intro l h hq hnd
    have he : e ∉ que :: l := by
      intro hc
      rcases List.mem_cons.mp hc with hc | hc
      · exact (List.nodup_cons.mp hnd).1 (by simp [hc])
      · have := (List.nodup_append.mp (List.nodup_cons.mp hnd).2).2.2 hc
        exact this (List.mem_cons_self _ _)
    have hq1 := Link.IsQueue.append h que e l hq he
    have hemp := Link.IsQueue.isEmpty _ que _ hq1
    obtain ⟨i1, i2⟩ := ih (l ++ [e]) _ hq1 (by simpa using hnd)
    simp only [Link.appendAll, List.length_cons, List.replicate_succ]
    refine ⟨?_, ?_⟩
    · rw [i1, hemp]
      simp
    · simpa using i2

/-- Extracting as many times as a well-formed queue has entries. -/
theorem Link.extractAll_spec (que : Nat) (l : List Nat) :
    ∀ h : Nodes, Link.IsQueue h que l →
      (Link.extractAll que l.length h).1 = Link.extractTrace l ∧
      Link.IsQueue (Link.extractAll que l.length h).2 que [] := by
  induction l with
  | nil =>
    intro h hq
    exact ⟨rfl, hq⟩
  | cons x xs ih =>
    intro h hq
    obtain ⟨e1, e2⟩ := Link.IsQueue.extract h que x xs hq
    obtain ⟨i1, i2⟩ := ih _ e2
    have hb := Link.IsQueue.isEmpty h que _ hq
    have ha := Link.IsQueue.isEmpty _ que _ e2
    simp only [List.length_cons, Link.extractAll, Link.extractTrace]
    refine ⟨?_, i2⟩
    rw [i1, e1, hb, ha]
    rfl

/-- A node linked in a well-formed queue is not empty. -/
theorem Link.IsQueue.linked_ne (h : Nodes) (que e : Nat) (l : List Nat)
    (hq : Link.IsQueue h que l) (he : e ∈ l) : (h e).next ≠ e := by
  obtain ⟨hpath, hnd⟩ := hq
  obtain ⟨xs, ys, rfl⟩ := List.append_of_mem he
  have hnd_l : (xs ++ e :: ys).Nodup := (List.nodup_cons.mp hnd).2
  have hql : que ∉ xs ++ e :: ys := (List.nodup_cons.mp hnd).1
  have heys : e ∉ ys := (List.nodup_cons.mp (List.nodup_append.mp hnd_l).2.1).1
  obtain ⟨_, m2⟩ := Link.Path.mid_links h e que ys xs que hpath
  intro hc
  rw [hc] at m2
  rcases List.mem_append.mp m2 with m | m
  · exact heys m
  · simp only [List.mem_singleton] at m
    exact hql (by rw [← m]; simp)

theorem Link.node_eq (n : queue_t) (a b : Nat) (hp : n.prev = a) (hn : n.next = b) :
    n = { prev := a, next := b } := by
  cases n
  simp_all

/-- `QueueExtract` leaves the node it returns empty. -/
theorem Link.QueueExtract_returned (h : Nodes) (que : Nat) :
    (Link.QueueExtract h que).2 (Link.QueueExtract h que).1 =
      { prev := (Link.QueueExtract h que).1, next := (Link.QueueExtract h que).1 } := by
  apply Link.node_eq
  · rw [Link.QueueExtract_prev, Link.QueueExtract_fst, if_pos rfl]
  · rw [Link.QueueExtract_next, Link.QueueExtract_fst, if_pos rfl]

/-! ## Linked nodes: the claims -/

/-- C24: for distinct nodes `es` other than the sentinel, appending them in
order to a queue that was just reset and extracting as many times returns them
in that order; `isQueueEmpty` is false after each append and before each
extract, false after each extract but the last, and true after the last one. -/
theorem Link.Queue_append_extract_fifo (h : Nodes) (que : Nat) (es : List Nat)
    (hnd : (que :: es).Nodup) :
    Link.isQueueEmpty (Link.QueueReset h que) que = true ∧
    (Link.appendAll que es (Link.QueueReset h que)).1 = List.replicate es.length false ∧
    (Link.extractAll que es.length (Link.appendAll que es (Link.QueueReset h que)).2).1
      = Link.extractTrace es ∧
    ((Link.extractAll que es.length (Link.appendAll que es (Link.QueueReset h que)).2).1.map
      (fun r => r.2.1)) = es ∧
    Link.isQueueEmpty
      (Link.extractAll que es.length (Link.appendAll que es (Link.QueueReset h que)).2).2 que
      = true := by
  have h0 := Link.IsQueue.reset h que
  obtain ⟨a1, a2⟩ := Link.appendAll_spec que es [] _ h0 (by simpa using hnd)
  simp only [List.nil_append] at a2
  obtain ⟨e1, e2⟩ := Link.extractAll_spec que es _ a2
  refine ⟨by rw [Link.IsQueue.isEmpty _ que _ h0]; rfl, a1, e1, ?_,
    by rw [Link.IsQueue.isEmpty _ que _ e2]; rfl⟩
  rw [e1]
  clear a1 a2 e1 e2 hnd h0
  induction es with
  | nil => rfl
  | cons x xs ih => simp [Link.extractTrace, ih]

/-- C24, for the queue `0x100` and the nodes `0x200`, `0x300`, `0x400`. -/
theorem Link.Queue_append_extract_fifo_witness :
    (0x100 :: [0x200, 0x300, 0x400]).Nodup ∧
    (Link.appendAll 0x100 [0x200, 0x300, 0x400] (Link.QueueReset Link.blank 0x100)).1
      = [false, false, false] ∧
    (Link.extractAll 0x100 3
      (Link.appendAll 0x100 [0x200, 0x300, 0x400] (Link.QueueReset Link.blank 0x100)).2).1
      = [(false, 0x200, false), (false, 0x300, false), (false, 0x400, true)] :=
  have h := Link.Queue_append_extract_fifo Link.blank 0x100 [0x200, 0x300, 0x400] (by decide)
  ⟨by decide, h.2.1, h.2.2.1⟩

/-- C25, the claim fails: on the empty queue `0x100` (`prev == next == self`)
`QueueExtract` returns the address `0x100` of the queue node itself, which is
not `NULL`. -/
theorem Link.QueueExtract_empty_returns_sentinel :
    Link.blank 0x100 = { prev := 0x100, next := 0x100 } ∧
    Link.isQueueEmpty Link.blank 0x100 = true ∧
    (Link.QueueExtract Link.blank 0x100).1 = 0x100 ∧
    (Link.QueueExtract Link.blank 0x100).1 ≠ NULL := by
  decide

/-- C25 as amended: on an empty queue (`prev == next == self`) `QueueExtract`
returns the queue node itself and stores back the links that were there: the
queue stays empty and no other node is touched. -/
theorem Link.QueueExtract_on_empty (h : Nodes) (que : Nat)
    (hn : (h que).next = que) (hp : (h que).prev = que) :
    (Link.QueueExtract h que).1 = que ∧
    (∀ a, (Link.QueueExtract h que).2 a = h a) ∧
    Link.isQueueEmpty (Link.QueueExtract h que).2 que = true := by
  have hall : ∀ a, (Link.QueueExtract h que).2 a = h a := by
    intro a
    have e1 := Link.QueueExtract_next h que a
    have e2 := Link.QueueExtract_prev h que a
    rw [hn, hn] at e1 e2
    by_cases ha : a = que
    · subst ha
      rw [if_pos rfl] at e1 e2
      rw [Link.node_eq _ _ _ e2 e1]
      exact (Link.node_eq _ _ _ hp hn).symm
    · rw [if_neg ha, if_neg ha] at e1 e2
      rw [Link.node_eq _ _ _ e2 e1]
  refine ⟨by rw [Link.QueueExtract_fst, hn], hall, ?_⟩
  simp [Link.isQueueEmpty, hall, hn]

/-- C25 as amended, at the empty queue `0x100`. -/
theorem Link.QueueExtract_on_empty_witness :
    (Link.blank 0x100).next = 0x100 ∧ (Link.blank 0x100).prev = 0x100 ∧
    (Link.QueueExtract Link.blank 0x100).1 = 0x100 ∧
    Link.isQueueEmpty (Link.QueueExtract Link.blank 0x100).2 0x100 = true :=
  have h := Link.QueueExtract_on_empty Link.blank 0x100 rfl rfl
  ⟨rfl, rfl, h.1, h.2.2⟩

/-- C26: `QueueRemoveEntry` on a node `e` linked in a well-formed queue leaves
a well-formed queue of the other nodes in their previous order and the node
`e` empty (`prev == next == self`); on a node that is empty it changes no node;
calling it twice is calling it once; and `QueueExtract` leaves the node it
returns empty. -/
theorem Link.QueueRemoveEntry_unlinks (h : Nodes) (que e : Nat) (l : List Nat)
    (hq : Link.IsQueue h que l) (he : e ∈ l) :
    Link.IsQueue (Link.QueueRemoveEntry h e) que (l.erase e) ∧
    l.erase e = l.filter (fun x => x ≠ e) ∧
    Link.QueueRemoveEntry h e e = { prev := e, next := e } ∧
    (∀ (g : Nodes) (x : Nat), g x = { prev := x, next := x } → Link.QueueRemoveEntry g x = g) ∧
    Link.QueueRemoveEntry (Link.QueueRemoveEntry h e) e = Link.QueueRemoveEntry h e ∧
    (∀ (g : Nodes) (q : Nat), (Link.QueueExtract g q).2 (Link.QueueExtract g q).1 =
      { prev := (Link.QueueExtract g q).1, next := (Link.QueueExtract g q).1 }) := by
  have hne := Link.IsQueue.linked_ne h que e l hq he
  have hself := Link.QueueRemoveEntry_self h e
  refine ⟨Link.IsQueue.remove h que e l hq he, ?_, ?_, ?_, ?_, Link.QueueExtract_returned⟩
  · have hnd : l.Nodup := (List.nodup_cons.mp hq.2).2
    rw [hnd.erase_eq_filter]
    apply List.filter_congr
    intro x _
    by_cases hx : x = e <;> simp [hx]
  · exact Link.node_eq _ _ _ (hself.2 hne) hself.1
  · intro g x hg
    exact Link.QueueRemoveEntry_empty g x (by rw [hg])
  · exact Link.QueueRemoveEntry_empty _ e hself.1

/-- C26, at the queue `0x100` holding `0x200`, `0x300`, `0x400`, for the node
`0x300`: afterwards the extracts return `0x200` and `0x400`. -/
theorem Link.QueueRemoveEntry_unlinks_witness :
    Link.IsQueue Link.three 0x100 [0x200, 0x300, 0x400] ∧
    Link.IsQueue (Link.QueueRemoveEntry Link.three 0x300) 0x100 [0x200, 0x400] ∧
    Link.QueueRemoveEntry Link.three 0x300 0x300 = { prev := 0x300, next := 0x300 } ∧
    (Link.extractAll 0x100 2 (Link.QueueRemoveEntry Link.three 0x300)).1.map (fun r => r.2.1)
      = [0x200, 0x400] :=
  have hq : Link.IsQueue Link.three 0x100 [0x200, 0x300, 0x400] := by
    unfold Link.IsQueue Link.Path Link.Path Link.Path Link.Path
    decide
  have h := Link.QueueRemoveEntry_unlinks Link.three 0x100 0x300 [0x200, 0x300, 0x400] hq
    (by decide)
  ⟨hq, h.1, h.2.2.1, by decide⟩

end MbOS
